import Mathlib

/-!
# Verification of the proxyproto wire codec

A shallow embedding of the `fango6/proxyproto` Go package: the PROXY-protocol
text (v1) and binary (v2) codecs, the TLV extension codec, the CRC-32c
checksum engine, and the connection wrapper's lazy header read.

Conventions of the embedding:
* Go `[]byte` / `string` values are `List Nat` with every element `< 256`.
* Machine integers are `Nat` (or `Int` for Go `int`), with `% 2 ^ w` written
  out wherever Go's conversions can wrap.
* Fallible Go functions return `Except Err` (or `Option`); a Go panic is
  modelled as `Option.none`.
* `bufio.Reader` is modelled as a cursor over the byte list.  This is exact
  for sources that fit in the 4096-byte bufio buffer and deliver all bytes on
  the first underlying read (e.g. `strings.Reader`, or a TCP segment that
  already arrived); every stream appearing in a theorem below is of that kind.
  The connection wrapper model additionally accounts for the bytes the
  buffered reader pulls off the underlying connection.
* `net.IP`, `net.ParseIP` and `IP.String` are Go standard-library
  collaborators; they are modelled from the Go `net`/`netip` sources
  (Go ≥ 1.17 semantics: IPv4 fields reject leading zeros).  Mixed
  IPv6-with-embedded-IPv4 notation and zones are included where the package
  can encounter them; `strconv.Atoi`'s int64 range error is not modelled
  (no input considered here comes near it).
-/

namespace Proxyproto

/-- Errors of the package: one constructor per exported `Err...` value, plus
`msg` for ad-hoc `errors.New` and `wrap` for `errors.Wrap`. -/
inductive Err where
  | noProxyProtocol
  | eof
  | unexpectedEOF
  | mustEndWithCRLF
  | headerTooLong
  | notFoundAddressFamily
  | invalidAddressFamily
  | notFoundAddressOrPort
  | unknownVersionAndCommand
  | unknownAddrFamilyAndTranProtocol
  | payloadLengthTooShort
  | payloadBytesTooShort
  | tlvLenTooShort
  | tlvValTooShort
  | unknownVersion
  | unknownAddrFamily
  | unknownTranProtocol
  | invalidAddress
  | exceedPayloadLength
  | validateCRC32cChecksum
  | msg (s : String)
  | wrap (s : String) (e : Err)
deriving DecidableEq, Repr

/-- A network address (`net.Addr`): `*net.TCPAddr`, `*net.UDPAddr` or
`*net.UnixAddr`.  IPs are byte lists (4 or 16 bytes), ports are Go `int`,
Unix `Name`/`Net` strings are byte lists. -/
inductive Addr where
  | tcp (ip : List Nat) (port : Int)
  | udp (ip : List Nat) (port : Int)
  | unix (name : List Nat) (net : List Nat)
deriving DecidableEq, Repr

/-- A Type-Length-Value group (`TLV`). -/
structure TLV where
  typ : Nat
  length : Nat
  value : List Nat
deriving DecidableEq, Repr

/-- The parsed or to-be-formatted protocol header (`Header`). -/
structure Header where
  version : Nat
  command : Nat
  addressFamily : Nat
  transportProtocol : Nat
  srcAddr : Option Addr
  dstAddr : Option Addr
  raw : List Nat
  tlvs : List TLV
deriving DecidableEq, Repr

/-- `v1Prefix = []byte("PROXY ")`. -/
def v1Magic : List Nat := [80, 82, 79, 88, 89, 32]

/-- `v2Signature = []byte("\r\n\r\n\x00\r\nQUIT\n")`. -/
def v2Signature : List Nat := [13, 10, 13, 10, 0, 13, 10, 81, 85, 73, 84, 10]

/-- `v1LocalValue = []byte("PROXY UNKNOWN\r\n")`. -/
def v1LocalValue : List Nat :=
  [80, 82, 79, 88, 89, 32, 85, 78, 75, 78, 79, 87, 78, 13, 10]

/-- `v2LocalValue = []byte("\r\n\r\n\x00\r\nQUIT\n\x20\x00\x00\x00")`. -/
def v2LocalValue : List Nat := v2Signature ++ [32, 0, 0, 0]

def Version1 : Nat := 1
def Version2 : Nat := 2
def CMD_LOCAL : Nat := 0
def CMD_PROXY : Nat := 1
def AF_UNSPEC : Nat := 0
def AF_INET : Nat := 1
def AF_INET6 : Nat := 2
def AF_UNIX : Nat := 3
def SOCK_UNSPEC : Nat := 0
def SOCK_STREAM : Nat := 1
def SOCK_DGRAM : Nat := 2

/-- `Unknown string = "Unknown"`. -/
def UnknownTag : String := "Unknown"

/-- `Version.String`. -/
def versionString (v : Nat) : String :=
  if v = Version1 then "V1" else if v = Version2 then "V2" else UnknownTag

/-- `Command.String` (the Go code really does return "V1"/"V2" here). -/
def commandString (c : Nat) : String :=
  if c = CMD_LOCAL then "V1" else if c = CMD_PROXY then "V2" else UnknownTag

/-- `AddressFamily.String` (the Go code returns "IPv4" for `AF_INET6` too). -/
def addressFamilyString (af : Nat) : String :=
  if af = AF_INET then "IPv4"
  else if af = AF_INET6 then "IPv4"
  else if af = AF_UNIX then "Unix"
  else UnknownTag

/-- `TransportProtocol.String`. -/
def transportProtocolString (tp : Nat) : String :=
  if tp = SOCK_STREAM then "TCP" else if tp = SOCK_DGRAM then "UDP" else UnknownTag

/-! ## The buffered reader

A `bufio.Reader` over a fully available source, as a cursor: each operation
returns what it yields together with the not-yet-consumed remainder. -/

/-- `reader.Peek(n)`: the next `n` bytes without consuming them; an `io.EOF`
error when fewer are available (callers below check the error before looking
at the partial result, so the partial bytes need not be returned). -/
def rdPeek (n : Nat) (s : List Nat) : Except Err (List Nat) :=
  if s.length < n then .error .eof else .ok (s.take n)

/-- `reader.Read(p)` with `len(p) = n`: up to `n` bytes, `io.EOF` only at the
end of the stream. -/
def rdRead (n : Nat) (s : List Nat) : List Nat × Option Err × List Nat :=
  if n = 0 then ([], none, s)
  else if s = [] then ([], some .eof, s)
  else (s.take n, none, s.drop n)

/-- `reader.ReadByte()`. -/
def rdByte (s : List Nat) : Except Err (Nat × List Nat) :=
  match s with
  | [] => .error .eof
  | b :: rest => .ok (b, rest)

/-- `binary.Read(io.LimitReader(reader, 2), binary.BigEndian, &uint16)`:
reads exactly two bytes (`io.ReadFull` semantics). -/
def rdUint16BE (s : List Nat) : Except Err (Nat × List Nat) :=
  match s with
  | b0 :: b1 :: rest => .ok (b0 * 256 + b1, rest)
  | [_] => .error .unexpectedEOF
  | [] => .error .eof

/-! ## TLV codec (`tlv.go`) -/

def PP2_TYPE_ALPN : Nat := 0x01
def PP2_TYPE_AUTHORITY : Nat := 0x02
def PP2_TYPE_CRC32C : Nat := 0x03
def PP2_TYPE_NOOP : Nat := 0x04
def PP2_TYPE_UNIQUE_ID : Nat := 0x05
def PP2_TYPE_SSL : Nat := 0x20
def PP2_SUBTYPE_SSL_VERSION : Nat := 0x21
def PP2_SUBTYPE_SSL_CN : Nat := 0x22
def PP2_SUBTYPE_SSL_CIPHER : Nat := 0x23
def PP2_SUBTYPE_SSL_SIG_ALG : Nat := 0x24
def PP2_SUBTYPE_SSL_KEY_ALG : Nat := 0x25
def PP2_TYPE_NETNS : Nat := 0x30

/-- `TLV.IsRegistered`. -/
def isRegistered (t : Nat) : Bool :=
  t = PP2_TYPE_ALPN ∨ t = PP2_TYPE_AUTHORITY ∨ t = PP2_TYPE_CRC32C ∨
  t = PP2_TYPE_NOOP ∨ t = PP2_TYPE_UNIQUE_ID ∨ t = PP2_TYPE_SSL ∨
  t = PP2_SUBTYPE_SSL_VERSION ∨ t = PP2_SUBTYPE_SSL_CN ∨
  t = PP2_SUBTYPE_SSL_CIPHER ∨ t = PP2_SUBTYPE_SSL_SIG_ALG ∨
  t = PP2_SUBTYPE_SSL_KEY_ALG ∨ t = PP2_TYPE_NETNS

/-- The loop of `parseTLVs`, with fuel for structural recursion (every
iteration consumes at least one byte, so `rawTLVs.length` fuel always
suffices — see `parseTLVsAux_fuel`). -/
def parseTLVsAux (fuel : Nat) (rawTLVs : List Nat) : Except Err (List TLV) :=
  match fuel, rawTLVs with
  | _, [] => .ok []
  | 0, _ :: _ => .error .tlvLenTooShort  -- unreachable with enough fuel
  | fuel + 1, t :: rest =>
    match rest with
    | [] => .error .tlvLenTooShort
    | [_] => .error .tlvLenTooShort
    | l0 :: l1 :: rest2 =>
      let length := l0 * 256 + l1
      if rest2.length < length then .error .tlvValTooShort
      else
        match parseTLVsAux fuel (rest2.drop length) with
        | .error e => .error e
        | .ok tlvs => .ok (⟨t, length, rest2.take length⟩ :: tlvs)

/-- `parseTLVs`: repeatedly read type byte, 16-bit big-endian length, value. -/
def parseTLVs (rawTLVs : List Nat) : Except Err (List TLV) :=
  parseTLVsAux rawTLVs.length rawTLVs


/-- `NewTLV` (length is `uint16(len(val))`). -/
def newTLV (t : Nat) (val : List Nat) : TLV :=
  ⟨t, val.length % 65536, val⟩

/-- `NewNoOpTLV`. -/
def newNoOpTLV (length : Nat) : TLV :=
  ⟨PP2_TYPE_NOOP, length, List.replicate length 0⟩

/-- `TLV.Format`: type byte, 16-bit big-endian length, value; an empty-value
NOOP group with positive declared length encodes as that many zero bytes. -/
def tlvFormat (tlv : TLV) : List Nat :=
  let l := tlv.value.length
  if l = 0 then
    if tlv.typ = PP2_TYPE_NOOP ∧ 0 < tlv.length then List.replicate tlv.length 0
    else []
  else
    tlv.typ :: (l / 256) % 256 :: l % 256 :: tlv.value

/-! ## Binary codec, read side (v2) -/

def addressLengthIPv4 : Nat := 12
def addressLengthIPv6 : Nat := 36
def addressLengthUnix : Nat := 216

/-- `validatePayloadLength`. -/
def validatePayloadLength (length af : Nat) : Except Err Unit :=
  if af = AF_INET then
    if length < addressLengthIPv4 then .error .payloadLengthTooShort else .ok ()
  else if af = AF_INET6 then
    if length < addressLengthIPv6 then .error .payloadLengthTooShort else .ok ()
  else if af = AF_UNIX then
    if length < addressLengthUnix then .error .payloadLengthTooShort else .ok ()
  else .ok ()

/-- `validatePort`: rejects `port <= 0 || port >= math.MaxUint16`
(so 65535 itself is rejected). -/
def validatePort (port : Int) : Except Err Unit :=
  if port ≤ 0 ∨ 65535 ≤ port then .error (.msg "invalid port") else .ok ()

/-- `net.IP.To4`. -/
def ipTo4 (ip : List Nat) : Option (List Nat) :=
  if ip.length = 4 then some ip
  else if ip.length = 16 ∧ ip.take 10 = List.replicate 10 0 ∧
      ip.get? 10 = some 255 ∧ ip.get? 11 = some 255 then
    some (ip.drop 12)
  else none

/-- The 16-byte IPv4-mapped form (`v4InV6Prefix ++ 4 bytes`), as produced by
`net.IPv4`. -/
def v4Mapped (b : List Nat) : List Nat :=
  [0, 0, 0, 0, 0, 0, 0, 0, 0, 0, 255, 255] ++ b

/-- `net.IP.To16`. -/
def ipTo16 (ip : List Nat) : Option (List Nat) :=
  if ip.length = 4 then some (v4Mapped ip)
  else if ip.length = 16 then some ip
  else none

/-- `validateIP`. -/
def validateIP (ip : Option (List Nat)) (af : Nat) : Except Err Unit :=
  match ip with
  | none => .error (.msg "invalid or empty IP")
  | some ip =>
    if af = AF_INET ∧ (ipTo4 ip).isNone then .error (.msg "invalid IPv4")
    else if af = AF_INET6 ∧ (ipTo16 ip).isNone then .error (.msg "invalid IPv6")
    else .ok ()

/-- `parseUnixName`: trim at the first NUL. -/
def parseUnixName (name : List Nat) : List Nat :=
  if (name.indexOf 0) < name.length then name.take (name.indexOf 0) else name

/-- The `Net` string `"unix"`. -/
def unixNet : List Nat := [117, 110, 105, 120]

/-- The `Net` string `"unixgram"`. -/
def unixgramNet : List Nat := [117, 110, 105, 120, 103, 114, 97, 109]

/-- `parseV2IPv4`: 4+4 address bytes, 2+2 big-endian ports. -/
def parseV2IPv4 (payload : List Nat) (tp : Nat) : Except Err (Addr × Addr) :=
  if payload.length < addressLengthIPv4 then .error .payloadBytesTooShort
  else
    let srcIP := v4Mapped (payload.take 4)
    match validateIP (some srcIP) AF_INET with
    | .error e => .error (.wrap "source" e)
    | .ok _ =>
      let dstIP := v4Mapped ((payload.drop 4).take 4)
      match validateIP (some dstIP) AF_INET with
      | .error e => .error (.wrap "destination" e)
      | .ok _ =>
        let srcPort : Int :=
          (payload.getD 8 0) * 256 + payload.getD 9 0
        match validatePort srcPort with
        | .error e => .error (.wrap "source" e)
        | .ok _ =>
          let dstPort : Int :=
            (payload.getD 10 0) * 256 + payload.getD 11 0
          match validatePort dstPort with
          | .error e => .error (.wrap "destination" e)
          | .ok _ =>
            if tp = SOCK_DGRAM then
              .ok (.udp srcIP srcPort, .udp dstIP dstPort)
            else
              .ok (.tcp srcIP srcPort, .tcp dstIP dstPort)

/-- `parseV2IPv6`: 16+16 address bytes, 2+2 big-endian ports. -/
def parseV2IPv6 (payload : List Nat) (tp : Nat) : Except Err (Addr × Addr) :=
  if payload.length < addressLengthIPv6 then .error .payloadBytesTooShort
  else
    let srcIP := payload.take 16
    match validateIP (some srcIP) AF_INET6 with
    | .error e => .error (.wrap "source" e)
    | .ok _ =>
      let dstIP := (payload.drop 16).take 16
      match validateIP (some dstIP) AF_INET6 with
      | .error e => .error (.wrap "destination" e)
      | .ok _ =>
        let srcPort : Int :=
          (payload.getD 32 0) * 256 + payload.getD 33 0
        match validatePort srcPort with
        | .error e => .error (.wrap "source" e)
        | .ok _ =>
          let dstPort : Int :=
            (payload.getD 34 0) * 256 + payload.getD 35 0
          match validatePort dstPort with
          | .error e => .error (.wrap "destination" e)
          | .ok _ =>
            if tp = SOCK_DGRAM then
              .ok (.udp srcIP srcPort, .udp dstIP dstPort)
            else
              .ok (.tcp srcIP srcPort, .tcp dstIP dstPort)

/-- `parseV2Unix`: two 108-byte NUL-padded path fields. -/
def parseV2Unix (payload : List Nat) (tp : Nat) : Except Err (Addr × Addr) :=
  if payload.length < addressLengthUnix then .error .payloadBytesTooShort
  else
    let network := if tp = SOCK_DGRAM then unixgramNet else unixNet
    .ok (.unix (parseUnixName (payload.take 108)) network,
         .unix (parseUnixName ((payload.drop 108).take 108)) network)

/-- `readV2`: signature, version/command byte, family/transport byte,
payload length, payload bytes.  Returns the header and the unconsumed
remainder of the stream. -/
def readV2 (s : List Nat) : Except Err (Header × List Nat) :=
  let r := rdRead v2Signature.length s
  if r.2.1.isSome ∨ r.1.length < v2Signature.length ∨ r.1 ≠ v2Signature then
    .error .noProxyProtocol
  else
    match rdByte r.2.2 with
    | .error e => .error e
    | .ok (verAndCmd, s1) =>
      let ver := verAndCmd / 16
      let cmd := verAndCmd % 16
      if ver ≠ Version2 ∨ commandString cmd = UnknownTag then
        .error .unknownVersionAndCommand
      else
        match rdByte s1 with
        | .error e => .error e
        | .ok (afAndTp, s2) =>
          let af := afAndTp / 16
          let tp := afAndTp % 16
          if addressFamilyString af = UnknownTag ∨
              transportProtocolString tp = UnknownTag then
            .error .unknownAddrFamilyAndTranProtocol
          else
            match rdUint16BE s2 with
            | .error e => .error e
            | .ok (payloadLength, s3) =>
              let raw := v2Signature ++
                [verAndCmd, afAndTp, (payloadLength / 256) % 256, payloadLength % 256]
              let header : Header :=
                ⟨Version2, cmd, af, tp, none, none, raw, []⟩
              if payloadLength = 0 ∨ cmd = CMD_LOCAL then
                .ok ({ header with command := CMD_LOCAL }, s3)
              else
                match validatePayloadLength payloadLength af with
                | .error e => .error e
                | .ok _ =>
                  let rp := rdRead payloadLength s3
                  match rp.2.1 with
                  | some e => .error e
                  | none =>
                    if rp.1.length ≠ payloadLength then .error .payloadBytesTooShort
                    else .ok ({ header with raw := raw ++ rp.1 }, rp.2.2)

/-- `parseV2`: decode the fixed address block and the TLV stream out of
`header.Raw`. -/
def parseV2 (header : Header) : Except Err Header :=
  if header.command = CMD_LOCAL then .ok header
  else if header.raw.length ≤ v2Signature.length + 4 then
    .error (.msg "pp2 payload is empty")
  else
    let payload := header.raw.drop (v2Signature.length + 4)
    if header.addressFamily = AF_INET then
      match parseV2IPv4 payload header.transportProtocol with
      | .error e => .error e
      | .ok (srcAddr, dstAddr) =>
        match parseTLVs (payload.drop addressLengthIPv4) with
        | .error e => .error e
        | .ok tlvs =>
          .ok { header with srcAddr := some srcAddr, dstAddr := some dstAddr,
                            tlvs := tlvs }
    else if header.addressFamily = AF_INET6 then
      match parseV2IPv6 payload header.transportProtocol with
      | .error e => .error e
      | .ok (srcAddr, dstAddr) =>
        match parseTLVs (payload.drop addressLengthIPv6) with
        | .error e => .error e
        | .ok tlvs =>
          .ok { header with srcAddr := some srcAddr, dstAddr := some dstAddr,
                            tlvs := tlvs }
    else if header.addressFamily = AF_UNIX then
      match parseV2Unix payload header.transportProtocol with
      | .error e => .error e
      | .ok (srcAddr, dstAddr) =>
        match parseTLVs (payload.drop addressLengthUnix) with
        | .error e => .error e
        | .ok tlvs =>
          .ok { header with srcAddr := some srcAddr, dstAddr := some dstAddr,
                            tlvs := tlvs }
    else .error .unknownAddrFamilyAndTranProtocol

/-- `readAndParseV2`. -/
def readAndParseV2 (s : List Nat) : Except Err (Header × List Nat) :=
  match readV2 s with
  | .error e => .error e
  | .ok (header, rest) =>
    match parseV2 header with
    | .error e => .error e
    | .ok header => .ok (header, rest)

/-! ## Text codec, read side (v1) -/

/-- ASCII decimal digit. -/
def isDigitB (b : Nat) : Bool := 48 ≤ b ∧ b ≤ 57

/-- ASCII hex digit (`0-9a-fA-F`). -/
def isHexB (b : Nat) : Bool :=
  isDigitB b ∨ (97 ≤ b ∧ b ≤ 102) ∨ (65 ≤ b ∧ b ≤ 70)

/-- Value of a hex digit character. -/
def hexV (b : Nat) : Nat :=
  if b ≤ 57 then b - 48 else if b ≤ 70 then b - 55 else b - 87

/-- Value of a big-endian decimal digit string. -/
def decValue (ds : List Nat) : Nat :=
  ds.foldl (fun acc d => acc * 10 + (d - 48)) 0

/-- Value of a big-endian hex digit string. -/
def hexValue (ds : List Nat) : Nat :=
  ds.foldl (fun acc d => acc * 16 + hexV d) 0

/-- One dotted-quad field (`netip.parseIPv4`): at least one digit, no leading
zero, value at most 255.  Returns the value and the unconsumed rest. -/
def parseV4Field (s : List Nat) : Option (Nat × List Nat) :=
  let ds := s.takeWhile isDigitB
  if ds = [] then none
  else if 1 < ds.length ∧ ds.head? = some 48 then none
  else if 255 < decValue ds then none
  else some (decValue ds, s.drop ds.length)

/-- `netip.parseIPv4`, yielding the four octets. -/
def parseIPv4bytes (s : List Nat) : Option (List Nat) :=
  match parseV4Field s with
  | some (a, 46 :: r1) =>
    match parseV4Field r1 with
    | some (b, 46 :: r2) =>
      match parseV4Field r2 with
      | some (c, 46 :: r3) =>
        match parseV4Field r3 with
        | some (d, []) => some [a, b, c, d]
        | _ => none
      | _ => none
    | _ => none
  | _ => none

/-- `net.ParseIP` on dotted-quad input: the 16-byte IPv4-mapped form. -/
def parseIPv4 (s : List Nat) : Option (List Nat) :=
  (parseIPv4bytes s).map v4Mapped

/-- One 16-bit hex group of an IPv6 literal (`netip.parseIPv6`'s inner loop):
greedy hex digits, failing outright when the value exceeds `0xFFFF`. -/
def parseHexGroup (s : List Nat) : Option (Nat × List Nat) :=
  let ds := s.takeWhile isHexB
  if ds = [] then none
  else if 65535 < hexValue ds then none
  else some (hexValue ds, s.drop ds.length)

/-- The 16 bytes of a list of 16-bit groups (big-endian). -/
def bytesOfGroups (gs : List Nat) : List Nat :=
  (gs.map (fun g => [(g / 256) % 256, g % 256])).flatten

/-- `netip.parseIPv6` after its loop: a full address must not have used `::`,
a short one must have, with the missing groups filled with zeros at the
ellipsis position. -/
def p6finish (gs : List Nat) (ell : Option Nat) : Option (List Nat) :=
  if gs.length = 8 then
    match ell with
    | some _ => none
    | none => some (bytesOfGroups gs)
  else
    match ell with
    | none => none
    | some e =>
      some (bytesOfGroups (gs.take e ++ List.replicate (8 - gs.length) 0 ++ gs.drop e))

/-- The loop of `netip.parseIPv6`: `gs` are the 16-bit groups parsed so far,
`ell` the group index of the `::` if one was seen, `s` the remaining input.
The fuel (9 at loop entry) serves structural recursion only: every iteration
adds a group and the loop stops at 8 groups, so it is never exhausted. -/
def p6loop (fuel : Nat) (gs : List Nat) (ell : Option Nat) (s : List Nat) :
    Option (List Nat) :=
  if 8 ≤ gs.length then
    if s = [] then p6finish gs ell else none
  else
    match fuel with
    | 0 => none  -- unreachable: fuel + gs.length stays at least 9
    | fuel + 1 =>
      match parseHexGroup s with
      | none => none
      | some (g, rest) =>
        if rest.head? = some 46 then
          -- an embedded IPv4 trailer must replace the final two 16-bit fields
          if (ell = none ∧ gs.length ≠ 6) ∨ 6 < gs.length then none
          else
            match parseIPv4bytes s with
            | none => none
            | some q4 =>
              p6finish (gs ++ [q4.getD 0 0 * 256 + q4.getD 1 0,
                               q4.getD 2 0 * 256 + q4.getD 3 0]) ell
        else
          let gs' := gs ++ [g]
          if rest = [] then p6finish gs' ell
          else if rest.head? ≠ some 58 then none
          else if rest.length = 1 then none
          else
            match rest with
            | _ :: rest1 =>
              if rest1.head? = some 58 then
                match ell with
                | some _ => none
                | none =>
                  match rest1 with
                  | _ :: rest2 =>
                    if rest2 = [] then p6finish gs' (some gs'.length)
                    else p6loop fuel gs' (some gs'.length) rest2
                  | [] => none  -- unreachable: rest1 starts with a colon
              else p6loop fuel gs' ell rest1
            | [] => none  -- unreachable: rest is nonempty here

/-- `netip.parseIPv6`. -/
def parseIPv6 (s : List Nat) : Option (List Nat) :=
  if s.take 2 = [58, 58] then
    let s2 := s.drop 2
    if s2 = [] then some (List.replicate 16 0)
    else p6loop 9 [] (some 0) s2
  else p6loop 9 [] none s

/-- `net.ParseIP`: dispatch on the first `.`, `:` or `%`; a zoned address or
one with no separator at all yields `nil`. -/
def parseIP (s : List Nat) : Option (List Nat) :=
  match s.find? (fun b => b = 46 ∨ b = 58 ∨ b = 37) with
  | some 46 => parseIPv4 s
  | some 58 => parseIPv6 s
  | _ => none

/-- `strconv.Atoi` (without the int64 range error, irrelevant here): an
optional sign followed by at least one digit. -/
def atoi (s : List Nat) : Option Int :=
  match s with
  | [] => none
  | c :: rest =>
    let neg := c = 45
    let ds := if c = 45 ∨ c = 43 then rest else c :: rest
    if ds = [] ∨ ¬ ds.all isDigitB then none
    else some (if neg then -(decValue ds : Int) else (decValue ds : Int))

/-- `parseAndValidateIP`. -/
def parseAndValidateIP (srcIpStr dstIpStr : List Nat) (af : Nat) :
    Except Err (List Nat × List Nat) :=
  let srcIP := parseIP srcIpStr
  match validateIP srcIP af with
  | .error e => .error (.wrap "source IP" e)
  | .ok _ =>
    let dstIP := parseIP dstIpStr
    match validateIP dstIP af with
    | .error e => .error (.wrap "destination IP" e)
    | .ok _ => .ok (srcIP.getD [], dstIP.getD [])

/-- `parseAndValidatePort`. -/
def parseAndValidatePort (srcPortStr dstPortStr : List Nat) :
    Except Err (Int × Int) :=
  match atoi srcPortStr with
  | none => .error (.wrap "source port" (.msg "invalid syntax"))
  | some srcPort =>
    match validatePort srcPort with
    | .error e => .error (.wrap "source port" e)
    | .ok _ =>
      match atoi dstPortStr with
      | none => .error (.wrap "destination port" (.msg "invalid syntax"))
      | some dstPort =>
        match validatePort dstPort with
        | .error e => .error (.wrap "destination port" e)
        | .ok _ => .ok (srcPort, dstPort)

/-- ASCII whitespace, as `unicode.IsSpace` behaves on ASCII (all byte strings
considered in the theorems below are ASCII). -/
def isSpaceB (b : Nat) : Bool :=
  b = 32 ∨ b = 9 ∨ b = 10 ∨ b = 11 ∨ b = 12 ∨ b = 13

/-- The loop of `strings.Fields`, with fuel for structural recursion (every
step consumes at least one byte, so `s.length` fuel always suffices). -/
def fieldsOfAux (fuel : Nat) (s : List Nat) : List (List Nat) :=
  match fuel, s with
  | _, [] => []
  | 0, _ :: _ => []  -- unreachable with enough fuel
  | fuel + 1, b :: rest =>
    if isSpaceB b then fieldsOfAux fuel rest
    else (b :: rest.takeWhile (fun c => ¬ isSpaceB c)) ::
      fieldsOfAux fuel (rest.dropWhile (fun c => ¬ isSpaceB c))

/-- `strings.Fields`. -/
def fieldsOf (s : List Nat) : List (List Nat) :=
  fieldsOfAux s.length s


/-- `bytes.TrimSpace` (ASCII). -/
def trimSpace (s : List Nat) : List Nat :=
  ((s.dropWhile isSpaceB).reverse.dropWhile isSpaceB).reverse

/-- `v1HeaderMaxLength = 107`. -/
def v1HeaderMaxLength : Nat := 107

/-- The byte-reading loop of `readV1`: read until a line feed, which must be
preceded by a carriage return, bounding the accumulated length. -/
def readV1Loop (raw : List Nat) (s : List Nat) : Except Err (List Nat × List Nat) :=
  match s with
  | [] => .error .eof
  | b :: rest =>
    if b = 10 then
      if raw.getLastD 0 ≠ 13 then .error .mustEndWithCRLF
      else .ok (raw ++ [10], rest)
    else
      if v1HeaderMaxLength ≤ (raw ++ [b]).length then .error .headerTooLong
      else readV1Loop (raw ++ [b]) rest

/-- `readV1`. -/
def readV1 (s : List Nat) : Except Err (List Nat × List Nat) :=
  let r := rdRead v1Magic.length s
  if r.2.1.isSome ∨ r.1.length < v1Magic.length ∨ r.1 ≠ v1Magic then
    .error .noProxyProtocol
  else readV1Loop v1Magic r.2.2

def tagTCP4 : List Nat := [84, 67, 80, 52]
def tagTCP6 : List Nat := [84, 67, 80, 54]
def tagUNKNOWN : List Nat := [85, 78, 75, 78, 79, 87, 78]

/-- `parseV1`. -/
def parseV1 (raw : List Nat) : Except Err Header :=
  let fs := fieldsOf (trimSpace raw)
  if fs.length < 2 then .error .notFoundAddressFamily
  else
    let tag := fs.getD 1 []
    let af? : Option Nat :=
      if tag = tagTCP4 then some AF_INET
      else if tag = tagTCP6 then some AF_INET6
      else if tag = tagUNKNOWN then some AF_UNSPEC
      else none
    match af? with
    | none => .error .invalidAddressFamily
    | some af =>
      if af ≠ AF_UNSPEC ∧ fs.length < 6 then .error .notFoundAddressOrPort
      else if af ≠ AF_INET ∧ af ≠ AF_INET6 then
        .ok ⟨Version1, CMD_LOCAL, af, SOCK_UNSPEC, none, none, raw, []⟩
      else
        match parseAndValidateIP (fs.getD 2 []) (fs.getD 3 []) af with
        | .error e => .error e
        | .ok (srcIP, dstIP) =>
          match parseAndValidatePort (fs.getD 4 []) (fs.getD 5 []) with
          | .error e => .error e
          | .ok (srcPort, dstPort) =>
            .ok ⟨Version1, CMD_PROXY, af, SOCK_STREAM,
                 some (.tcp srcIP srcPort), some (.tcp dstIP dstPort), raw, []⟩

/-- `readAndParseV1`. -/
def readAndParseV1 (s : List Nat) : Except Err (Header × List Nat) :=
  match readV1 s with
  | .error e => .error e
  | .ok (raw, rest) =>
    match parseV1 raw with
    | .error e => .error e
    | .ok h => .ok (h, rest)

/-- `ReadHeader`: peek 6 bytes to detect v1, else peek the 12-byte signature
to detect v2, else `ErrNoProxyProtocol`. -/
def ReadHeader (s : List Nat) : Except Err (Header × List Nat) :=
  match rdPeek v1Magic.length s with
  | .error e => if e = .eof then .error .noProxyProtocol else .error e
  | .ok pre =>
    if pre = v1Magic then readAndParseV1 s
    else if ¬ pre.isPrefixOf v2Signature then .error .noProxyProtocol
    else
      match rdPeek v2Signature.length s with
      | .error e => if e = .eof then .error .noProxyProtocol else .error e
      | .ok pre2 =>
        if pre2 = v2Signature then readAndParseV2 s
        else .error .noProxyProtocol

/-! ## Formatting (client side) -/

/-- Decimal rendering of a byte/number (Go `strconv`/`ubtoa`). -/
def decToChars (n : Nat) : List Nat :=
  if n = 0 then [48] else (Nat.digits 10 n).reverse.map (fun d => d + 48)

/-- The character of a hex digit, lowercase (Go's `hexDigit` table). -/
def hexDigitChar (d : Nat) : Nat := if d < 10 then 48 + d else 87 + d

/-- Hex rendering of a 16-bit group (Go `appendHex`): no leading zeros,
`"0"` for zero. -/
def hexToChars (n : Nat) : List Nat :=
  if n = 0 then [48] else (Nat.digits 16 n).reverse.map hexDigitChar

/-- `strconv.Itoa`. -/
def itoa (i : Int) : List Nat :=
  if i < 0 then 45 :: decToChars (-i).toNat else decToChars i.toNat

/-- Dotted-quad rendering of 4 octets (`IP.String` on a 4-byte IP). -/
def ipv4String (b : List Nat) : List Nat :=
  decToChars (b.getD 0 0) ++ [46] ++ decToChars (b.getD 1 0) ++ [46] ++
  decToChars (b.getD 2 0) ++ [46] ++ decToChars (b.getD 3 0)

/-- Length of the zero-group run starting at the head. -/
def zeroRunLen (l : List Nat) : Nat := (l.takeWhile (fun g => g = 0)).length

/-- The leftmost longest zero-group run (start, end), scanning left to right
with a strictly-longer-wins rule, exactly as `IP.String` does (Go skips the
indices inside a found run, but a run started inside another run is never
longer, so scanning every index picks the same run). -/
def bestRunFrom : List Nat → Nat → Option (Nat × Nat)
  | [], _ => none
  | l@(_ :: t), i =>
    let r := zeroRunLen l
    match bestRunFrom t (i + 1) with
    | none => some (i, i + r)
    | some (j0, j1) => if j1 - j0 ≤ r then some (i, i + r) else some (j0, j1)

/-- The `::`-eligible zero run of `IP.String`: discarded unless it covers at
least two groups. -/
def bestZeroRun (gs : List Nat) : Option (Nat × Nat) :=
  match bestRunFrom gs 0 with
  | none => none
  | some (e0, e1) => if 2 ≤ e1 - e0 then some (e0, e1) else none

/-- Join string chunks with `':'`. -/
def joinColon : List (List Nat) → List Nat
  | [] => []
  | [x] => x
  | x :: xs => x ++ [58] ++ joinColon xs

/-- 16-bit groups of a 16-byte address. -/
def groupsOfBytes : List Nat → List Nat
  | b0 :: b1 :: rest => (b0 * 256 + b1) :: groupsOfBytes rest
  | _ => []

/-- RFC 5952 rendering of 8 groups (`IP.String`, 16-byte case). -/
def ipv6StringOfGroups (gs : List Nat) : List Nat :=
  match bestZeroRun gs with
  | none => joinColon (gs.map hexToChars)
  | some (e0, e1) =>
    joinColon ((gs.take e0).map hexToChars) ++ [58, 58] ++
      joinColon ((gs.drop e1).map hexToChars)

/-- `"<nil>"`. -/
def nilIPString : List Nat := [60, 110, 105, 108, 62]

/-- `net.IP.String`. -/
def ipString (ip : List Nat) : List Nat :=
  if ip = [] then nilIPString
  else
    match ipTo4 ip with
    | some q => ipv4String q
    | none =>
      if ip.length ≠ 16 then
        63 :: (ip.map (fun b => [hexDigitChar ((b / 16) % 16), hexDigitChar (b % 16)])).flatten
      else ipv6StringOfGroups (groupsOfBytes ip)

/-- `formatV1`. -/
def formatV1 (h : Header) : Except Err (List Nat) :=
  if h.command = CMD_LOCAL then .ok v1LocalValue
  else
    match h.srcAddr, h.dstAddr with
    | some (.tcp sip sp), some (.tcp dip dp) =>
      match ipTo4 sip, ipTo4 dip with
      | some s4, some d4 =>
        .ok (v1Magic ++ tagTCP4 ++ [32] ++ ipv4String s4 ++ [32] ++
          ipv4String d4 ++ [32] ++ itoa sp ++ [32] ++ itoa dp ++ [13, 10])
      | _, _ =>
        match ipTo16 sip, ipTo16 dip with
        | some s16, some d16 =>
          .ok (v1Magic ++ tagTCP6 ++ [32] ++ ipString s16 ++ [32] ++
            ipString d16 ++ [32] ++ itoa sp ++ [32] ++ itoa dp ++ [13, 10])
        | _, _ => .error .unknownAddrFamily
    | _, _ => .error .invalidAddress

/-- `formatUnixName`: truncate at 108 bytes or NUL-pad up to 108. -/
def formatUnixName (name : List Nat) : List Nat :=
  let half := addressLengthUnix / 2
  if half ≤ name.length then name.take half
  else name ++ List.replicate (half - name.length) 0

/-- Whether an `Except` is an error (a non-nil Go error). -/
def isErrE (e : Except Err Unit) : Bool :=
  match e with
  | .error _ => true
  | .ok _ => false

/-- Port to two big-endian bytes (`byte(port >> 8), byte(port)`). -/
def portBytes (p : Int) : List Nat := [(p.toNat / 256) % 256, p.toNat % 256]

/-- The IP part of `guessAndParseAddrs`. -/
def guessIP (sip dip : List Nat) (sp dp : Int) (tp : Nat) :
    Option (List Nat × Nat × Nat × Nat) :=
  if sip.length = 0 ∨ dip.length = 0 ∨ isErrE (validatePort sp) ∨
      isErrE (validatePort dp) then none
  else
    match ipTo4 sip, ipTo4 dip with
    | some s4, some d4 =>
      some (s4 ++ d4 ++ portBytes sp ++ portBytes dp,
        addressLengthIPv4, AF_INET, tp)
    | _, _ =>
      match ipTo16 sip, ipTo16 dip with
      | some s16, some d16 =>
        some (s16 ++ d16 ++ portBytes sp ++ portBytes dp,
          addressLengthIPv6, AF_INET6, tp)
      | _, _ => none

/-- `guessAndParseAddrs`: payload bytes, payload length, family, transport
(`none` models the nil buffer returned on failure). -/
def guessAndParseAddrs (srcAddr dstAddr : Option Addr) :
    Option (List Nat × Nat × Nat × Nat) :=
  match srcAddr, dstAddr with
  | some (.tcp sip sp), some (.tcp dip dp) => guessIP sip dip sp dp SOCK_STREAM
  | some (.udp sip sp), some (.udp dip dp) => guessIP sip dip sp dp SOCK_DGRAM
  | some (.unix sname snet), some (.unix dname _) =>
    let tp := if snet = unixNet then SOCK_STREAM
      else if snet = unixgramNet then SOCK_DGRAM else SOCK_UNSPEC
    some (formatUnixName sname ++ formatUnixName dname,
      addressLengthUnix, AF_UNIX, tp)
  | _, _ => none

/-! ## CRC-32c engine -/

/-- The reversed Castagnoli polynomial. -/
def crc32cPoly : Nat := 0x82F63B78

/-- One bit step of the CRC shift register. -/
def crc8Step (c : Nat) : Nat := if c % 2 = 1 then (c / 2) ^^^ crc32cPoly else c / 2

/-- Eight bit steps: the Castagnoli table entry for a byte. -/
def crc8 (x : Nat) : Nat :=
  crc8Step (crc8Step (crc8Step (crc8Step
    (crc8Step (crc8Step (crc8Step (crc8Step x)))))))

/-- One byte of `crc32.Update` with the Castagnoli table. -/
def crcUpdate (crc b : Nat) : Nat := (crc / 256) ^^^ crc8 ((crc ^^^ b) % 256)

/-- `crc32.Checksum(data, crc32.MakeTable(crc32.Castagnoli))`. -/
def crc32c (data : List Nat) : Nat :=
  (data.foldl crcUpdate 0xFFFFFFFF) ^^^ 0xFFFFFFFF

/-- Modelled from the spec: `CalcCRC32cChecksum` is called by `formatV2Bytes`
but its definition is not among the sources; per §4.5/§4.3 it computes the
Castagnoli-polynomial CRC-32 of the whole buffer, as the 4 big-endian bytes
that the CRC32C TLV carries. -/
def CalcCRC32cChecksum (data : List Nat) : List Nat :=
  let c := crc32c data
  [(c / 2 ^ 24) % 256, (c / 2 ^ 16) % 256, (c / 2 ^ 8) % 256, c % 256]

/-- The 4-byte big-endian value at `o`. -/
def be32At (raw : List Nat) (o : Nat) : Nat :=
  raw.getD o 0 * 2 ^ 24 + raw.getD (o + 1) 0 * 2 ^ 16 +
    raw.getD (o + 2) 0 * 2 ^ 8 + raw.getD (o + 3) 0

/-- Copy `raw` with the 4 bytes at `o` zeroed. -/
def zero4At (raw : List Nat) (o : Nat) : List Nat :=
  raw.take o ++ [0, 0, 0, 0] ++ raw.drop (o + 4)

/-- The TLV-walking loop of `ChecksumCRC32c`: walk type/length records from
`offset`; at a CRC32C record with 4 readable value bytes, compare the stored
big-endian value with the CRC-32c of the raw bytes with those 4 bytes
zeroed; in every other exit, verification trivially succeeds. -/
def checksumLoopAux (fuel : Nat) (raw : List Nat) (offset : Nat) : Bool :=
  if offset < raw.length then
    let t := raw.getD offset 0
    let offset1 := offset + 1
    if raw.length < offset1 + 2 then true
    else
      let l := raw.getD offset1 0 * 256 + raw.getD (offset1 + 1) 0
      let offset2 := offset1 + 2
      if t = PP2_TYPE_CRC32C then
        if raw.length < offset2 + 4 then true
        else be32At raw offset2 = crc32c (zero4At raw offset2)
      else
        match fuel with
        | 0 => true  -- unreachable: the offset grows, so length-many fuel suffices
        | fuel + 1 => checksumLoopAux fuel raw (offset2 + l)
  else true

/-- See `checksumLoopAux`; the fuel only serves structural recursion. -/
def checksumLoop (raw : List Nat) (offset : Nat) : Bool :=
  checksumLoopAux raw.length raw offset

/-- `ChecksumCRC32c`. -/
def ChecksumCRC32c (h : Header) : Bool :=
  if h.command ≠ CMD_PROXY ∨ h.version ≠ Version2 ∨
      transportProtocolString h.transportProtocol = UnknownTag then true
  else if h.addressFamily = AF_INET then
    checksumLoop h.raw (16 + addressLengthIPv4)
  else if h.addressFamily = AF_INET6 then
    checksumLoop h.raw (16 + addressLengthIPv6)
  else if h.addressFamily = AF_UNIX then
    checksumLoop h.raw (16 + addressLengthUnix)
  else true

/-- The same walk as `checksumLoop`, returning the value offset of the
CRC32C record it acts on (with its 4 value bytes readable), if any. -/
def scanCRC32cAux (fuel : Nat) (raw : List Nat) (offset : Nat) : Option Nat :=
  if offset < raw.length then
    let t := raw.getD offset 0
    let offset1 := offset + 1
    if raw.length < offset1 + 2 then none
    else
      let l := raw.getD offset1 0 * 256 + raw.getD (offset1 + 1) 0
      let offset2 := offset1 + 2
      if t = PP2_TYPE_CRC32C then
        if raw.length < offset2 + 4 then none
        else some offset2
      else
        match fuel with
        | 0 => none  -- unreachable: the offset grows, so length-many fuel suffices
        | fuel + 1 => scanCRC32cAux fuel raw (offset2 + l)
  else none

/-- See `scanCRC32cAux`; the fuel only serves structural recursion. -/
def scanCRC32c (raw : List Nat) (offset : Nat) : Option Nat :=
  scanCRC32cAux raw.length raw offset

/-! ## Formatting, v2 -/

/-- The TLV-appending loop of `formatV2`: groups whose encoding is not
strictly between 3 and 65535 bytes are skipped; the running `uint16` payload
length wraps as Go's does (the size guard keeps it exact in fact). -/
def tlvLoop : List TLV → List Nat → Nat → Except Err (List Nat × Nat)
  | [], buf, len => .ok (buf, len)
  | tlv :: rest, buf, len =>
    let data := tlvFormat tlv
    if 3 < data.length ∧ data.length < 65535 then
      if 65535 < buf.length + data.length then .error .exceedPayloadLength
      else tlvLoop rest (buf ++ data) ((len + data.length % 65536) % 65536)
    else tlvLoop rest buf len

/-- `formatV2Bytes`. -/
def formatV2Bytes (verAndCmd afAndTp : Nat) (length : Nat) (payload : List Nat)
    (wantChecksum : Bool) : Except Err (List Nat) :=
  if wantChecksum ∧ 65535 < length + 7 then .error .exceedPayloadLength
  else
    let length1 := if wantChecksum then length + 7 else length
    let appendNOOP := length1 + 11 < 65535
    let length2 := if appendNOOP then length1 + 11 else length1
    let buf := v2Signature ++
      [verAndCmd, afAndTp, (length2 / 256) % 256, length2 % 256]
    let payload2 :=
      if wantChecksum then
        let raw := buf ++ payload ++ [PP2_TYPE_CRC32C, 0, 4, 0, 0, 0, 0] ++
          (if appendNOOP then tlvFormat (newNoOpTLV 8) else [])
        payload ++ tlvFormat (newTLV PP2_TYPE_CRC32C (CalcCRC32cChecksum raw))
      else payload
    let payload3 := if appendNOOP then payload2 ++ tlvFormat (newNoOpTLV 8)
      else payload2
    .ok (buf ++ payload3)

/-- `formatV2`. -/
def formatV2 (h : Header) (wantChecksum : Bool) : Except Err (List Nat) :=
  if h.command = CMD_LOCAL then .ok v2LocalValue
  else
    match guessAndParseAddrs h.srcAddr h.dstAddr with
    | none => .error .invalidAddress
    | some (payloadBuf, payloadLength, af, tp) =>
      if payloadBuf.length % 65536 ≠ payloadLength then .error .invalidAddress
      else
        let verAndCmd := (Version2 * 16) % 256 + 1
        let afAndTp := ((af * 16) % 256 + tp % 256) % 256
        if h.tlvs = [] ∧ ¬ wantChecksum then
          .ok (v2Signature ++ [verAndCmd, afAndTp,
            (payloadLength / 256) % 256, payloadLength % 256] ++ payloadBuf)
        else
          match tlvLoop h.tlvs payloadBuf payloadLength with
          | .error e => .error e
          | .ok (payload, length) =>
            formatV2Bytes verAndCmd afAndTp length payload wantChecksum

/-- `formatHeader`. -/
def formatHeader (h : Header) (wantChecksum : Bool) : Except Err (List Nat) :=
  if h.srcAddr = none ∨ h.dstAddr = none then
    .error (.msg "header is not found source and destination address")
  else if h.version = Version1 then formatV1 h
  else if h.version = Version2 then formatV2 h wantChecksum
  else .error .unknownVersion

/-! ## Semantic comparison and validity, for the roundtrip analysis -/

/-- Endpoint comparison up to the IP representation: parsing a formatted
header always yields `net.IPv4`-style addresses (16-byte, v4-mapped when
IPv4), so IPs compare through `ipTo16`, exactly as `net.IP.Equal` does. -/
def addrSemEq : Addr → Addr → Bool
  | .tcp ip1 p1, .tcp ip2 p2 => ipTo16 ip1 = ipTo16 ip2 ∧ p1 = p2
  | .udp ip1 p1, .udp ip2 p2 => ipTo16 ip1 = ipTo16 ip2 ∧ p1 = p2
  | .unix n1 net1, .unix n2 net2 => n1 = n2 ∧ net1 = net2
  | _, _ => false

/-- `addrSemEq` lifted to optional endpoints. -/
def optAddrSemEq : Option Addr → Option Addr → Bool
  | some a, some b => addrSemEq a b
  | none, none => true
  | _, _ => false

/-- Written from the spec's words (§3 data model), for the C1 comparison:
one endpoint agreeing with the declared family and transport. -/
def endpointMatches (af tp : Nat) (a : Addr) : Bool :=
  match a with
  | .tcp _ p => tp = SOCK_STREAM ∧ (af = AF_INET ∨ af = AF_INET6) ∧ 1 ≤ p ∧ p ≤ 65535
  | .udp _ p => tp = SOCK_DGRAM ∧ (af = AF_INET ∨ af = AF_INET6) ∧ 1 ≤ p ∧ p ≤ 65535
  | .unix name _ => af = AF_UNIX ∧ name.length ≤ 108

/-- Written from the spec's words (§3 data model): both endpoints present,
agreeing with the declared family and transport. -/
def dmEndpoints (h : Header) : Bool :=
  match h.srcAddr, h.dstAddr with
  | some sa, some da =>
    endpointMatches h.addressFamily h.transportProtocol sa ∧
    endpointMatches h.addressFamily h.transportProtocol da
  | _, _ => false

/-- Written from the spec's words (§3 data model), for the C1 comparison: a
valid header has version 1 or 2; a `LOCAL` header has both endpoints absent
and no TLVs; a `PROXY` header has both endpoints present, agreeing with the
declared family and transport. -/
def dataModelValid (h : Header) : Bool :=
  (h.version = Version1 ∨ h.version = Version2) ∧
  (if h.command = CMD_LOCAL then
    h.srcAddr = none ∧ h.dstAddr = none ∧ h.tlvs = []
  else dmEndpoints h)

/-- A TLV group whose encoding parses back to itself: non-empty value, the
declared length being the value length, and an encoding shorter than the
65535-byte cap of `tlvLoop`. -/
def tlvValid (t : TLV) : Bool :=
  t.value ≠ [] ∧ t.length = t.value.length ∧ t.value.length < 65532

/-- Total size of the encoded TLV groups. -/
def tlvsEncLen (tlvs : List TLV) : Nat :=
  (tlvs.map (fun t => (tlvFormat t).length)).sum

/-- The declared family is the one `formatV1`/`guessIP` infers from the two
IPs: `AF_INET` when both fit 4 bytes, `AF_INET6` when both fit 16 bytes but
not both fit 4. -/
def famOk (af : Nat) (sip dip : List Nat) : Bool :=
  (af = AF_INET ∧ (ipTo4 sip).isSome ∧ (ipTo4 dip).isSome) ∨
  (af = AF_INET6 ∧ ¬ ((ipTo4 sip).isSome ∧ (ipTo4 dip).isSome) ∧
    (ipTo16 sip).isSome ∧ (ipTo16 dip).isSome)

/-- The fixed v2 address-block size of the declared family. -/
def afLen (af : Nat) : Nat :=
  if af = AF_INET then addressLengthIPv4
  else if af = AF_INET6 then addressLengthIPv6
  else addressLengthUnix

/-- The endpoint-pair part of `validV1`: TCP endpoints whose ports avoid
the `validatePort` off-by-one (claim C4) and whose byte-valued IPs match
the declared family. -/
def v1AddrOk (h : Header) : Bool :=
  match h.srcAddr, h.dstAddr with
  | some (.tcp sip sp), some (.tcp dip dp) =>
    0 < sp ∧ sp < 65535 ∧ 0 < dp ∧ dp < 65535 ∧
    sip.all (fun b => b < 256) ∧ dip.all (fun b => b < 256) ∧
    famOk h.addressFamily sip dip
  | _, _ => false

/-- Headers the text codec round-trips: version-1 `PROXY` over TCP with
ports in 1..65534 (65535 trips the `validatePort` off-by-one, claim C4),
byte-valued IPs of a consistently declared family, and no TLVs (the text
format carries none). -/
def validV1 (h : Header) : Bool :=
  h.version = Version1 ∧ h.command = CMD_PROXY ∧
  h.transportProtocol = SOCK_STREAM ∧ h.tlvs = [] ∧ v1AddrOk h

/-- The endpoint-pair part of `validV2`: the declared transport is the one
`guessAndParseAddrs` infers from the endpoint variants, ports avoid the
`validatePort` off-by-one, Unix names are NUL-free, at most 108 bytes, and
carry the `Net` string matching the declared transport. -/
def v2AddrOk (h : Header) : Bool :=
  match h.srcAddr, h.dstAddr with
  | some (.tcp sip sp), some (.tcp dip dp) =>
    h.transportProtocol = SOCK_STREAM ∧
    0 < sp ∧ sp < 65535 ∧ 0 < dp ∧ dp < 65535 ∧
    sip.all (fun b => b < 256) ∧ dip.all (fun b => b < 256) ∧
    famOk h.addressFamily sip dip
  | some (.udp sip sp), some (.udp dip dp) =>
    h.transportProtocol = SOCK_DGRAM ∧
    0 < sp ∧ sp < 65535 ∧ 0 < dp ∧ dp < 65535 ∧
    sip.all (fun b => b < 256) ∧ dip.all (fun b => b < 256) ∧
    famOk h.addressFamily sip dip
  | some (.unix sname snet), some (.unix dname dnet) =>
    h.addressFamily = AF_UNIX ∧ dnet = snet ∧
    ((snet = unixNet ∧ h.transportProtocol = SOCK_STREAM) ∨
     (snet = unixgramNet ∧ h.transportProtocol = SOCK_DGRAM)) ∧
    0 ∉ sname ∧ sname.length ≤ 108 ∧ 0 ∉ dname ∧ dname.length ≤ 108
  | _, _ => false

/-- Headers the binary codec round-trips: version-2 `PROXY` with a
consistent endpoint pair, parse-back-equal TLVs, and a payload small enough
for the no-op padding branch of `formatV2Bytes`. -/
def validV2 (h : Header) : Bool :=
  h.version = Version2 ∧ h.command = CMD_PROXY ∧ v2AddrOk h ∧
  h.tlvs.all tlvValid ∧ afLen h.addressFamily + tlvsEncLen h.tlvs + 11 < 65535

/-- The round-trippable headers: see `validV1` and `validV2`. -/
def validForRoundtrip (h : Header) : Bool := validV1 h ∨ validV2 h

/-! ## The connection wrapper -/

/-- `bufio.Reader`'s default buffer size. -/
def bufioSize : Nat := 4096

/-- The state of a wrapped connection (`Conn`): the byte stream the peer
makes available, the underlying connection's own addresses, how many bytes
have been taken off the underlying connection, the cached header/error, the
`sync.Once` flag and the configuration. -/
structure ConnState where
  stream : List Nat
  uLocal : Addr
  uRemote : Addr
  consumed : Nat
  header : Option Header
  readHeaderErr : Option Err
  once : Bool
  disableProxyProtocol : Bool
  checksum : Bool
deriving DecidableEq, Repr

/-- `NewConn` with the given options. -/
def newConn (stream : List Nat) (uLocal uRemote : Addr)
    (disable checksum : Bool) : ConnState :=
  ⟨stream, uLocal, uRemote, 0, none, none, false, disable, checksum⟩

/-- `Conn.readHeader`: at most once; builds a fresh `bufio.Reader` over the
underlying connection (whose first peek pulls up to 4096 available bytes off
it — bytes beyond the parsed header stay in that reader and are dropped when
it goes out of scope), runs `ReadHeader`, and caches the result.
`ErrNoProxyProtocol` is not recorded; a checksum failure is recorded instead
of the header.  The deadline save/restore and the observer callback have no
bearing on the state modelled here. -/
def connReadHeader (c : ConnState) : ConnState :=
  if c.once then c
  else
    let c1 := { c with once := true }
    if c1.disableProxyProtocol then c1
    else
      let buffered := (c1.stream.drop c1.consumed).take bufioSize
      let c2 := { c1 with consumed := c1.consumed + buffered.length }
      match ReadHeader buffered with
      | .ok (h, _) =>
        if c2.checksum ∧ ¬ ChecksumCRC32c h then
          { c2 with readHeaderErr := some .validateCRC32cChecksum }
        else { c2 with header := some h }
      | .error e =>
        if e = .noProxyProtocol then c2
        else { c2 with readHeaderErr := some e }

/-- `Conn.Read` (with a large enough destination buffer): triggers the header
read, then reads from the underlying connection — not from any buffered
reader. -/
def connRead (c0 : ConnState) : List Nat × ConnState :=
  let c := connReadHeader c0
  (c.stream.drop c.consumed, { c with consumed := c.stream.length })

/-- `Conn.LocalAddr`. -/
def connLocalAddr (c0 : ConnState) : Addr :=
  let c := connReadHeader c0
  match c.header with
  | some h =>
    if h.command ≠ CMD_LOCAL ∧ h.dstAddr.isSome ∧ c.readHeaderErr = none then
      h.dstAddr.getD c.uLocal
    else c.uLocal
  | none => c.uLocal

/-- `Conn.RemoteAddr` (note: the code tests `c.readHeaderErr != nil`). -/
def connRemoteAddr (c0 : ConnState) : Addr :=
  let c := connReadHeader c0
  match c.header with
  | some h =>
    if h.command ≠ CMD_LOCAL ∧ h.srcAddr.isSome ∧ c.readHeaderErr ≠ none then
      h.srcAddr.getD c.uRemote
    else c.uRemote
  | none => c.uRemote

/-- The TLV loop of `Conn.GetVpceID`: first unregistered group, first value
byte discarded; `none` models the panic of `tlv.Value[1:]` on an empty
value. -/
def getVpceIDLoop : List TLV → Option (List Nat)
  | [] => some []
  | tlv :: rest =>
    if ¬ isRegistered tlv.typ then
      match tlv.value with
      | [] => none
      | _ :: v => some v
    else getVpceIDLoop rest

/-- `Conn.GetVpceID`. -/
def connGetVpceID (c : ConnState) : Option (List Nat) :=
  match c.header with
  | none => some []
  | some h => if h.tlvs = [] then some [] else getVpceIDLoop h.tlvs

/-- The TLV loop of `Conn.GetVpceIDWithType`. -/
def getVpceIDWithTypeLoop (typ subType : Nat) : List TLV → Option (List Nat)
  | [] => some []
  | tlv :: rest =>
    if tlv.typ = typ then
      if subType = 0 then some tlv.value
      else
        match tlv.value with
        | [] => none
        | _ :: v => some v
    else getVpceIDWithTypeLoop typ subType rest

/-- `Conn.GetVpceIDWithType`. -/
def connGetVpceIDWithType (c : ConnState) (typ subType : Nat) :
    Option (List Nat) :=
  match c.header with
  | none => some []
  | some h => if h.tlvs = [] then some [] else getVpceIDWithTypeLoop typ subType h.tlvs

/-- Decidable equality for `Except` results, so concrete runs of the codec
can be checked by `decide`. -/
instance exceptDecEq {ε α : Type _} [DecidableEq ε] [DecidableEq α] :
    DecidableEq (Except ε α) := fun x y =>
  match x, y with
  | .ok a, .ok b =>
    if h : a = b then .isTrue (by rw [h])
    else .isFalse (fun hc => h (Except.ok.inj hc))
  | .error a, .error b =>
    if h : a = b then .isTrue (by rw [h])
    else .isFalse (fun hc => h (Except.error.inj hc))
  | .ok _, .error _ => .isFalse (fun hc => Except.noConfusion hc)
  | .error _, .ok _ => .isFalse (fun hc => Except.noConfusion hc)

/-- A v2 TCP4 stream, from the package's own test vector. -/
def c2Stream : List Nat :=
  v2Signature ++ [0x21, 0x11, 0x00, 0x0C,
    127, 0, 0, 1, 127, 0, 0, 1, 0x30, 0x39, 0xDD, 0xD5]
/-- A wrapped connection carrying `c2Stream`, with distinct underlying
addresses. -/
def c2Conn : ConnState :=
  newConn c2Stream (.tcp (v4Mapped [10, 0, 0, 8]) 998)
    (.tcp (v4Mapped [10, 0, 0, 9]) 999) false false
/-- `"PROXY UNKNOWN\r\n"` followed by the application bytes `"hello"`,
delivered together. -/
def c3Stream : List Nat := v1LocalValue ++ [104, 101, 108, 108, 111]
/-- `"GET /\r\n"`: no PROXY header at all. -/
def c3bStream : List Nat := [71, 69, 84, 32, 47, 13, 10]
/-- A placeholder underlying address. -/
def c3UA : Addr := .tcp [] 0
/-- Where the TLV stream starts in `Raw` for each recognized family (the
`offset` that `ChecksumCRC32c` scans from); `none` when the family is not
recognized. -/
def tlvScanStart (h : Header) : Option Nat :=
  if h.addressFamily = AF_INET then some (16 + addressLengthIPv4)
  else if h.addressFamily = AF_INET6 then some (16 + addressLengthIPv6)
  else if h.addressFamily = AF_UNIX then some (16 + addressLengthUnix)
  else none
/-- The raw bytes of the repository's `checksumCRC32cRaw` test vector. -/
def c8Raw : List Nat :=
  v2Signature ++ [0x21, 0x11, 0x00, 0x43,
    0x7F, 0, 0, 1, 0x7F, 0, 0, 1, 0x30, 0x39, 0xDD, 0xD5,
    0xEA, 0x00, 0x22,
    118, 99, 112, 101, 45, 97, 98, 99, 100, 101, 102, 103, 45,
    104, 105, 106, 107, 108, 109, 110, 45, 111, 112, 113, 114, 115, 116, 45,
    117, 118, 119, 120, 121, 122,
    0x03, 0x00, 0x04, 0x13, 0x49, 0xCA, 0x53,
    0x04, 0x00, 0x08, 0, 0, 0, 0, 0, 0, 0, 0]

/-! ## Fuel irrelevance for the loop embeddings -/

/-- The fuel of `parseTLVsAux` is irrelevant as long as it covers the input
length. -/
theorem parseTLVsAux_fuel (fuel fuel' : Nat) (raw : List Nat)
    (h : raw.length ≤ fuel) (h' : raw.length ≤ fuel') :
    parseTLVsAux fuel raw = parseTLVsAux fuel' raw := by
  induction fuel using Nat.strong_induction_on generalizing fuel' raw with
  | _ fuel ih =>
    match fuel, fuel', raw with
    | f, f', [] => cases f <;> cases f' <;> rfl
    | 0, _, x :: l => simp at h
    | _ + 1, 0, x :: l => simp at h'
    | f + 1, f' + 1, t :: rest =>
      match rest with
      | [] => rfl
      | [_] => rfl
      | l0 :: l1 :: rest2 =>
        simp only [parseTLVsAux]
        have hd : (rest2.drop (l0 * 256 + l1)).length ≤ f := by
          simp only [List.length_cons] at h
          have := List.length_drop (l0 * 256 + l1) rest2
          omega
        have hd' : (rest2.drop (l0 * 256 + l1)).length ≤ f' := by
          simp only [List.length_cons] at h'
          have := List.length_drop (l0 * 256 + l1) rest2
          omega
        rw [ih f (Nat.lt_succ_self f) f' (rest2.drop (l0 * 256 + l1)) hd hd']

/-- The fuel of `fieldsOfAux` is irrelevant as long as it covers the input
length. -/
theorem fieldsOfAux_fuel (fuel fuel' : Nat) (s : List Nat)
    (h : s.length ≤ fuel) (h' : s.length ≤ fuel') :
    fieldsOfAux fuel s = fieldsOfAux fuel' s := by
  induction fuel using Nat.strong_induction_on generalizing fuel' s with
  | _ fuel ih =>
    match fuel, fuel', s with
    | f, f', [] => cases f <;> cases f' <;> rfl
    | 0, _, x :: l => simp at h
    | _ + 1, 0, x :: l => simp at h'
    | f + 1, f' + 1, b :: rest =>
      have hdw : (rest.dropWhile (fun c => ¬ isSpaceB c)).length ≤ rest.length :=
        ((List.dropWhile_suffix (fun c => ¬ isSpaceB c)).sublist).length_le
      simp only [List.length_cons] at h h'
      simp only [fieldsOfAux]
      split_ifs
      · exact ih f (Nat.lt_succ_self f) f' rest (by omega) (by omega)
      · rw [ih f (Nat.lt_succ_self f) f' (rest.dropWhile (fun c => ¬ isSpaceB c))
          (by omega) (by omega)]

/-! ## Helper lemmas about the reader primitives -/

theorem rdRead_append (n : Nat) (l r : List Nat) (hl : l.length = n)
    (hn : n ≠ 0) : rdRead n (l ++ r) = (l, none, r) := by
  have hlne : l ≠ [] := by
    intro hc; rw [hc] at hl; simp at hl; omega
  unfold rdRead
  rw [if_neg hn, if_neg (by simp [hlne]), List.take_left' hl, List.drop_left' hl]

theorem rdByte_cons (b : Nat) (r : List Nat) : rdByte (b :: r) = .ok (b, r) := rfl

theorem rdUint16BE_cons (b0 b1 : Nat) (r : List Nat) :
    rdUint16BE (b0 :: b1 :: r) = .ok (b0 * 256 + b1, r) := rfl

theorem rdRead_err (n : Nat) (s : List Nat) (e : Err)
    (h : (rdRead n s).2.1 = some e) : e = .eof := by
  unfold rdRead at h
  split_ifs at h
  simp_all

theorem validatePayloadLength_errors (n af : Nat) (e : Err)
    (h : validatePayloadLength n af = .error e) : e = .payloadLengthTooShort := by
  unfold validatePayloadLength at h
  split_ifs at h <;> simp_all

/-! ## Theorems: C4 — port validation -/

/-- C4.  The claim says every port with `0 < p < 65536` is accepted, 65535
included.  The code accepts exactly `0 < p < 65535`: 65535 itself is
rejected (`port >= math.MaxUint16`), on the text path (`"65535"`) and on the
binary path (port bytes `0xFF 0xFF`) alike. -/
theorem c4_validatePort_boundaries :
    (∀ p : Int, validatePort p = .ok () ↔ 0 < p ∧ p < 65535) ∧
    validatePort 1 = .ok () ∧ validatePort 65534 = .ok () ∧
    validatePort 65535 = .error (.msg "invalid port") ∧
    validatePort 0 = .error (.msg "invalid port") ∧
    validatePort 65536 = .error (.msg "invalid port") ∧
    parseAndValidatePort [54, 53, 53, 51, 53] [53, 54, 55, 56, 57] =
      .error (.wrap "source port" (.msg "invalid port")) ∧
    parseV2IPv4 [127, 0, 0, 1, 127, 0, 0, 1, 255, 255, 0, 80] SOCK_STREAM =
      .error (.wrap "source" (.msg "invalid port")) := by
  refine ⟨fun p => ?_, by decide, by decide, by decide, by decide, by decide,
    by decide, by decide⟩
  unfold validatePort
  split_ifs with h
  · constructor
    · intro hc; cases hc
    · intro hc; omega
  · exact ⟨fun _ => by omega, fun _ => rfl⟩

/-! ## Theorems: C5 — formatting LOCAL headers -/

/-- C5, counterexample.  A LOCAL header with absent endpoints (exactly what
the data model prescribes for LOCAL) is rejected by `Format` with an error
instead of producing the fixed literal; and the v2 literal is 16 bytes long,
not 20. -/
theorem c5_counterexample :
    formatHeader ⟨Version1, CMD_LOCAL, AF_UNSPEC, SOCK_UNSPEC, none, none, [], []⟩
        false =
      .error (.msg "header is not found source and destination address") ∧
    formatHeader ⟨Version2, CMD_LOCAL, AF_UNSPEC, SOCK_UNSPEC, none, none, [], []⟩
        false =
      .error (.msg "header is not found source and destination address") ∧
    v2LocalValue.length = 16 := by
  refine ⟨by rfl, by rfl, by decide⟩

/-- C5, amended.  The inner formatters emit the fixed literals for every
LOCAL header before looking at any endpoint — `"PROXY UNKNOWN\r\n"` for v1
and the 16-byte signature+0x20+0x00+0x0000 literal for v2 — but the public
`Format` path first demands both endpoints be non-nil and errors otherwise,
so the literal is returned by `Format` exactly when both endpoints are
present. -/
theorem c5_local_format (h : Header) (hc : h.command = CMD_LOCAL) :
    formatV1 h = .ok v1LocalValue ∧
    (∀ wc : Bool, formatV2 h wc = .ok v2LocalValue) ∧
    (h.srcAddr = none ∨ h.dstAddr = none → ∀ wc : Bool,
      formatHeader h wc =
        .error (.msg "header is not found source and destination address")) ∧
    (h.srcAddr ≠ none → h.dstAddr ≠ none → h.version = Version1 → ∀ wc : Bool,
      formatHeader h wc = .ok v1LocalValue) ∧
    (h.srcAddr ≠ none → h.dstAddr ≠ none → h.version = Version2 → ∀ wc : Bool,
      formatHeader h wc = .ok v2LocalValue) := by
  refine ⟨by simp [formatV1, hc], fun wc => by simp [formatV2, hc], ?_, ?_, ?_⟩
  · intro hnil wc
    unfold formatHeader
    simp only [if_pos hnil]
  · intro hs hd hv wc
    unfold formatHeader
    rw [if_neg (by simp [hs, hd]), if_pos hv]
    simp [formatV1, hc]
  · intro hs hd hv wc
    unfold formatHeader
    rw [if_neg (by simp [hs, hd]), if_neg (by simp [hv]; decide), if_pos hv]
    simp [formatV2, hc]

/-- C5, witness for the amended theorem at concrete LOCAL headers. -/
theorem c5_local_format_witness :
    formatHeader
        ⟨Version1, CMD_LOCAL, AF_UNSPEC, SOCK_UNSPEC,
          some (.tcp (v4Mapped [127, 0, 0, 1]) 80),
          some (.tcp (v4Mapped [127, 0, 0, 1]) 81), [], []⟩ false =
      .ok v1LocalValue ∧
    formatHeader
        ⟨Version2, CMD_LOCAL, AF_UNSPEC, SOCK_UNSPEC,
          some (.tcp (v4Mapped [127, 0, 0, 1]) 80),
          some (.tcp (v4Mapped [127, 0, 0, 1]) 81), [], []⟩ true =
      .ok v2LocalValue ∧
    formatHeader ⟨Version1, CMD_LOCAL, AF_UNSPEC, SOCK_UNSPEC, none, none, [], []⟩
        true =
      .error (.msg "header is not found source and destination address") := by
  refine ⟨(c5_local_format _ rfl).2.2.2.1 (by simp) (by simp) rfl false,
    (c5_local_format _ rfl).2.2.2.2 (by simp) (by simp) rfl true,
    (c5_local_format _ rfl).2.2.1 (Or.inl rfl) true⟩

/-! ## Theorems: C7 — family/transport nibble recognition -/

/-- The `String()`-based recognition of the family nibble. -/
theorem addressFamilyString_unknown (af : Nat) :
    addressFamilyString af = UnknownTag ↔
      ¬ (af = AF_INET ∨ af = AF_INET6 ∨ af = AF_UNIX) := by
  unfold addressFamilyString
  split_ifs with h1 h2 h3 <;> simp_all <;> decide

/-- The `String()`-based recognition of the transport nibble. -/
theorem transportProtocolString_unknown (tp : Nat) :
    transportProtocolString tp = UnknownTag ↔
      ¬ (tp = SOCK_STREAM ∨ tp = SOCK_DGRAM) := by
  unfold transportProtocolString
  split_ifs with h1 h2 <;> simp_all <;> decide

/-- C7, counterexample.  A v2 header whose 14th byte is `0x01` — family
nibble 0 (`AF_UNSPEC`), transport nibble 1 (stream) — fails with
`UnknownAddrFamilyAndTranProtocol`, although the claim says a family nibble
of 0 passes the check and does not produce that error. -/
theorem c7_counterexample :
    readV2 (v2Signature ++ [0x21, 0x01, 0x00, 0x0C,
        127, 0, 0, 1, 127, 0, 0, 1, 0x30, 0x39, 0xDD, 0xD5]) =
      .error .unknownAddrFamilyAndTranProtocol := by
  rfl

/-- C7, amended.  The 14th-byte check of `readV2` recognizes family nibbles
{1 (IPv4), 2 (IPv6), 3 (Unix)} and transport nibbles {1 (stream),
2 (datagram)} only; a family or transport nibble of 0 (unspec), like any
other value outside those sets, fails with
`UnknownAddrFamilyAndTranProtocol` — because recognition goes through the
`String()` methods, which map the unspec sentinel to `Unknown`. -/
theorem c7_nibble_recognition (b : Nat) (rest : List Nat) :
    readV2 (v2Signature ++ 0x21 :: b :: rest) =
        .error .unknownAddrFamilyAndTranProtocol ↔
      ¬ ((b / 16 = AF_INET ∨ b / 16 = AF_INET6 ∨ b / 16 = AF_UNIX) ∧
         (b % 16 = SOCK_STREAM ∨ b % 16 = SOCK_DGRAM)) := by
  have hstr : (addressFamilyString (b / 16) = UnknownTag ∨
      transportProtocolString (b % 16) = UnknownTag) ↔
      ¬ ((b / 16 = AF_INET ∨ b / 16 = AF_INET6 ∨ b / 16 = AF_UNIX) ∧
        (b % 16 = SOCK_STREAM ∨ b % 16 = SOCK_DGRAM)) := by
    rw [addressFamilyString_unknown, transportProtocolString_unknown]; tauto
  unfold readV2
  rw [show v2Signature.length = 12 from rfl,
    rdRead_append 12 v2Signature (0x21 :: b :: rest) (by decide) (by decide),
    if_neg (by simp [v2Signature])]
  simp only [rdByte]
  rw [if_neg (by decide)]
  by_cases hrec : (b / 16 = AF_INET ∨ b / 16 = AF_INET6 ∨ b / 16 = AF_UNIX) ∧
      (b % 16 = SOCK_STREAM ∨ b % 16 = SOCK_DGRAM)
  · rw [if_neg (by rw [hstr]; exact not_not_intro hrec)]
    rw [iff_false_intro (not_not_intro hrec), iff_false]
    intro hx
    rcases rest with _ | ⟨c0, rest1⟩
    · simp [rdUint16BE] at hx
    · rcases rest1 with _ | ⟨c1, rest2⟩
      · simp [rdUint16BE] at hx
      · simp only [rdUint16BE] at hx
        split at hx
        · simp at hx
        · split at hx
          · rename_i e heq
            have := validatePayloadLength_errors _ _ _ heq
            simp [this] at hx
          · split at hx
            · rename_i e heq
              have := rdRead_err _ _ _ heq
              simp [this] at hx
            · split at hx
              · simp at hx
              · simp at hx
  · rw [if_pos (by rw [hstr]; exact hrec)]
    simp [hrec]

/-! ## Theorems: C2 — address accessors -/


/-- C2.  On a connection whose header parsed successfully (command PROXY,
both endpoints present, no error recorded), `LocalAddr` returns the parsed
destination endpoint as the claim says — but `RemoteAddr` returns the
underlying transport's address, not the parsed source endpoint, because the
code demands `readHeaderErr != nil` (a *recorded* error) instead of
`== nil`. -/
theorem c2_remoteAddr_wrong_nil_test :
    (connReadHeader c2Conn).header =
      some ⟨Version2, CMD_PROXY, AF_INET, SOCK_STREAM,
        some (.tcp (v4Mapped [127, 0, 0, 1]) 12345),
        some (.tcp (v4Mapped [127, 0, 0, 1]) 56789), c2Stream, []⟩ ∧
    (connReadHeader c2Conn).readHeaderErr = none ∧
    connLocalAddr c2Conn = .tcp (v4Mapped [127, 0, 0, 1]) 56789 ∧
    connRemoteAddr c2Conn = .tcp (v4Mapped [10, 0, 0, 9]) 999 ∧
    Addr.tcp (v4Mapped [10, 0, 0, 9]) 999 ≠
      .tcp (v4Mapped [127, 0, 0, 1]) 12345 := by
  set_option maxRecDepth 100000 in decide

/-! ## Theorems: C3 — bytes after the header -/


/-- C3.  The committed v1 codec consumes exactly the 15 header bytes and
`ReadHeader` leaves `"hello"` unconsumed — but a `Read` on the wrapped
connection returns nothing: the trailing bytes were pulled into the
header-read's private `bufio.Reader` and discarded with it.  With no header
present (`NoProtocolPresent`), no error is recorded, yet the stream bytes
are equally lost instead of being returned from the start. -/
theorem c3_read_drops_buffered_bytes :
    ReadHeader c3Stream =
      .ok (⟨Version1, CMD_LOCAL, AF_UNSPEC, SOCK_UNSPEC, none, none,
        v1LocalValue, []⟩, [104, 101, 108, 108, 111]) ∧
    (connRead (newConn c3Stream c3UA c3UA false false)).1 = [] ∧
    ([] : List Nat) ≠ [104, 101, 108, 108, 111] ∧
    (connReadHeader (newConn c3bStream c3UA c3UA false false)).header = none ∧
    (connReadHeader (newConn c3bStream c3UA c3UA false false)).readHeaderErr =
      none ∧
    (connRead (newConn c3bStream c3UA c3UA false false)).1 = [] ∧
    ([] : List Nat) ≠ c3bStream := by
  set_option maxRecDepth 100000 in decide

/-! ## Theorems: C10 — GetVpceID on empty TLV values -/

theorem getVpceIDLoop_empty_first (tlvs : List TLV) (t : TLV)
    (hf : tlvs.find? (fun tl => ! isRegistered tl.typ) = some t)
    (hv : t.value = []) : getVpceIDLoop tlvs = none := by
  induction tlvs with
  | nil => simp at hf
  | cons a rest ih =>
    unfold getVpceIDLoop
    by_cases hp : isRegistered a.typ
    · rw [List.find?_cons_of_neg _ (by simp [hp])] at hf
      simp only [hp, not_true_eq_false, if_false]
      exact ih hf
    · rw [List.find?_cons_of_pos _ (by simp [hp])] at hf
      have : a = t := by injection hf
      subst this
      simp [hp, hv]

theorem getVpceIDWithTypeLoop_empty_first (typ subType : Nat) (tlvs : List TLV)
    (t : TLV) (hs : subType ≠ 0)
    (hf : tlvs.find? (fun tl => tl.typ == typ) = some t)
    (hv : t.value = []) : getVpceIDWithTypeLoop typ subType tlvs = none := by
  induction tlvs with
  | nil => simp at hf
  | cons a rest ih =>
    unfold getVpceIDWithTypeLoop
    by_cases hp : a.typ = typ
    · rw [List.find?_cons_of_pos _ (by simp [hp])] at hf
      have : a = t := by injection hf
      subst this
      simp only [hp, if_true, if_neg hs, hv]
    · rw [List.find?_cons_of_neg _ (by simp [hp])] at hf
      simp only [hp, if_false]
      exact ih hf

/-- C10.  `GetVpceID` (and `GetVpceIDWithType` with a non-zero subtype)
slices `tlv.Value[1:]` without checking the value is non-empty: whenever
the cached header's first unregistered TLV (resp. first TLV of the requested
type) has an empty value, the operation panics (modelled `none`) instead of
returning a string. -/
theorem c10_getVpceID_partial :
    (∀ (c : ConnState) (h : Header) (t : TLV),
      c.header = some h →
      h.tlvs.find? (fun tl => ! isRegistered tl.typ) = some t →
      t.value = [] →
      connGetVpceID c = none) ∧
    (∀ (c : ConnState) (h : Header) (typ subType : Nat) (t : TLV),
      c.header = some h → subType ≠ 0 →
      h.tlvs.find? (fun tl => tl.typ == typ) = some t →
      t.value = [] →
      connGetVpceIDWithType c typ subType = none) := by
  constructor
  · intro c h t hc hf hv
    unfold connGetVpceID
    rw [hc]
    have hne : h.tlvs ≠ [] := by
      intro hz; rw [hz] at hf; simp at hf
    simp only [hne, if_false]
    exact getVpceIDLoop_empty_first h.tlvs t hf hv
  · intro c h typ subType t hc hs hf hv
    unfold connGetVpceIDWithType
    rw [hc]
    have hne : h.tlvs ≠ [] := by
      intro hz; rw [hz] at hf; simp at hf
    simp only [hne, if_false]
    exact getVpceIDWithTypeLoop_empty_first typ subType h.tlvs t hs hf hv

/-! ## Theorems: C8 — CRC-32c verification -/


/-- The checksum walk is: find the CRC32C record by type and length and
compare, trivially succeeding when none is found. -/
theorem checksumLoopAux_eq_scan (fuel : Nat) (raw : List Nat) (o : Nat) :
    checksumLoopAux fuel raw o =
      (match scanCRC32cAux fuel raw o with
       | none => true
       | some v => decide (be32At raw v = crc32c (zero4At raw v))) := by
  induction fuel generalizing o with
  | zero =>
    unfold checksumLoopAux scanCRC32cAux
    dsimp only
    split_ifs <;> simp
  | succ f ih =>
    unfold checksumLoopAux scanCRC32cAux
    dsimp only
    split_ifs <;> simp [ih]

theorem checksumLoop_eq_scan (raw : List Nat) (o : Nat) :
    checksumLoop raw o =
      (match scanCRC32c raw o with
       | none => true
       | some v => decide (be32At raw v = crc32c (zero4At raw v))) :=
  checksumLoopAux_eq_scan raw.length raw o

/-- C8.  `ChecksumCRC32c` returns valid whenever the header is not a
version-2 PROXY header with a recognized transport; whenever (additionally)
the family is unrecognized, or the type/length walk of the TLV stream finds
no CRC32C record with 4 readable value bytes; and when such a record is
found, it returns valid exactly when the Castagnoli CRC-32 of the raw bytes
with the record's 4 value bytes zeroed equals the stored big-endian value. -/
theorem c8_checksum_crc32c :
    (∀ h : Header,
      h.command ≠ CMD_PROXY ∨ h.version ≠ Version2 ∨
        transportProtocolString h.transportProtocol = UnknownTag →
      ChecksumCRC32c h = true) ∧
    (∀ h : Header, tlvScanStart h = none → ChecksumCRC32c h = true) ∧
    (∀ (h : Header) (o : Nat), tlvScanStart h = some o →
      scanCRC32c h.raw o = none → ChecksumCRC32c h = true) ∧
    (∀ (h : Header) (o v : Nat),
      h.command = CMD_PROXY → h.version = Version2 →
      transportProtocolString h.transportProtocol ≠ UnknownTag →
      tlvScanStart h = some o → scanCRC32c h.raw o = some v →
      (ChecksumCRC32c h = true ↔ be32At h.raw v = crc32c (zero4At h.raw v))) := by
  refine ⟨?_, ?_, ?_, ?_⟩
  · intro h hn
    unfold ChecksumCRC32c
    rw [if_pos (by tauto)]
  · intro h hn
    unfold tlvScanStart at hn
    unfold ChecksumCRC32c
    split_ifs at hn ⊢ <;> simp_all
  · intro h o hsome hscan
    unfold tlvScanStart at hsome
    unfold ChecksumCRC32c
    split_ifs at hsome ⊢ <;> simp_all [checksumLoop_eq_scan]
  · intro h o v hc hv htp hsome hscan
    unfold tlvScanStart at hsome
    unfold ChecksumCRC32c
    rw [if_neg (by tauto)]
    split_ifs at hsome ⊢ <;> simp_all [checksumLoop_eq_scan]


/-- C8, witness: the repository's own checksum test vector, where the walk
finds the CRC32C record at value offset 68 and verification succeeds. -/
theorem c8_checksum_crc32c_witness :
    (ChecksumCRC32c ⟨Version2, CMD_PROXY, AF_INET, SOCK_STREAM, none, none,
        c8Raw, []⟩ = true ↔
      be32At c8Raw 68 = crc32c (zero4At c8Raw 68)) ∧
    ChecksumCRC32c ⟨Version2, CMD_PROXY, AF_INET, SOCK_STREAM, none, none,
      c8Raw, []⟩ = true :=
  ⟨c8_checksum_crc32c.2.2.2 _ 28 68 rfl rfl (by decide) (by decide)
    (by set_option maxRecDepth 10000 in decide),
   by set_option maxRecDepth 100000 in decide⟩

/-! ## Theorems: C6 — dispatcher commitment

Error-shape lemmas: no code path after committing to a codec can produce
`ErrNoProxyProtocol`. -/

theorem readV1Loop_ne_noProxy (raw s : List Nat) :
    readV1Loop raw s ≠ .error .noProxyProtocol := by
  induction s generalizing raw with
  | nil => simp [readV1Loop]
  | cons b rest ih =>
    unfold readV1Loop
    split_ifs <;> simp [ih]

theorem parseAndValidateIP_shape (a b : List Nat) (af : Nat) (e : Err)
    (h : parseAndValidateIP a b af = .error e) : ∃ s e', e = .wrap s e' := by
  unfold parseAndValidateIP at h
  dsimp only at h
  split at h
  · exact ⟨_, _, (Except.error.inj h).symm⟩
  · split at h
    · exact ⟨_, _, (Except.error.inj h).symm⟩
    · simp at h

theorem parseAndValidatePort_shape (a b : List Nat) (e : Err)
    (h : parseAndValidatePort a b = .error e) : ∃ s e', e = .wrap s e' := by
  unfold parseAndValidatePort at h
  split at h
  · exact ⟨_, _, (Except.error.inj h).symm⟩
  · split at h
    · exact ⟨_, _, (Except.error.inj h).symm⟩
    · split at h
      · exact ⟨_, _, (Except.error.inj h).symm⟩
      · split at h
        · exact ⟨_, _, (Except.error.inj h).symm⟩
        · simp at h

theorem parseV1_ne_noProxy (raw : List Nat) :
    parseV1 raw ≠ .error .noProxyProtocol := by
  intro hx
  unfold parseV1 at hx
  dsimp only at hx
  repeat' split at hx
  all_goals try simp at hx
  all_goals
    rename_i e heq
    rw [hx] at heq
    first
      | exact absurd (parseAndValidateIP_shape _ _ _ _ heq) (by simp)
      | exact absurd (parseAndValidatePort_shape _ _ _ heq) (by simp)

theorem readAndParseV1_committed_ne_noProxy (s : List Nat)
    (h : s.take 6 = v1Magic) :
    readAndParseV1 s ≠ .error .noProxyProtocol := by
  have hlen : 6 ≤ s.length := by
    have := congrArg List.length h
    simp [v1Magic] at this
    omega
  intro hx
  unfold readAndParseV1 readV1 at hx
  rw [show rdRead v1Magic.length s = (s.take 6, none, s.drop 6) from by
    unfold rdRead
    rw [if_neg (by decide), if_neg (by intro hc; rw [hc] at hlen; simp at hlen)]
    rfl] at hx
  rw [if_neg (by simp [h, v1Magic])] at hx
  split at hx
  · rename_i e heq
    rw [Except.error.inj hx] at heq
    exact readV1Loop_ne_noProxy _ _ heq
  · split at hx
    · rename_i e heq
      rw [Except.error.inj hx] at heq
      exact parseV1_ne_noProxy _ heq
    · simp at hx

theorem parseTLVsAux_ne_noProxy (fuel : Nat) (l : List Nat) :
    parseTLVsAux fuel l ≠ .error .noProxyProtocol := by
  induction fuel generalizing l with
  | zero =>
    match l with
    | [] => simp [parseTLVsAux]
    | x :: r => simp [parseTLVsAux]
  | succ f ih =>
    match l with
    | [] => simp [parseTLVsAux]
    | [t] => simp [parseTLVsAux]
    | [t, l0] => simp [parseTLVsAux]
    | t :: l0 :: l1 :: rest2 =>
      unfold parseTLVsAux
      dsimp only
      split_ifs with hl
      · simp
      · intro hx
        split at hx
        · rename_i e heq
          rw [Except.error.inj hx] at heq
          exact ih _ heq
        · simp at hx

theorem parseV2IPv4_ne_noProxy (payload : List Nat) (tp : Nat) :
    parseV2IPv4 payload tp ≠ .error .noProxyProtocol := by
  intro hx
  unfold parseV2IPv4 at hx
  dsimp only at hx
  repeat' split at hx
  all_goals simp_all

theorem parseV2IPv6_ne_noProxy (payload : List Nat) (tp : Nat) :
    parseV2IPv6 payload tp ≠ .error .noProxyProtocol := by
  intro hx
  unfold parseV2IPv6 at hx
  dsimp only at hx
  repeat' split at hx
  all_goals simp_all

theorem parseV2Unix_ne_noProxy (payload : List Nat) (tp : Nat) :
    parseV2Unix payload tp ≠ .error .noProxyProtocol := by
  intro hx
  unfold parseV2Unix at hx
  dsimp only at hx
  repeat' split at hx
  all_goals simp_all

theorem parseV2_ne_noProxy (h : Header) :
    parseV2 h ≠ .error .noProxyProtocol := by
  intro hx
  unfold parseV2 at hx
  dsimp only at hx
  repeat' split at hx
  all_goals try simp at hx
  all_goals
    rename_i e heq
    rw [hx] at heq
    first
      | exact parseV2IPv4_ne_noProxy _ _ heq
      | exact parseV2IPv6_ne_noProxy _ _ heq
      | exact parseV2Unix_ne_noProxy _ _ heq
      | exact parseTLVsAux_ne_noProxy _ _ heq

theorem rdByte_err (s : List Nat) (e : Err) (h : rdByte s = .error e) :
    e = .eof := by
  match s with
  | [] => exact (Except.error.inj h).symm
  | b :: r => simp [rdByte] at h

theorem rdUint16BE_err (s : List Nat) (e : Err)
    (h : rdUint16BE s = .error e) : e = .eof ∨ e = .unexpectedEOF := by
  match s with
  | [] => exact Or.inl (Except.error.inj h).symm
  | [b] => exact Or.inr (Except.error.inj h).symm
  | b0 :: b1 :: r => simp [rdUint16BE] at h

theorem readV2_committed_ne_noProxy (s : List Nat)
    (h : s.take 12 = v2Signature) :
    readV2 s ≠ .error .noProxyProtocol := by
  have hlen : 12 ≤ s.length := by
    have := congrArg List.length h
    simp [v2Signature] at this
    omega
  intro hx
  unfold readV2 at hx
  rw [show rdRead v2Signature.length s = (s.take 12, none, s.drop 12) from by
    unfold rdRead
    rw [if_neg (by decide), if_neg (by intro hc; rw [hc] at hlen; simp at hlen)]
    rfl] at hx
  rw [if_neg (by simp [h, v2Signature])] at hx
  dsimp only at hx
  repeat' split at hx
  all_goals try simp at hx
  all_goals
    rename_i e heq
    rw [hx] at heq
    first
      | exact absurd (rdByte_err _ _ heq) (by simp)
      | exact absurd (rdUint16BE_err _ _ heq) (by simp)
      | exact absurd (validatePayloadLength_errors _ _ _ heq) (by simp)
      | exact absurd (rdRead_err _ _ _ heq) (by simp)

theorem readAndParseV2_committed_ne_noProxy (s : List Nat)
    (h : s.take 12 = v2Signature) :
    readAndParseV2 s ≠ .error .noProxyProtocol := by
  intro hx
  unfold readAndParseV2 at hx
  split at hx
  · rename_i e heq
    rw [Except.error.inj hx] at heq
    exact readV2_committed_ne_noProxy s h heq
  · split at hx
    · rename_i e heq
      rw [Except.error.inj hx] at heq
      exact parseV2_ne_noProxy _ heq
    · simp at hx

/-- C6.  `ReadHeader` commits to the text codec exactly when the first 6
bytes are `"PROXY "`, to the binary codec exactly when the first 12 bytes
are the binary signature, and fails with `ErrNoProxyProtocol` otherwise —
including streams too short for the required peek; and once committed to
either codec, `ErrNoProxyProtocol` can no longer be produced, so it is
distinct from every post-commit error. -/
theorem c6_dispatcher :
    (∀ s : List Nat, s.take 6 = v1Magic → ReadHeader s = readAndParseV1 s) ∧
    (∀ s : List Nat, s.take 12 = v2Signature →
      ReadHeader s = readAndParseV2 s) ∧
    (∀ s : List Nat, s.take 6 ≠ v1Magic → s.take 12 ≠ v2Signature →
      ReadHeader s = .error .noProxyProtocol) ∧
    (∀ s : List Nat, s.take 6 = v1Magic →
      readAndParseV1 s ≠ .error .noProxyProtocol) ∧
    (∀ s : List Nat, s.take 12 = v2Signature →
      readAndParseV2 s ≠ .error .noProxyProtocol) := by
  refine ⟨?_, ?_, ?_,
    fun s h => readAndParseV1_committed_ne_noProxy s h,
    fun s h => readAndParseV2_committed_ne_noProxy s h⟩
  · intro s h
    have hlen : 6 ≤ s.length := by
      have := congrArg List.length h
      simp [v1Magic] at this
      omega
    unfold ReadHeader rdPeek
    rw [show v1Magic.length = 6 from rfl, if_neg (by omega)]
    dsimp only
    rw [if_pos h]
  · intro s h
    have hlen : 12 ≤ s.length := by
      have := congrArg List.length h
      simp [v2Signature] at this
      omega
    have h6 : s.take 6 = [13, 10, 13, 10, 0, 13] := by
      have h66 : s.take 6 = (s.take 12).take 6 := by
        rw [List.take_take]
        norm_num
      rw [h66, h]
      rfl
    unfold ReadHeader rdPeek
    rw [show v1Magic.length = 6 from rfl, if_neg (by omega)]
    dsimp only
    rw [if_neg (by rw [h6]; decide), if_neg (by rw [h6]; decide),
      show v2Signature.length = 12 from rfl, if_neg (by omega)]
    dsimp only
    rw [if_pos h]
  · intro s h6 h12
    unfold ReadHeader rdPeek
    split_ifs <;>
      simp [show v1Magic.length = 6 from rfl,
        show v2Signature.length = 12 from rfl, h6, h12]

/-- C6, witness: the three dispatch outcomes at concrete streams, and the
distinctness of `ErrNoProxyProtocol` from post-commit results there. -/
theorem c6_dispatcher_witness :
    ReadHeader v1LocalValue = readAndParseV1 v1LocalValue ∧
    ReadHeader c2Stream = readAndParseV2 c2Stream ∧
    ReadHeader [1, 2, 3] = .error .noProxyProtocol ∧
    readAndParseV1 v1LocalValue ≠ .error .noProxyProtocol ∧
    readAndParseV2 c2Stream ≠ .error .noProxyProtocol := by
  refine ⟨c6_dispatcher.1 v1LocalValue (by decide),
    c6_dispatcher.2.1 c2Stream (by decide),
    c6_dispatcher.2.2.1 [1, 2, 3] (by decide) (by decide),
    c6_dispatcher.2.2.2.1 v1LocalValue (by decide),
    c6_dispatcher.2.2.2.2 c2Stream (by decide)⟩

/-! ## Theorems: C1 — the format/parse roundtrip

### Digit-string roundtrips -/

theorem foldl_mul_add (base : Nat) (L : List Nat) (a : Nat) :
    L.foldl (fun acc d => acc * base + d) a =
      Nat.ofDigits base L.reverse + a * base ^ L.length := by
  induction L generalizing a with
  | nil => simp [Nat.ofDigits]
  | cons x l ih =>
    simp only [List.foldl_cons, List.reverse_cons, ih, Nat.ofDigits_append,
      Nat.ofDigits_singleton, List.length_reverse, List.length_cons]
    ring

theorem decValue_decToChars (n : Nat) : decValue (decToChars n) = n := by
  unfold decValue decToChars
  split_ifs with h
  · simp [h]
  · rw [List.foldl_map]
    simp only [Nat.add_sub_cancel]
    rw [foldl_mul_add 10 (Nat.digits 10 n).reverse 0, List.reverse_reverse,
      Nat.ofDigits_digits]
    simp

theorem decToChars_digit (n : Nat) : ∀ c ∈ decToChars n, isDigitB c = true := by
  unfold decToChars
  split_ifs with h
  · intro c hc
    simp at hc
    simp [hc, isDigitB]
  · intro c hc
    simp only [List.mem_map, List.mem_reverse] at hc
    obtain ⟨d, hd, rfl⟩ := hc
    have : d < 10 := Nat.digits_lt_base (by norm_num) hd
    simp [isDigitB]
    omega

theorem decToChars_ne_nil (n : Nat) : decToChars n ≠ [] := by
  unfold decToChars
  split_ifs with h
  · simp
  · simp [Nat.digits_ne_nil_iff_ne_zero.mpr h]

theorem decToChars_head (n : Nat) (hn : n ≠ 0) (c : Nat)
    (hc : (decToChars n).head? = some c) : c ≠ 48 := by
  unfold decToChars at hc
  rw [if_neg hn, List.head?_map, List.head?_reverse] at hc
  have hnn : Nat.digits 10 n ≠ [] := Nat.digits_ne_nil_iff_ne_zero.mpr hn
  rw [List.getLast?_eq_getLast_of_ne_nil hnn] at hc
  simp only [Option.map_some', Option.some.injEq] at hc
  have hlast : (Nat.digits 10 n).getLast hnn ≠ 0 :=
    Nat.getLast_digit_ne_zero 10 hn
  omega

theorem decToChars_len (n k : Nat) (h : n < 10 ^ k) :
    (decToChars n).length ≤ max k 1 := by
  unfold decToChars
  split_ifs with hz
  · simp
  · simp only [List.length_map, List.length_reverse]
    rw [Nat.digits_len 10 n (by norm_num) hz]
    have := Nat.log_lt_of_lt_pow hz h
    omega

theorem hexV_hexDigitChar (d : Nat) (h : d < 16) : hexV (hexDigitChar d) = d := by
  unfold hexV hexDigitChar
  split_ifs <;> omega

theorem isHexB_hexDigitChar (d : Nat) (h : d < 16) :
    isHexB (hexDigitChar d) = true := by
  unfold isHexB isDigitB hexDigitChar
  split_ifs <;> simp <;> omega

theorem hexValue_hexToChars (n : Nat) : hexValue (hexToChars n) = n := by
  unfold hexValue hexToChars
  split_ifs with h
  · simp [h, hexV]
  · rw [List.foldl_map]
    have hcong : ∀ (L : List Nat), (∀ d ∈ L, d < 16) →
        L.reverse.foldl (fun acc d => acc * 16 + hexV (hexDigitChar d)) 0 =
        L.reverse.foldl (fun acc d => acc * 16 + d) 0 := by
      intro L hL
      apply List.foldl_ext
      intro a d hd
      rw [hexV_hexDigitChar d (hL d (List.mem_reverse.mp hd))]
    rw [hcong _ (fun d hd => Nat.digits_lt_base (by norm_num) hd),
      foldl_mul_add 16 (Nat.digits 16 n).reverse 0, List.reverse_reverse,
      Nat.ofDigits_digits]
    simp

theorem hexToChars_hex (n : Nat) :
    ∀ c ∈ hexToChars n, isHexB c = true := by
  unfold hexToChars
  split_ifs with h
  · intro c hc
    simp at hc
    simp [hc, isHexB, isDigitB]
  · intro c hc
    simp only [List.mem_map, List.mem_reverse] at hc
    obtain ⟨d, hd, rfl⟩ := hc
    exact isHexB_hexDigitChar d (Nat.digits_lt_base (by norm_num) hd)

theorem hexToChars_ne_nil (n : Nat) : hexToChars n ≠ [] := by
  unfold hexToChars
  split_ifs with h
  · simp
  · simp [Nat.digits_ne_nil_iff_ne_zero.mpr h]

/-- Splitting `takeWhile`/`dropWhile` at a boundary where the predicate
flips. -/
theorem takeWhile_dropWhile_app (p : Nat → Bool) (l r : List Nat)
    (hl : ∀ x ∈ l, p x = true) (hr : ∀ c, r.head? = some c → p c = false) :
    (l ++ r).takeWhile p = l ∧ (l ++ r).dropWhile p = r := by
  induction l with
  | nil =>
    simp only [List.nil_append]
    match r with
    | [] => simp
    | c :: r' =>
      have := hr c rfl
      simp [List.takeWhile_cons, List.dropWhile_cons, this]
  | cons x l' ih =>
    have hx := hl x (by simp)
    have ⟨ih1, ih2⟩ := ih (fun y hy => hl y (by simp [hy]))
    simp [List.takeWhile_cons, List.dropWhile_cons, hx, ih1, ih2]

theorem parseV4Field_round (n : Nat) (hn : n ≤ 255) (suffix : List Nat)
    (hs : ∀ c, suffix.head? = some c → isDigitB c = false) :
    parseV4Field (decToChars n ++ suffix) = some (n, suffix) := by
  obtain ⟨ht, hd⟩ := takeWhile_dropWhile_app isDigitB (decToChars n) suffix
    (decToChars_digit n) hs
  unfold parseV4Field
  dsimp only
  rw [ht]
  rw [if_neg (decToChars_ne_nil n)]
  have hlz : ¬ (1 < (decToChars n).length ∧ (decToChars n).head? = some 48) := by
    rintro ⟨h1, h2⟩
    rcases Nat.eq_zero_or_pos n with hz | hp
    · rw [hz] at h1; simp [decToChars] at h1
    · exact decToChars_head n (by omega) 48 h2 rfl
  rw [if_neg hlz, decValue_decToChars, if_neg (by omega),
    show (decToChars n ++ suffix).drop (decToChars n).length = suffix from by
      rw [List.drop_left]]

theorem parseHexGroup_round (g : Nat) (hg : g ≤ 65535) (suffix : List Nat)
    (hs : ∀ c, suffix.head? = some c → isHexB c = false) :
    parseHexGroup (hexToChars g ++ suffix) = some (g, suffix) := by
  obtain ⟨ht, hd⟩ := takeWhile_dropWhile_app isHexB (hexToChars g) suffix
    (hexToChars_hex g) hs
  unfold parseHexGroup
  dsimp only
  rw [ht, if_neg (hexToChars_ne_nil g), hexValue_hexToChars,
    if_neg (by omega),
    show (hexToChars g ++ suffix).drop (hexToChars g).length = suffix from by
      rw [List.drop_left]]

theorem atoi_decToChars (n : Nat) : atoi (decToChars n) = some (n : Int) := by
  have hne := decToChars_ne_nil n
  obtain ⟨c, cs, hcs⟩ : ∃ c cs, decToChars n = c :: cs := by
    match hd : decToChars n with
    | [] => exact absurd hd hne
    | c :: cs => exact ⟨c, cs, rfl⟩
  have hcd : isDigitB c = true := by
    apply decToChars_digit n
    simp [hcs]
  have hc48 : 48 ≤ c ∧ c ≤ 57 := by
    unfold isDigitB at hcd
    simpa using hcd
  rw [hcs]
  unfold atoi
  dsimp only
  rw [if_neg (by omega : ¬ (c = 45 ∨ c = 43))]
  rw [if_neg (by
    simp only [not_or]
    refine ⟨by simp, ?_⟩
    simp only [not_not]
    rw [← hcs]
    exact List.all_eq_true.mpr (decToChars_digit n))]
  rw [if_neg (by omega : ¬ c = 45), ← hcs, decValue_decToChars]

theorem itoa_nonneg (p : Int) (hp : 0 ≤ p) : itoa p = decToChars p.toNat := by
  unfold itoa
  rw [if_neg (by omega)]

theorem atoi_itoa (p : Int) (hp : 0 ≤ p) : atoi (itoa p) = some p := by
  rw [itoa_nonneg p hp, atoi_decToChars]
  congr 1
  omega

theorem parseAndValidatePort_round (sp dp : Int) (hs1 : 0 < sp)
    (hs2 : sp < 65535) (hd1 : 0 < dp) (hd2 : dp < 65535) :
    parseAndValidatePort (itoa sp) (itoa dp) = .ok (sp, dp) := by
  unfold parseAndValidatePort
  rw [atoi_itoa sp (by omega)]
  dsimp only
  rw [show validatePort sp = .ok () from by
    unfold validatePort; rw [if_neg (by omega)]]
  rw [atoi_itoa dp (by omega)]
  dsimp only
  rw [show validatePort dp = .ok () from by
    unfold validatePort; rw [if_neg (by omega)]]

/-- C10, witness: concrete connections whose first matching TLV has an empty
value. -/
theorem c10_getVpceID_partial_witness :
    connGetVpceID ⟨[], c3UA, c3UA, 0,
      some ⟨Version2, CMD_PROXY, AF_INET, SOCK_STREAM, none, none, [],
        [⟨0xEA, 0, []⟩]⟩, none, true, false, false⟩ = none ∧
    connGetVpceIDWithType ⟨[], c3UA, c3UA, 0,
      some ⟨Version2, CMD_PROXY, AF_INET, SOCK_STREAM, none, none, [],
        [⟨PP2_TYPE_SSL, 0, []⟩]⟩, none, true, false, false⟩ PP2_TYPE_SSL 1 =
      none := by
  refine ⟨ c10_getVpceID_partial.1 _ _ ⟨0xEA, 0, []⟩ rfl (by decide) rfl,
    c10_getVpceID_partial.2 _ _ PP2_TYPE_SSL 1 ⟨PP2_TYPE_SSL, 0, []⟩ rfl
      (by decide) (by decide) rfl⟩

/-! ## Roundtrip machinery: list utilities -/

/-- `find?` yields `c` when some element satisfies the predicate and every
element satisfying it is `c`. -/
theorem find?_all_eq (p : Nat → Bool) (c : Nat) (l : List Nat)
    (hex : ∃ x ∈ l, p x = true) (hall : ∀ x ∈ l, p x = true → x = c) :
    l.find? p = some c := by
  induction l with
  | nil => simp at hex
  | cons a t ih =>
    by_cases ha : p a = true
    · rw [List.find?_cons_of_pos _ ha, hall a (by simp) ha]
    · rw [List.find?_cons_of_neg _ (by simp [ha])]
      apply ih
      · rcases hex with ⟨x, hx, hpx⟩
        rcases List.mem_cons.mp hx with hxa | hxt
        · exact absurd (hxa ▸ hpx) ha
        · exact ⟨x, hxt, hpx⟩
      · exact fun x hx hpx => hall x (by simp [hx]) hpx

/-- `bytes.TrimSpace` strips exactly the CRLF off a line whose visible part
neither starts nor ends with whitespace. -/
theorem trimSpace_body (l : List Nat) (hne : l ≠ [])
    (hh : ∀ c, l.head? = some c → isSpaceB c = false)
    (hl : ∀ c, l.getLast? = some c → isSpaceB c = false) :
    trimSpace (l ++ [13, 10]) = l := by
  have h1 : (l ++ [13, 10]).dropWhile isSpaceB = l ++ [13, 10] := by
    match l, hne with
    | a :: t, _ =>
      have ha := hh a rfl
      simp [List.dropWhile_cons, ha]
  have h3 : l.reverse.dropWhile isSpaceB = l.reverse := by
    match hrev : l.reverse with
    | [] => rfl
    | a :: t =>
      have hla : l.getLast? = some a := by
        rw [← List.head?_reverse, hrev]; rfl
      simp [List.dropWhile_cons, hl a hla]
  unfold trimSpace
  rw [h1, List.reverse_append,
    show (([13, 10] : List Nat).reverse ++ l.reverse) = 10 :: 13 :: l.reverse
      from rfl,
    List.dropWhile_cons_of_pos (by decide), List.dropWhile_cons_of_pos (by decide),
    h3, List.reverse_reverse]

/-- The `strings.Fields` loop on an empty input, any fuel. -/
theorem fieldsOfAux_nil (fuel : Nat) : fieldsOfAux fuel [] = [] := by
  cases fuel <;> rfl

/-- `strings.Fields` takes a space-free token up to a space. -/
theorem fieldsOf_token_space (tok rest : List Nat) (hne : tok ≠ [])
    (hns : ∀ c ∈ tok, isSpaceB c = false) :
    fieldsOf (tok ++ 32 :: rest) = tok :: fieldsOf rest := by
  match tok, hne with
  | t0 :: tt, _ =>
    obtain ⟨htw, hdw⟩ := takeWhile_dropWhile_app (fun c => ¬ isSpaceB c) tt
      (32 :: rest)
      (fun x hx => by simp [hns x (by simp [hx])])
      (fun c hc => by
        have h32 : 32 = c := by simpa using hc
        simp [← h32, isSpaceB])
    show fieldsOfAux (t0 :: (tt ++ 32 :: rest)).length (t0 :: (tt ++ 32 :: rest))
      = (t0 :: tt) :: fieldsOf rest
    rw [show (t0 :: (tt ++ 32 :: rest)).length = (tt ++ 32 :: rest).length + 1
      from rfl]
    rw [show fieldsOfAux ((tt ++ 32 :: rest).length + 1) (t0 :: (tt ++ 32 :: rest))
        = if isSpaceB t0 then fieldsOfAux (tt ++ 32 :: rest).length (tt ++ 32 :: rest)
          else (t0 :: (tt ++ 32 :: rest).takeWhile (fun c => ¬ isSpaceB c)) ::
            fieldsOfAux (tt ++ 32 :: rest).length
              ((tt ++ 32 :: rest).dropWhile (fun c => ¬ isSpaceB c))
      from rfl]
    rw [if_neg (by simp [hns t0 (by simp)]), htw, hdw]
    have hlen : (tt ++ 32 :: rest).length = tt.length + rest.length + 1 := by
      simp; omega
    rw [hlen]
    rw [show fieldsOfAux (tt.length + rest.length + 1) (32 :: rest)
        = if isSpaceB 32 then fieldsOfAux (tt.length + rest.length) rest
          else (32 :: rest.takeWhile (fun c => ¬ isSpaceB c)) ::
            fieldsOfAux (tt.length + rest.length)
              (rest.dropWhile (fun c => ¬ isSpaceB c))
      from rfl]
    rw [if_pos (by decide)]
    rw [fieldsOfAux_fuel (tt.length + rest.length) rest.length rest
      (by omega) (le_refl _)]
    rfl

/-- `strings.Fields` of a single space-free token. -/
theorem fieldsOf_single (tok : List Nat) (hne : tok ≠ [])
    (hns : ∀ c ∈ tok, isSpaceB c = false) :
    fieldsOf tok = [tok] := by
  match tok, hne with
  | t0 :: tt, _ =>
    show fieldsOfAux (t0 :: tt).length (t0 :: tt) = [t0 :: tt]
    rw [show (t0 :: tt).length = tt.length + 1 from rfl]
    rw [show fieldsOfAux (tt.length + 1) (t0 :: tt)
        = if isSpaceB t0 then fieldsOfAux tt.length tt
          else (t0 :: tt.takeWhile (fun c => ¬ isSpaceB c)) ::
            fieldsOfAux tt.length (tt.dropWhile (fun c => ¬ isSpaceB c))
      from rfl]
    rw [if_neg (by simp [hns t0 (by simp)])]
    rw [List.takeWhile_eq_self_iff.mpr (fun x hx => by simp [hns x (by simp [hx])]),
      List.dropWhile_eq_nil_iff.mpr (fun x hx => by simp [hns x (by simp [hx])]),
      fieldsOfAux_nil]

/-- The byte-reading loop of `readV1` consumes exactly the CR-terminated
line up to and including the line feed. -/
theorem readV1Loop_run (mid : List Nat) : ∀ (raw rest : List Nat),
    10 ∉ mid → (raw ++ mid).getLastD 0 = 13 → (raw ++ mid).length ≤ 106 →
    readV1Loop raw (mid ++ 10 :: rest) = .ok (raw ++ mid ++ [10], rest) := by
  induction mid with
  | nil =>
    intro raw rest _ hcr _
    simp only [List.append_nil] at hcr
    simp only [List.nil_append, List.append_nil]
    unfold readV1Loop
    rw [if_pos rfl, if_neg (not_not_intro hcr)]
  | cons m mt ih =>
    intro raw rest h10 hcr hlen
    have hm : m ≠ 10 := fun h => h10 (by simp [h])
    show readV1Loop raw (m :: (mt ++ 10 :: rest)) = _
    unfold readV1Loop
    rw [if_neg hm]
    have hl1 : ¬ v1HeaderMaxLength ≤ (raw ++ [m]).length := by
      have : (raw ++ m :: mt).length = raw.length + mt.length + 1 := by
        simp; omega
      simp only [v1HeaderMaxLength, List.length_append, List.length_cons,
        List.length_nil] at *
      omega
    rw [if_neg hl1]
    have := ih (raw ++ [m]) rest (fun h => h10 (by simp [h]))
      (by rw [List.append_assoc]; simpa using hcr)
      (by rw [List.append_assoc]; simpa using hlen)
    rw [this, List.append_assoc]
    simp

/-- `parseUnixName` undoes the NUL padding of `formatUnixName` on a NUL-free
name. -/
theorem parseUnixName_pad (name : List Nat) (k : Nat) (h0 : 0 ∉ name) :
    parseUnixName (name ++ List.replicate k 0) = name := by
  unfold parseUnixName
  match k with
  | 0 =>
    simp only [List.replicate, List.append_nil]
    have hidx : name.indexOf 0 = name.length := List.indexOf_eq_length.mpr h0
    rw [hidx, if_neg (by omega)]
  | k + 1 =>
    have hidx : (name ++ List.replicate (k + 1) 0).indexOf 0 = name.length := by
      rw [List.indexOf_append_of_not_mem h0]
      simp [List.replicate_succ, List.indexOf_cons_self]
    rw [hidx, if_pos (by simp [List.length_replicate])]
    exact List.take_left' rfl

/-! ## Theorems: C1 — the format/parse roundtrip -/

theorem ipTo4_v4Mapped (q : List Nat) (hq : q.length = 4) :
    ipTo4 (v4Mapped q) = some q := by
  match q, hq with
  | [a, b, c, d], _ => rfl

theorem ipTo16_of_ipTo4 (ip q : List Nat) (h : ipTo4 ip = some q) :
    ipTo16 ip = some (v4Mapped q) := by
  unfold ipTo4 at h
  unfold ipTo16
  split_ifs at h with h4 h16
  · rw [if_pos h4]
    have : ip = q := by simpa using h
    rw [this]
  · obtain ⟨h16l, ht, h10, h11⟩ := h16
    rw [if_neg h4, if_pos h16l]
    have hq : q = ip.drop 12 := by simpa using h.symm
    subst hq
    have h6 : (ip.drop 10).length = 6 := by simp [h16l]
    match hd : ip.drop 10, h6 with
    | [b10, b11, c0, c1, c2, c3], _ =>
      have e1 : ip.get? 10 = some b10 := by
        have hgd := List.getElem?_drop ip 10 0
        rw [hd] at hgd
        simpa using hgd.symm
      have e2 : ip.get? 11 = some b11 := by
        have hgd := List.getElem?_drop ip 10 1
        rw [hd] at hgd
        simpa using hgd.symm
      have hb10 : b10 = 255 := by rw [e1] at h10; simpa using h10
      have hb11 : b11 = 255 := by rw [e2] at h11; simpa using h11
      have hdrop12 : ip.drop 12 = [c0, c1, c2, c3] := by
        have := List.drop_drop 2 10 ip
        rw [hd] at this
        simpa using this.symm
      congr 1
      calc ip = ip.take 10 ++ ip.drop 10 := (List.take_append_drop 10 ip).symm
        _ = List.replicate 10 0 ++ [b10, b11, c0, c1, c2, c3] := by rw [ht, hd]
        _ = v4Mapped (ip.drop 12) := by
            rw [hdrop12, hb10, hb11]
            rfl

theorem parseIPv4bytes_round (a b c d : Nat) (ha : a < 256) (hb : b < 256)
    (hc : c < 256) (hd : d < 256) :
    parseIPv4bytes (ipv4String [a, b, c, d]) = some [a, b, c, d] := by
  have hdot : ∀ (x : List Nat) (cc : Nat), (46 :: x).head? = some cc →
      isDigitB cc = false := by
    intro x cc hcc
    have h46 : 46 = cc := by simpa using hcc
    simp [← h46, isDigitB]
  have hshape : ipv4String [a, b, c, d] = decToChars a ++
      (46 :: (decToChars b ++ (46 :: (decToChars c ++ (46 :: decToChars d))))) := by
    simp [ipv4String]
  have hA := parseV4Field_round a (by omega)
    (46 :: (decToChars b ++ (46 :: (decToChars c ++ (46 :: decToChars d))))) (hdot _)
  have hB := parseV4Field_round b (by omega)
    (46 :: (decToChars c ++ (46 :: decToChars d))) (hdot _)
  have hC := parseV4Field_round c (by omega) (46 :: decToChars d) (hdot _)
  have hD : parseV4Field (decToChars d) = some (d, []) := by
    rw [← List.append_nil (decToChars d)]
    exact parseV4Field_round d (by omega) [] (by intro cc hcc; simp at hcc)
  unfold parseIPv4bytes
  rw [hshape, hA]
  simp only
  rw [hB]
  simp only
  rw [hC]
  simp only
  rw [hD]

theorem parseIP_ipv4String (q : List Nat) (hq : q.length = 4)
    (hlt : ∀ x ∈ q, x < 256) :
    parseIP (ipv4String q) = some (v4Mapped q) := by
  match q, hq with
  | [a, b, c, d], _ =>
    have ha : a < 256 := hlt a (by simp)
    have hb : b < 256 := hlt b (by simp)
    have hc : c < 256 := hlt c (by simp)
    have hd : d < 256 := hlt d (by simp)
    have hfind : (ipv4String [a, b, c, d]).find?
        (fun b => b = 46 ∨ b = 58 ∨ b = 37) = some 46 := by
      apply find?_all_eq
      · refine ⟨46, ?_, by decide⟩
        simp [ipv4String]
      · intro x hx hpx
        simp only [decide_eq_true_eq] at hpx
        simp [ipv4String, List.mem_append, List.mem_cons] at hx
        rcases hx with hx | hx | hx | hx | hx | hx | hx <;>
          first
            | omega
            | (have hdig := decToChars_digit _ x hx
               simp [isDigitB] at hdig
               omega)
    unfold parseIP
    rw [hfind]
    simp only
    unfold parseIPv4
    rw [parseIPv4bytes_round a b c d ha hb hc hd]
    rfl
theorem groupsOfBytes_length (b : List Nat) :
    (groupsOfBytes b).length = b.length / 2 := by
  match b with
  | [] => rfl
  | [x] => simp [groupsOfBytes]
  | b0 :: b1 :: rest =>
    show (groupsOfBytes rest).length + 1 = (rest.length + 1 + 1) / 2
    rw [groupsOfBytes_length rest]
    omega

theorem bytesOfGroups_groupsOfBytes (b : List Nat) (heven : b.length % 2 = 0)
    (hlt : ∀ x ∈ b, x < 256) : bytesOfGroups (groupsOfBytes b) = b := by
  match b with
  | [] => rfl
  | [x] => simp at heven
  | b0 :: b1 :: rest =>
    have h0 : b0 < 256 := hlt b0 (by simp)
    have h1 : b1 < 256 := hlt b1 (by simp)
    have ih := bytesOfGroups_groupsOfBytes rest
      (by simp only [List.length_cons] at heven; omega)
      (fun x hx => hlt x (by simp [hx]))
    show bytesOfGroups ((b0 * 256 + b1) :: groupsOfBytes rest) = _
    simp only [bytesOfGroups, List.map_cons, List.flatten_cons] at ih ⊢
    rw [ih]
    have e0 : (b0 * 256 + b1) / 256 % 256 = b0 := by omega
    have e1 : (b0 * 256 + b1) % 256 = b1 := by omega
    rw [e0, e1]
    rfl

theorem groupsOfBytes_lt (b : List Nat) (hlt : ∀ x ∈ b, x < 256) :
    ∀ g ∈ groupsOfBytes b, g < 65536 := by
  match b with
  | [] => simp [groupsOfBytes]
  | [x] => simp [groupsOfBytes]
  | b0 :: b1 :: rest =>
    intro g hg
    simp only [groupsOfBytes, List.mem_cons] at hg
    rcases hg with hg | hg
    · have h0 := hlt b0 (by simp)
      have h1 := hlt b1 (by simp)
      omega
    · exact groupsOfBytes_lt rest (fun x hx => hlt x (by simp [hx])) g hg

theorem zeroRunLen_le (l : List Nat) : zeroRunLen l ≤ l.length :=
  (List.takeWhile_prefix _).length_le

theorem zeroRun_get (l : List Nat) (j : Nat) (hj : j < zeroRunLen l) :
    l[j]? = some 0 := by
  induction l generalizing j with
  | nil => simp [zeroRunLen] at hj
  | cons x t ih =>
    unfold zeroRunLen at hj
    rw [List.takeWhile_cons] at hj
    by_cases hx : x = 0
    · rw [if_pos (by simp [hx])] at hj
      simp only [List.length_cons] at hj
      match j with
      | 0 => simp [hx]
      | j + 1 =>
        simp only [List.getElem?_cons_succ]
        exact ih j (by unfold zeroRunLen; omega)
    · rw [if_neg (by simp [hx])] at hj
      simp at hj

theorem bestRunFrom_base (l : List Nat) (i : Nat) :
    i ≤ i ∧ i ≤ i + zeroRunLen l ∧ i + zeroRunLen l ≤ i + l.length ∧
    ∀ k, i ≤ k → k < i + zeroRunLen l → l[k - i]? = some 0 :=
  ⟨le_refl _, Nat.le_add_right _ _, by have := zeroRunLen_le l; omega,
   fun k hk1 hk2 => zeroRun_get l (k - i) (by omega)⟩

theorem bestRunFrom_spec : ∀ (l : List Nat) (i j0 j1 : Nat),
    bestRunFrom l i = some (j0, j1) →
    i ≤ j0 ∧ j0 ≤ j1 ∧ j1 ≤ i + l.length ∧
    ∀ k, j0 ≤ k → k < j1 → l[k - i]? = some 0 := by
  intro l
  induction l with
  | nil => intro i j0 j1 h; simp [bestRunFrom] at h
  | cons x t ih =>
    intro i j0 j1 h
    unfold bestRunFrom at h
    dsimp only at h
    cases hrec : bestRunFrom t (i + 1) with
    | none =>
      rw [hrec] at h
      simp only [Option.some.injEq, Prod.mk.injEq] at h
      obtain ⟨h1, h2⟩ := h
      subst h1; subst h2
      exact bestRunFrom_base (x :: t) i
    | some p =>
      obtain ⟨j0', j1'⟩ := p
      rw [hrec] at h
      simp only at h
      split_ifs at h with hcmp
      · simp only [Option.some.injEq, Prod.mk.injEq] at h
        obtain ⟨h1, h2⟩ := h
        subst h1; subst h2
        exact bestRunFrom_base (x :: t) i
      · simp only [Option.some.injEq, Prod.mk.injEq] at h
        obtain ⟨h1, h2⟩ := h
        obtain ⟨a1, a2, a3, a4⟩ := ih (i + 1) j0' j1' hrec
        rw [← h1, ← h2]
        refine ⟨by omega, a2, by simp; omega, ?_⟩
        intro k hk1 hk2
        have hx : (x :: t)[k - i]? = t[k - (i + 1)]? := by
          have heq : k - i = (k - (i + 1)) + 1 := by omega
          rw [heq]
          simp
        rw [hx]
        exact a4 k hk1 hk2

theorem take_replicate_drop_eq (gs : List Nat) (e0 e1 : Nat) (h01 : e0 ≤ e1)
    (h1 : e1 ≤ gs.length)
    (hz : ∀ k, e0 ≤ k → k < e1 → gs[k]? = some 0) :
    gs.take e0 ++ List.replicate (e1 - e0) 0 ++ gs.drop e1 = gs := by
  have hrep : List.replicate (e1 - e0) 0 = (gs.drop e0).take (e1 - e0) := by
    apply List.ext_getElem?
    intro k
    by_cases hk : k < e1 - e0
    · rw [List.getElem?_take, if_pos hk, List.getElem?_drop,
        List.getElem?_replicate, if_pos hk]
      exact (hz (e0 + k) (by omega) (by omega)).symm
    · rw [List.getElem?_replicate, if_neg hk]
      have hlen : ((gs.drop e0).take (e1 - e0)).length ≤ k := by
        simp [List.length_take, List.length_drop]
        omega
      exact (List.getElem?_eq_none hlen).symm
  have hdd : (gs.drop e0).drop (e1 - e0) = gs.drop e1 := by
    rw [List.drop_drop]
    congr 1
    omega
  calc gs.take e0 ++ List.replicate (e1 - e0) 0 ++ gs.drop e1
      = gs.take e0 ++ ((gs.drop e0).take (e1 - e0) ++ (gs.drop e0).drop (e1 - e0)) := by
        rw [hrep, hdd, List.append_assoc]
    _ = gs.take e0 ++ gs.drop e0 := by rw [List.take_append_drop]
    _ = gs := List.take_append_drop e0 gs
theorem joinColon_cons (x y : List Nat) (ys : List (List Nat)) :
    joinColon (x :: y :: ys) = x ++ 58 :: joinColon (y :: ys) := by
  show x ++ [58] ++ joinColon (y :: ys) = _
  rw [List.append_assoc]
  rfl

theorem hexToChars_head (g : Nat) (rest : List Nat) (c : Nat)
    (hc : (hexToChars g ++ rest).head? = some c) : isHexB c = true := by
  match hx : hexToChars g, hexToChars_ne_nil g with
  | a :: t, _ =>
    rw [hx] at hc
    simp only [List.cons_append, List.head?_cons, Option.some.injEq] at hc
    rw [← hc]
    apply hexToChars_hex
    rw [hx]
    simp

theorem joinColon_hex_head (r : Nat) (rt : List Nat) (suffix : List Nat) (c : Nat)
    (hc : (joinColon ((r :: rt).map hexToChars) ++ suffix).head? = some c) :
    isHexB c = true := by
  cases rt with
  | nil => exact hexToChars_head r suffix c (by simpa using hc)
  | cons r2 rt2 =>
    rw [List.map_cons, List.map_cons, joinColon_cons, List.append_assoc] at hc
    exact hexToChars_head r _ c hc

theorem joinColon_map_ne_nil (r : Nat) (rt : List Nat) :
    joinColon ((r :: rt).map hexToChars) ≠ [] := by
  cases rt with
  | nil => exact hexToChars_ne_nil r
  | cons r2 rt2 =>
    rw [List.map_cons, List.map_cons, joinColon_cons]
    simp


theorem p6loop_step_last (fuel : Nat) (gs : List Nat) (ell : Option Nat)
    (s : List Nat) (g : Nat) (h8 : ¬ 8 ≤ gs.length)
    (hpg : parseHexGroup s = some (g, [])) :
    p6loop (fuel + 1) gs ell s = p6finish (gs ++ [g]) ell := by
  unfold p6loop
  rw [if_neg h8, hpg]
  simp only [Nat.add_one]
  rw [if_neg (by simp), if_pos trivial]

theorem p6loop_step_colon (fuel : Nat) (gs : List Nat) (ell : Option Nat)
    (s t : List Nat) (g c : Nat) (h8 : ¬ 8 ≤ gs.length)
    (hpg : parseHexGroup s = some (g, 58 :: t))
    (hc : t.head? = some c) (hhex : isHexB c = true) :
    p6loop (fuel + 1) gs ell s = p6loop fuel (gs ++ [g]) ell t := by
  have hc58 : c ≠ 58 := fun h => by rw [h] at hhex; exact absurd hhex (by decide)
  have htne : t ≠ [] := fun h => by rw [h] at hc; exact Option.noConfusion hc
  conv_lhs => unfold p6loop
  rw [if_neg h8, hpg]
  simp only [Nat.add_one]
  rw [if_neg (by simp)]
  rw [if_neg (by simp)]
  rw [if_neg (by simp)]
  rw [if_neg (by
    simp only [List.length_cons]
    intro hlen1
    exact htne (List.length_eq_zero.mp (by omega)))]
  rw [if_neg (by rw [hc]; simp [hc58])]

theorem p6loop_step_ell (fuel : Nat) (gs : List Nat)
    (s t : List Nat) (g : Nat) (h8 : ¬ 8 ≤ gs.length)
    (hpg : parseHexGroup s = some (g, 58 :: 58 :: t)) :
    p6loop (fuel + 1) gs none s =
      (if t = [] then p6finish (gs ++ [g]) (some (gs ++ [g]).length)
       else p6loop fuel (gs ++ [g]) (some (gs ++ [g]).length) t) := by
  conv_lhs => unfold p6loop
  rw [if_neg h8, hpg]
  simp only [Nat.add_one]
  rw [if_neg (by simp)]
  rw [if_neg (by simp)]
  rw [if_neg (by simp)]
  rw [if_neg (by simp)]
  rw [if_pos (by simp)]

theorem p6loop_run_full : ∀ (rs gs : List Nat) (ell : Option Nat) (fuel : Nat),
    rs ≠ [] → (∀ g ∈ rs, g < 65536) → gs.length + rs.length ≤ 8 →
    rs.length ≤ fuel →
    p6loop fuel gs ell (joinColon (rs.map hexToChars)) =
      p6finish (gs ++ rs) ell := by
  intro rs
  induction rs with
  | nil => intro gs ell fuel h; exact absurd rfl h
  | cons r rt ih =>
    intro gs ell fuel _ hlt hlen hfuel
    have hr : r < 65536 := hlt r (by simp)
    simp only [List.length_cons] at hlen hfuel
    have h8 : ¬ 8 ≤ gs.length := by simp; omega
    match fuel, hfuel with
    | fuel + 1, hf2 =>
      cases rt with
      | nil =>
        have hpg : parseHexGroup (joinColon ([r].map hexToChars)) = some (r, []) := by
          show parseHexGroup (hexToChars r) = some (r, [])
          rw [← List.append_nil (hexToChars r)]
          exact parseHexGroup_round r (by omega) [] (by intro cc hcc; simp at hcc)
        rw [p6loop_step_last fuel gs ell _ r h8 hpg]
      | cons r2 rt2 =>
        have hjc : joinColon ((r :: r2 :: rt2).map hexToChars) =
            hexToChars r ++ 58 :: joinColon ((r2 :: rt2).map hexToChars) := by
          rw [List.map_cons]
          exact joinColon_cons _ _ _
        have hpg : parseHexGroup (joinColon ((r :: r2 :: rt2).map hexToChars)) =
            some (r, 58 :: joinColon ((r2 :: rt2).map hexToChars)) := by
          rw [hjc]
          exact parseHexGroup_round r (by omega) _ (by
            intro cc hcc
            have h58 : 58 = cc := by simpa using hcc
            rw [← h58]
            decide)
        obtain ⟨c, hc⟩ : ∃ c,
            (joinColon ((r2 :: rt2).map hexToChars)).head? = some c := by
          match hJ : joinColon ((r2 :: rt2).map hexToChars),
              joinColon_map_ne_nil r2 rt2 with
          | a :: t, _ => exact ⟨a, rfl⟩
        have hhex : isHexB c = true :=
          joinColon_hex_head r2 rt2 [] c (by rw [List.append_nil]; exact hc)
        rw [p6loop_step_colon fuel gs ell _ _ r c h8 hpg hc hhex]
        rw [ih (gs ++ [r]) ell fuel (by simp) (fun g hg => hlt g (by simp [hg]))
          (by simp only [List.length_append, List.length_cons, List.length_nil]
              at hlen ⊢
              omega)
          (by omega)]
        rw [List.append_assoc]
        rfl

theorem p6loop_run_ell : ∀ (ls rs gs : List Nat) (fuel : Nat),
    ls ≠ [] → (∀ g ∈ ls, g < 65536) → (∀ g ∈ rs, g < 65536) →
    gs.length + ls.length + rs.length ≤ 6 →
    ls.length + rs.length ≤ fuel →
    p6loop fuel gs none
      (joinColon (ls.map hexToChars) ++ 58 :: 58 :: joinColon (rs.map hexToChars)) =
    p6finish (gs ++ ls ++ rs) (some (gs ++ ls).length) := by
  intro ls
  induction ls with
  | nil => intro rs gs fuel h; exact absurd rfl h
  | cons l lt ih =>
    intro rs gs fuel _ hllt hrlt hlen hfuel
    have hl : l < 65536 := hllt l (by simp)
    simp only [List.length_cons] at hlen hfuel
    have h8 : ¬ 8 ≤ gs.length := by simp; omega
    have hfuel2 : lt.length + rs.length + 1 ≤ fuel := by omega
    match fuel, hfuel2 with
    | fuel + 1, hf2 =>
      cases lt with
      | nil =>
        have hpg : parseHexGroup
            (hexToChars l ++ 58 :: 58 :: joinColon (rs.map hexToChars)) =
            some (l, 58 :: 58 :: joinColon (rs.map hexToChars)) :=
          parseHexGroup_round l (by omega) _ (by
            intro cc hcc
            have h58 : 58 = cc := by simpa using hcc
            rw [← h58]
            decide)
        rw [show joinColon ([l].map hexToChars) ++
            58 :: 58 :: joinColon (rs.map hexToChars) =
            hexToChars l ++ 58 :: 58 :: joinColon (rs.map hexToChars) from rfl]
        rw [p6loop_step_ell fuel gs _ _ l h8 hpg]
        cases rs with
        | nil =>
          rw [if_pos (show joinColon (List.map hexToChars []) = [] from rfl)]
          simp
        | cons r0 rt0 =>
          rw [if_neg (joinColon_map_ne_nil r0 rt0)]
          rw [p6loop_run_full (r0 :: rt0) (gs ++ [l]) (some (gs ++ [l]).length)
            fuel (by simp) hrlt
            (by simp only [List.length_append, List.length_cons, List.length_nil]
                at hlen ⊢
                omega)
            (by omega)]
      | cons l2 lt2 =>
        have hs : joinColon ((l :: l2 :: lt2).map hexToChars) ++
            58 :: 58 :: joinColon (rs.map hexToChars) =
            hexToChars l ++ 58 :: (joinColon ((l2 :: lt2).map hexToChars) ++
              58 :: 58 :: joinColon (rs.map hexToChars)) := by
          rw [List.map_cons]
          rw [show joinColon (hexToChars l :: (l2 :: lt2).map hexToChars) =
              hexToChars l ++ 58 :: joinColon ((l2 :: lt2).map hexToChars) from
            joinColon_cons _ _ _]
          rw [List.append_assoc]
          rfl
        have hpg : parseHexGroup
            (hexToChars l ++ 58 :: (joinColon ((l2 :: lt2).map hexToChars) ++
              58 :: 58 :: joinColon (rs.map hexToChars))) =
            some (l, 58 :: (joinColon ((l2 :: lt2).map hexToChars) ++
              58 :: 58 :: joinColon (rs.map hexToChars))) :=
          parseHexGroup_round l (by omega) _ (by
            intro cc hcc
            have h58 : 58 = cc := by simpa using hcc
            rw [← h58]
            decide)
        obtain ⟨c, hc⟩ : ∃ c,
            (joinColon ((l2 :: lt2).map hexToChars) ++
              58 :: 58 :: joinColon (rs.map hexToChars)).head? = some c := by
          match hJ : joinColon ((l2 :: lt2).map hexToChars),
              joinColon_map_ne_nil l2 lt2 with
          | a :: t, _ => exact ⟨a, rfl⟩
        have hhex : isHexB c = true := joinColon_hex_head l2 lt2 _ c hc
        rw [hs, p6loop_step_colon fuel gs none _ _ l c h8 hpg hc hhex]
        rw [ih rs (gs ++ [l]) fuel (by simp) (fun g hg => hllt g (by simp [hg]))
          hrlt
          (by simp only [List.length_append, List.length_cons, List.length_nil]
              at hlen ⊢
              omega)
          (by simp only [List.length_cons] at hfuel ⊢; omega)]
        simp
theorem take2_ne_colons (s : List Nat) (c : Nat) (hc : s.head? = some c)
    (h58 : c ≠ 58) : s.take 2 ≠ [58, 58] := by
  match s, hc with
  | a :: t, hc =>
    have hac : a = c := by simpa using hc
    intro hcontra
    rw [show (a :: t).take 2 = a :: t.take 1 from rfl] at hcontra
    exact h58 (hac ▸ (List.cons.inj hcontra).1)

theorem p6finish_full (gs : List Nat) (h8 : gs.length = 8) :
    p6finish gs none = some (bytesOfGroups gs) := by
  unfold p6finish
  rw [if_pos h8]

theorem p6finish_short (gs : List Nat) (e : Nat) (h8 : gs.length ≠ 8) :
    p6finish gs (some e) =
      some (bytesOfGroups (gs.take e ++ List.replicate (8 - gs.length) 0 ++ gs.drop e)) := by
  unfold p6finish
  rw [if_neg h8]

theorem parseIPv6_dcolon (t : List Nat) :
    parseIPv6 (58 :: 58 :: t) =
      (if t = [] then some (List.replicate 16 0) else p6loop 9 [] (some 0) t) := by
  unfold parseIPv6
  rw [if_pos (show (58 :: 58 :: t).take 2 = [58, 58] from rfl)]
  rfl

theorem parseIPv6_nocolon (s : List Nat) (c : Nat) (hc : s.head? = some c)
    (h58 : c ≠ 58) : parseIPv6 s = p6loop 9 [] none s := by
  unfold parseIPv6
  rw [if_neg (take2_ne_colons s c hc h58)]

theorem parseIPv6_render (b : List Nat) (hb : b.length = 16)
    (hlt : ∀ x ∈ b, x < 256) :
    parseIPv6 (ipv6StringOfGroups (groupsOfBytes b)) = some b := by
  have hglen : (groupsOfBytes b).length = 8 := by
    rw [groupsOfBytes_length, hb]
  have hglt : ∀ g ∈ groupsOfBytes b, g < 65536 := groupsOfBytes_lt b hlt
  have hbg : bytesOfGroups (groupsOfBytes b) = b :=
    bytesOfGroups_groupsOfBytes b (by rw [hb]) hlt
  unfold ipv6StringOfGroups
  cases hbzr : bestZeroRun (groupsOfBytes b) with
  | none =>
    dsimp only
    match hgsd : groupsOfBytes b, hglen with
    | g0 :: gt, _ =>
      obtain ⟨c, hc⟩ : ∃ c,
          (joinColon ((g0 :: gt).map hexToChars)).head? = some c := by
        match hJ : joinColon ((g0 :: gt).map hexToChars),
            joinColon_map_ne_nil g0 gt with
        | a :: t, _ => exact ⟨a, rfl⟩
      have hhex : isHexB c = true :=
        joinColon_hex_head g0 gt [] c (by rw [List.append_nil]; exact hc)
      rw [parseIPv6_nocolon _ c hc (fun h => absurd hhex (by rw [h]; decide))]
      rw [p6loop_run_full (g0 :: gt) [] none 9 (by simp)
        (by rw [← hgsd]; exact hglt)
        (by rw [List.length_nil, ← hgsd, hglen])
        (by rw [← hgsd, hglen]; omega)]
      rw [List.nil_append, p6finish_full _ (by rw [← hgsd, hglen])]
      rw [← hgsd, hbg]
  | some p =>
    obtain ⟨e0, e1⟩ := p
    dsimp only
    have hspec : bestRunFrom (groupsOfBytes b) 0 = some (e0, e1) ∧ 2 ≤ e1 - e0 := by
      unfold bestZeroRun at hbzr
      cases hbr : bestRunFrom (groupsOfBytes b) 0 with
      | none => rw [hbr] at hbzr; exact Option.noConfusion hbzr
      | some q =>
        obtain ⟨f0, f1⟩ := q
        rw [hbr] at hbzr
        simp only at hbzr
        split_ifs at hbzr with h2
        · simp only [Option.some.injEq, Prod.mk.injEq] at hbzr
          rw [hbzr.1, hbzr.2] at h2
          exact ⟨by rw [hbzr.1, hbzr.2], h2⟩
    obtain ⟨hbr, h2⟩ := hspec
    obtain ⟨_, h01, hle, hz⟩ := bestRunFrom_spec (groupsOfBytes b) 0 e0 e1 hbr
    rw [hglen] at hle
    simp only [Nat.zero_add] at hle
    have hsplit : (groupsOfBytes b).take e0 ++ List.replicate (e1 - e0) 0 ++
        (groupsOfBytes b).drop e1 = groupsOfBytes b :=
      take_replicate_drop_eq _ e0 e1 h01 (by rw [hglen]; omega)
        (fun k hk1 hk2 => by simpa using hz k hk1 hk2)
    by_cases he0 : e0 = 0
    · subst he0
      have hshape : joinColon (((groupsOfBytes b).take 0).map hexToChars) ++
          [58, 58] ++ joinColon (((groupsOfBytes b).drop e1).map hexToChars) =
          58 :: 58 :: joinColon (((groupsOfBytes b).drop e1).map hexToChars) := rfl
      rw [hshape, parseIPv6_dcolon]
      by_cases he1 : e1 = 8
      · subst he1
        have hdrop : (groupsOfBytes b).drop 8 = [] :=
          List.drop_eq_nil_of_le (by rw [hglen])
        rw [hdrop]
        rw [if_pos (show joinColon (List.map hexToChars ([] : List Nat)) = []
          from rfl)]
        have hzero : groupsOfBytes b = List.replicate 8 0 := by
          rw [← hsplit, hdrop]
          simp
        rw [← hbg, hzero]
        rfl
      · have hd8 : ((groupsOfBytes b).drop e1).length = 8 - e1 := by
          rw [List.length_drop, hglen]
        match hdd : (groupsOfBytes b).drop e1, hd8 with
        | [], hnil => simp only [List.length_nil] at hnil; omega
        | d0 :: dt, _ =>
          rw [if_neg (joinColon_map_ne_nil d0 dt)]
          rw [p6loop_run_full (d0 :: dt) [] (some 0) 9 (by simp)
            (by rw [← hdd]; exact fun g hg => hglt g (List.mem_of_mem_drop hg))
            (by rw [List.length_nil, ← hdd, hd8]; omega)
            (by rw [← hdd, hd8]; omega)]
          rw [List.nil_append, p6finish_short _ 0 (by rw [← hdd, hd8]; omega)]
          rw [← hdd, List.take_zero, List.drop_zero, List.nil_append, hd8]
          rw [show 8 - (8 - e1) = e1 from by omega]
          have hsplit0 : List.replicate e1 0 ++ (groupsOfBytes b).drop e1 =
              groupsOfBytes b := by
            have hs0 := hsplit
            rw [List.take_zero, List.nil_append, Nat.sub_zero] at hs0
            exact hs0
          rw [hsplit0, hbg]
    · have hteq : ((groupsOfBytes b).take e0).length = e0 := by
        rw [List.length_take, hglen]
        omega
      match htk : (groupsOfBytes b).take e0, (by omega : 0 < e0), hteq with
      | t0 :: tt, _, _ =>
        obtain ⟨c, hc⟩ : ∃ c,
            ((joinColon ((t0 :: tt).map hexToChars) ++ [58, 58]) ++
              joinColon (((groupsOfBytes b).drop e1).map hexToChars)).head? =
              some c := by
          match hJ : joinColon ((t0 :: tt).map hexToChars),
              joinColon_map_ne_nil t0 tt with
          | a :: t, _ => exact ⟨a, rfl⟩
        have hhex : isHexB c = true := by
          apply joinColon_hex_head t0 tt
            ([58, 58] ++ joinColon (((groupsOfBytes b).drop e1).map hexToChars)) c
          rw [← List.append_assoc]
          exact hc
        rw [parseIPv6_nocolon _ c hc (fun h => absurd hhex (by rw [h]; decide))]
        rw [List.append_assoc]
        rw [show ([58, 58] :
            List Nat) ++ joinColon (((groupsOfBytes b).drop e1).map hexToChars) =
          58 :: 58 :: joinColon (((groupsOfBytes b).drop e1).map hexToChars) from rfl]
        rw [p6loop_run_ell (t0 :: tt) ((groupsOfBytes b).drop e1) [] 9 (by simp)
          (by rw [← htk]; exact fun g hg => hglt g (List.mem_of_mem_take hg))
          (fun g hg => hglt g (List.mem_of_mem_drop hg))
          (by rw [List.length_nil, ← htk, hteq, List.length_drop, hglen]; omega)
          (by rw [← htk, hteq, List.length_drop, hglen]; omega)]
        rw [List.nil_append, ← htk, hteq]
        rw [p6finish_short _ _ (by
          rw [List.length_append, hteq, List.length_drop, hglen]
          omega)]
        rw [List.take_left' hteq, List.drop_left' hteq]
        rw [List.length_append, hteq, List.length_drop, hglen]
        rw [show 8 - (e0 + (8 - e1)) = e1 - e0 from by omega]
        rw [hsplit, hbg]
theorem ipTo4_length (ip q : List Nat) (h : ipTo4 ip = some q) : q.length = 4 := by
  unfold ipTo4 at h
  split_ifs at h with h4 h16
  · have he : ip = q := by simpa using h
    rw [← he]
    exact h4
  · have he : ip.drop 12 = q := by simpa using h
    rw [← he, List.length_drop, h16.1]

theorem ipTo4_mem (ip q : List Nat) (h : ipTo4 ip = some q) :
    ∀ x ∈ q, x ∈ ip := by
  unfold ipTo4 at h
  split_ifs at h with h4 h16
  · have he : ip = q := by simpa using h
    intro x hx
    rw [he]
    exact hx
  · have he : ip.drop 12 = q := by simpa using h
    intro x hx
    rw [← he] at hx
    exact List.mem_of_mem_drop hx

theorem ipTo16_id (b : List Nat) (hb : b.length = 16) : ipTo16 b = some b := by
  unfold ipTo16
  rw [if_neg (by omega), if_pos hb]

theorem mem_joinColon_map (l : List Nat) (x : Nat)
    (hx : x ∈ joinColon (l.map hexToChars)) : x = 58 ∨ isHexB x = true := by
  match l with
  | [] => simp [joinColon] at hx
  | [g] =>
    right
    exact hexToChars_hex g x (by simpa using hx)
  | g :: g2 :: gt =>
    rw [List.map_cons, show joinColon (hexToChars g :: (g2 :: gt).map hexToChars) =
        hexToChars g ++ 58 :: joinColon ((g2 :: gt).map hexToChars) from
      joinColon_cons _ _ _] at hx
    rcases List.mem_append.mp hx with hx | hx
    · right
      exact hexToChars_hex g x hx
    · rcases List.mem_cons.mp hx with hx | hx
      · left
        exact hx
      · exact mem_joinColon_map (g2 :: gt) x hx

theorem joinColon_mem_58 (g g2 : Nat) (gt : List Nat) :
    58 ∈ joinColon ((g :: g2 :: gt).map hexToChars) := by
  rw [List.map_cons, show joinColon (hexToChars g :: (g2 :: gt).map hexToChars) =
      hexToChars g ++ 58 :: joinColon ((g2 :: gt).map hexToChars) from
    joinColon_cons _ _ _]
  exact List.mem_append_right _ (by simp)

theorem isHexB_not_sep (x : Nat) (h : isHexB x = true) :
    ¬ (x = 46 ∨ x = 58 ∨ x = 37) := by
  unfold isHexB isDigitB at h
  simp only [decide_eq_true_eq, Bool.or_eq_true] at h
  omega

theorem parseIP_ipString_16 (b : List Nat) (hb : b.length = 16)
    (hlt : ∀ x ∈ b, x < 256) : parseIP (ipString b) = some b := by
  unfold ipString
  rw [if_neg (by intro h; rw [h] at hb; simp at hb)]
  cases h4 : ipTo4 b with
  | some q =>
    simp only
    have hq4 : q.length = 4 := ipTo4_length b q h4
    have hqlt : ∀ x ∈ q, x < 256 := fun x hx => hlt x (ipTo4_mem b q h4 x hx)
    rw [parseIP_ipv4String q hq4 hqlt]
    have h16 := ipTo16_of_ipTo4 b q h4
    rw [ipTo16_id b hb] at h16
    rw [show b = v4Mapped q from by simpa using h16]
  | none =>
    simp only
    rw [if_neg (not_not_intro hb)]
    have hglen : (groupsOfBytes b).length = 8 := by
      rw [groupsOfBytes_length, hb]
    have hfind : (ipv6StringOfGroups (groupsOfBytes b)).find?
        (fun c => c = 46 ∨ c = 58 ∨ c = 37) = some 58 := by
      apply find?_all_eq
      · refine ⟨58, ?_, by decide⟩
        unfold ipv6StringOfGroups
        cases hbzr : bestZeroRun (groupsOfBytes b) with
        | none =>
          dsimp only
          match hgsd : groupsOfBytes b, hglen with
          | g0 :: g1 :: gt, _ => exact joinColon_mem_58 g0 g1 gt
        | some p =>
          obtain ⟨e0, e1⟩ := p
          dsimp only
          exact List.mem_append_left _ (List.mem_append_right _ (by simp))
      · intro x hx hpx
        simp only [decide_eq_true_eq] at hpx
        have hx58 : x = 58 ∨ isHexB x = true := by
          unfold ipv6StringOfGroups at hx
          cases hbzr : bestZeroRun (groupsOfBytes b) with
          | none =>
            rw [hbzr] at hx
            exact mem_joinColon_map _ x hx
          | some p =>
            obtain ⟨e0, e1⟩ := p
            rw [hbzr] at hx
            dsimp only at hx
            rcases List.mem_append.mp hx with hx | hx
            · rcases List.mem_append.mp hx with hx | hx
              · exact mem_joinColon_map _ x hx
              · left
                rcases List.mem_cons.mp hx with hx | hx
                · exact hx
                · simpa using hx
            · exact mem_joinColon_map _ x hx
        rcases hx58 with hx58 | hx58
        · exact hx58
        · exact absurd hpx (isHexB_not_sep x hx58)
    unfold parseIP
    rw [hfind]
    simp only
    exact parseIPv6_render b hb hlt
theorem hexToChars_len (n k : Nat) (h : n < 16 ^ k) :
    (hexToChars n).length ≤ max k 1 := by
  unfold hexToChars
  split_ifs with hz
  · simp
  · simp only [List.length_map, List.length_reverse]
    rw [Nat.digits_len 16 n (by norm_num) hz]
    have := Nat.log_lt_of_lt_pow hz h
    omega

theorem mem_ipv4String (q : List Nat) (x : Nat) (hx : x ∈ ipv4String q) :
    isDigitB x = true ∨ x = 46 := by
  unfold ipv4String at hx
  simp only [List.mem_append, List.mem_cons, List.mem_singleton] at hx
  rcases hx with ((((((hx | hx) | hx) | hx) | hx) | hx) | hx) <;>
    first
      | (left; exact decToChars_digit _ x hx)
      | (right; exact hx)
      | (right; simpa using hx)

theorem mem_ipv6StringOfGroups (gs : List Nat) (x : Nat)
    (hx : x ∈ ipv6StringOfGroups gs) : x = 58 ∨ isHexB x = true := by
  unfold ipv6StringOfGroups at hx
  cases hbzr : bestZeroRun gs with
  | none =>
    rw [hbzr] at hx
    exact mem_joinColon_map _ x hx
  | some p =>
    obtain ⟨e0, e1⟩ := p
    rw [hbzr] at hx
    dsimp only at hx
    rcases List.mem_append.mp hx with hx | hx
    · rcases List.mem_append.mp hx with hx | hx
      · exact mem_joinColon_map _ x hx
      · left
        rcases List.mem_cons.mp hx with hx | hx
        · exact hx
        · simpa using hx
    · exact mem_joinColon_map _ x hx

theorem mem_ipString16 (b : List Nat) (x : Nat) (hb : b.length = 16)
    (hx : x ∈ ipString b) :
    isDigitB x = true ∨ x = 46 ∨ isHexB x = true ∨ x = 58 := by
  unfold ipString at hx
  rw [if_neg (by intro h; rw [h] at hb; simp at hb)] at hx
  cases h4 : ipTo4 b with
  | some q =>
    rw [h4] at hx
    simp only at hx
    rcases mem_ipv4String q x hx with hx | hx
    · left; exact hx
    · right; left; exact hx
  | none =>
    rw [h4] at hx
    simp only at hx
    rw [if_neg (not_not_intro hb)] at hx
    rcases mem_ipv6StringOfGroups _ x hx with hx | hx
    · right; right; right; exact hx
    · right; right; left; exact hx

theorem addrChar_safe (x : Nat)
    (h : isDigitB x = true ∨ x = 46 ∨ isHexB x = true ∨ x = 58) :
    isSpaceB x = false ∧ x ≠ 10 := by
  have hx : 46 ≤ x ∧ x ≤ 102 := by
    unfold isDigitB isHexB isDigitB at h
    simp only [decide_eq_true_eq, Bool.or_eq_true] at h
    omega
  refine ⟨?_, by omega⟩
  unfold isSpaceB
  simp only [decide_eq_false_iff_not]
  omega

theorem itoa_pos_digits (p : Int) (hp : 0 < p) :
    ∀ x ∈ itoa p, isDigitB x = true := by
  rw [itoa_nonneg p (by omega)]
  exact decToChars_digit _

theorem itoa_ne_nil (p : Int) (hp : 0 < p) : itoa p ≠ [] := by
  rw [itoa_nonneg p (by omega)]
  exact decToChars_ne_nil _

theorem readV1_format (mid : List Nat) (h10 : 10 ∉ mid)
    (hcr : (v1Magic ++ mid).getLastD 0 = 13)
    (hlen : (v1Magic ++ mid).length ≤ 106) :
    readV1 (v1Magic ++ (mid ++ [10])) = .ok (v1Magic ++ mid ++ [10], []) := by
  unfold readV1
  dsimp only
  rw [rdRead_append v1Magic.length v1Magic (mid ++ [10]) rfl (by decide)]
  rw [if_neg (by simp)]
  have := readV1Loop_run mid v1Magic [] h10 hcr hlen
  exact this

theorem ReadHeader_v1 (s : List Nat) (hpre : s.take 6 = v1Magic)
    (hlen : 6 ≤ s.length) : ReadHeader s = readAndParseV1 s := by
  unfold ReadHeader
  rw [show rdPeek v1Magic.length s = .ok v1Magic from by
    unfold rdPeek
    rw [if_neg (by simp only [v1Magic]; simp; omega), show s.take v1Magic.length = v1Magic from hpre]]
  simp only
  rw [if_pos trivial]

theorem ReadHeader_v2 (s : List Nat) (hpre : s.take 12 = v2Signature)
    (hlen : 12 ≤ s.length) : ReadHeader s = readAndParseV2 s := by
  have hpre6 : s.take 6 = [13, 10, 13, 10, 0, 13] := by
    have : (s.take 12).take 6 = s.take 6 := by
      rw [List.take_take]
      norm_num
    rw [← this, hpre]
    rfl
  unfold ReadHeader
  rw [show rdPeek v1Magic.length s = .ok [13, 10, 13, 10, 0, 13] from by
    unfold rdPeek
    rw [if_neg (by simp only [v1Magic]; simp; omega),
      show s.take v1Magic.length = [13, 10, 13, 10, 0, 13] from hpre6]]
  simp only
  rw [if_neg (by decide), if_neg (by decide)]
  rw [show rdPeek v2Signature.length s = .ok v2Signature from by
    unfold rdPeek
    rw [if_neg (by simp only [v2Signature]; simp; omega),
      show s.take v2Signature.length = v2Signature from hpre]]
  simp only
  rw [if_pos trivial]

theorem validateIP_inet (q : List Nat) (hq : q.length = 4) :
    validateIP (some (v4Mapped q)) AF_INET = .ok () := by
  unfold validateIP
  simp only
  rw [if_neg (by
    rintro ⟨_, hcon⟩
    rw [ipTo4_v4Mapped q hq] at hcon
    simp at hcon)]
  rw [if_neg (by simp [AF_INET, AF_INET6])]

theorem validateIP_inet6 (b : List Nat) (hb : b.length = 16) :
    validateIP (some b) AF_INET6 = .ok () := by
  unfold validateIP
  simp only
  rw [if_neg (by simp [AF_INET, AF_INET6])]
  rw [if_neg (by
    rintro ⟨_, hcon⟩
    rw [ipTo16_id b hb] at hcon
    simp at hcon)]

theorem parseAndValidateIP_run (A B : List Nat) (af : Nat) (ipa ipb : List Nat)
    (hA : parseIP A = some ipa) (hB : parseIP B = some ipb)
    (hva : validateIP (some ipa) af = .ok ())
    (hvb : validateIP (some ipb) af = .ok ()) :
    parseAndValidateIP A B af = .ok (ipa, ipb) := by
  unfold parseAndValidateIP
  dsimp only
  rw [hA, hva]
  simp only
  rw [hB, hvb]
  rfl
theorem v1LineBody_fields (t A B P Q : List Nat)
    (hts : t ≠ [] ∧ ∀ c ∈ t, isSpaceB c = false)
    (hA : A ≠ [] ∧ ∀ c ∈ A, isSpaceB c = false)
    (hB : B ≠ [] ∧ ∀ c ∈ B, isSpaceB c = false)
    (hP : P ≠ [] ∧ ∀ c ∈ P, isSpaceB c = false)
    (hQ : Q ≠ [] ∧ ∀ c ∈ Q, isSpaceB c = false) :
    fieldsOf ([80, 82, 79, 88, 89] ++ 32 :: (t ++ 32 :: (A ++ 32 ::
      (B ++ 32 :: (P ++ 32 :: Q))))) =
      [[80, 82, 79, 88, 89], t, A, B, P, Q] := by
  rw [fieldsOf_token_space [80, 82, 79, 88, 89] _ (by decide) (by decide)]
  rw [fieldsOf_token_space t _ hts.1 hts.2]
  rw [fieldsOf_token_space A _ hA.1 hA.2]
  rw [fieldsOf_token_space B _ hB.1 hB.2]
  rw [fieldsOf_token_space P _ hP.1 hP.2]
  rw [fieldsOf_single Q hQ.1 hQ.2]

theorem parseV1_run_tcp4 (A B P Q : List Nat) (sip dip : List Nat) (sp dp : Int)
    (hA : parseIP A = some sip) (hB : parseIP B = some dip)
    (hva : validateIP (some sip) AF_INET = .ok ())
    (hvb : validateIP (some dip) AF_INET = .ok ())
    (hport : parseAndValidatePort P Q = .ok (sp, dp))
    (raw : List Nat)
    (hfs : fieldsOf (trimSpace raw) =
      [[80, 82, 79, 88, 89], tagTCP4, A, B, P, Q]) :
    parseV1 raw = .ok ⟨Version1, CMD_PROXY, AF_INET, SOCK_STREAM,
      some (.tcp sip sp), some (.tcp dip dp), raw, []⟩ := by
  unfold parseV1
  dsimp only
  rw [hfs]
  rw [if_neg (by simp)]
  simp only [List.getD_cons_succ, List.getD_cons_zero]
  rw [if_pos trivial]
  simp only
  rw [if_neg (by simp)]
  rw [if_neg (by decide)]
  rw [parseAndValidateIP_run A B AF_INET sip dip hA hB hva hvb]
  simp only
  rw [hport]

theorem parseV1_run_tcp6 (A B P Q : List Nat) (sip dip : List Nat) (sp dp : Int)
    (hA : parseIP A = some sip) (hB : parseIP B = some dip)
    (hva : validateIP (some sip) AF_INET6 = .ok ())
    (hvb : validateIP (some dip) AF_INET6 = .ok ())
    (hport : parseAndValidatePort P Q = .ok (sp, dp))
    (raw : List Nat)
    (hfs : fieldsOf (trimSpace raw) =
      [[80, 82, 79, 88, 89], tagTCP6, A, B, P, Q]) :
    parseV1 raw = .ok ⟨Version1, CMD_PROXY, AF_INET6, SOCK_STREAM,
      some (.tcp sip sp), some (.tcp dip dp), raw, []⟩ := by
  unfold parseV1
  dsimp only
  rw [hfs]
  rw [if_neg (by simp)]
  simp only [List.getD_cons_succ, List.getD_cons_zero]
  rw [if_neg (by decide), if_pos trivial]
  simp only
  rw [if_neg (by simp)]
  rw [if_neg (by decide)]
  rw [parseAndValidateIP_run A B AF_INET6 sip dip hA hB hva hvb]
  simp only
  rw [hport]
theorem ipv4String_ne_nil (q : List Nat) : ipv4String q ≠ [] := by
  unfold ipv4String
  intro h
  exact decToChars_ne_nil _ (List.append_eq_nil.mp h).2

theorem ipString_ne_nil (b : List Nat) (hb : b.length = 16) :
    ipString b ≠ [] := by
  unfold ipString
  rw [if_neg (by intro h; rw [h] at hb; simp at hb)]
  cases h4 : ipTo4 b with
  | some q =>
    simp only
    exact ipv4String_ne_nil q
  | none =>
    simp only
    rw [if_neg (not_not_intro hb)]
    intro h
    have hglen : (groupsOfBytes b).length = 8 := by
      rw [groupsOfBytes_length, hb]
    match hgsd : groupsOfBytes b, hglen with
    | g0 :: gt, _ =>
      rw [hgsd] at h
      unfold ipv6StringOfGroups at h
      cases hbzr : bestZeroRun (g0 :: gt) with
      | none =>
        rw [hbzr] at h
        exact joinColon_map_ne_nil g0 gt h
      | some p =>
        obtain ⟨e0, e1⟩ := p
        rw [hbzr] at h
        dsimp only at h
        rcases List.append_eq_nil.mp h with ⟨h1, -⟩
        rcases List.append_eq_nil.mp h1 with ⟨-, h2⟩
        exact List.noConfusion h2

theorem decToChars_byte_len (n : Nat) (hn : n < 256) :
    (decToChars n).length ≤ 3 := by
  have := decToChars_len n 3 (by omega)
  omega

theorem ipv4String_len (q : List Nat) (hlt : ∀ x ∈ q, x < 256)
    (hq : q.length = 4) : (ipv4String q).length ≤ 15 := by
  match q, hq with
  | [a0, a1, a2, a3], _ =>
    have h0 := decToChars_byte_len a0 (hlt a0 (by simp))
    have h1 := decToChars_byte_len a1 (hlt a1 (by simp))
    have h2 := decToChars_byte_len a2 (hlt a2 (by simp))
    have h3 := decToChars_byte_len a3 (hlt a3 (by simp))
    simp only [ipv4String, List.getD_cons_succ, List.getD_cons_zero,
      List.length_append, List.length_cons, List.length_nil]
    omega

theorem hexToChars_group_len (g : Nat) (hg : g < 65536) :
    (hexToChars g).length ≤ 4 := by
  have := hexToChars_len g 4 (by norm_num; omega)
  omega

theorem joinColon_map_len (gs : List Nat) (hlt : ∀ g ∈ gs, g < 65536) :
    (joinColon (gs.map hexToChars)).length ≤ 5 * gs.length := by
  match gs with
  | [] => simp [joinColon]
  | [g] =>
    have := hexToChars_group_len g (hlt g (by simp))
    simp only [List.map_cons, List.map_nil, joinColon, List.length_cons,
      List.length_nil]
    omega
  | g :: g2 :: gt =>
    have hg := hexToChars_group_len g (hlt g (by simp))
    have ih := joinColon_map_len (g2 :: gt) (fun x hx => hlt x (by simp [hx]))
    rw [List.map_cons, show joinColon (hexToChars g :: (g2 :: gt).map hexToChars) =
        hexToChars g ++ 58 :: joinColon ((g2 :: gt).map hexToChars) from
      joinColon_cons _ _ _]
    simp only [List.length_append, List.length_cons] at ih ⊢
    omega

theorem joinColon_map_len_ne (g0 : Nat) (gt : List Nat)
    (hlt : ∀ g ∈ g0 :: gt, g < 65536) :
    (joinColon ((g0 :: gt).map hexToChars)).length ≤ 5 * (g0 :: gt).length - 1 := by
  match gt with
  | [] =>
    have := hexToChars_group_len g0 (hlt g0 (by simp))
    simp only [List.map_cons, List.map_nil, joinColon, List.length_cons,
      List.length_nil]
    omega
  | g2 :: gt2 =>
    have hg := hexToChars_group_len g0 (hlt g0 (by simp))
    have ih := joinColon_map_len_ne g2 gt2 (fun x hx => hlt x (by simp [hx]))
    rw [List.map_cons, show joinColon (hexToChars g0 :: (g2 :: gt2).map hexToChars) =
        hexToChars g0 ++ 58 :: joinColon ((g2 :: gt2).map hexToChars) from
      joinColon_cons _ _ _]
    simp only [List.length_append, List.length_cons] at ih ⊢
    omega

theorem ipv6StringOfGroups_len (gs : List Nat) (h8 : gs.length = 8)
    (hlt : ∀ g ∈ gs, g < 65536) : (ipv6StringOfGroups gs).length ≤ 39 := by
  unfold ipv6StringOfGroups
  cases hbzr : bestZeroRun gs with
  | none =>
    match hgs : gs, h8 with
    | g0 :: gt, h8' =>
      have := joinColon_map_len_ne g0 gt hlt
      simp only [List.length_cons] at this h8'
      simp only
      omega
  | some p =>
    obtain ⟨e0, e1⟩ := p
    have htl : (gs.take e0).length ≤ 8 := by
      simp only [List.length_take]
      omega
    have hdl : (gs.drop e1).length ≤ 8 - e1 := by
      simp only [List.length_drop]
      omega
    have hj1 := joinColon_map_len (gs.take e0)
      (fun x hx => hlt x (List.mem_of_mem_take hx))
    have hj2 := joinColon_map_len (gs.drop e1)
      (fun x hx => hlt x (List.mem_of_mem_drop hx))
    have hspec : 2 ≤ e1 - e0 ∧ e1 ≤ 8 := by
      unfold bestZeroRun at hbzr
      cases hbr : bestRunFrom gs 0 with
      | none => rw [hbr] at hbzr; exact Option.noConfusion hbzr
      | some q =>
        obtain ⟨f0, f1⟩ := q
        rw [hbr] at hbzr
        simp only at hbzr
        split_ifs at hbzr with hcut
        · simp only [Option.some.injEq, Prod.mk.injEq] at hbzr
          obtain ⟨a1, a2, a3, a4⟩ := bestRunFrom_spec gs 0 f0 f1 hbr
          rw [hbzr.1] at hcut
          rw [hbzr.2] at hcut a3
          rw [h8] at a3
          exact ⟨hcut, by omega⟩
    obtain ⟨hs1, hs2⟩ := hspec
    have hte : (gs.take e0).length = e0 := by
      simp only [List.length_take]
      omega
    simp only [List.length_append, List.length_cons, List.length_nil]
    rw [hte] at hj1
    simp only [List.length_drop, h8] at hj2
    omega

theorem ipString16_len (b : List Nat) (hb : b.length = 16)
    (hlt : ∀ x ∈ b, x < 256) : (ipString b).length ≤ 39 := by
  unfold ipString
  rw [if_neg (by intro h; rw [h] at hb; simp at hb)]
  cases h4 : ipTo4 b with
  | some q =>
    simp only
    have := ipv4String_len q (fun x hx => hlt x (ipTo4_mem b q h4 x hx))
      (ipTo4_length b q h4)
    omega
  | none =>
    simp only
    rw [if_neg (not_not_intro hb)]
    exact ipv6StringOfGroups_len _ (by rw [groupsOfBytes_length, hb])
      (groupsOfBytes_lt b hlt)

theorem itoa_port_len (p : Int) (h1 : 0 < p) (h2 : p < 65535) :
    (itoa p).length ≤ 5 := by
  rw [itoa_nonneg p (by omega)]
  have := decToChars_len p.toNat 5 (by omega)
  omega

theorem getLast?_nonspace (l : List Nat) (hd : ∀ x ∈ l, isDigitB x = true) :
    ∀ c, l.getLast? = some c → isSpaceB c = false := by
  intro c hc
  have hmem : c ∈ l := by
    obtain ⟨h, he⟩ := List.mem_getLast?_eq_getLast (x := c) (by rw [hc]; rfl)
    rw [he]
    exact List.getLast_mem h
  exact (addrChar_safe c (Or.inl (hd c hmem))).1
theorem ReadHeader_v1_line (t : List Nat) (af : Nat) (A B P Q : List Nat)
    (sip dip : List Nat) (sp dp : Int)
    (htag : (t = tagTCP4 ∧ af = AF_INET) ∨ (t = tagTCP6 ∧ af = AF_INET6))
    (hAne : A ≠ []) (hAc : ∀ c ∈ A, isSpaceB c = false ∧ c ≠ 10)
    (hBne : B ≠ []) (hBc : ∀ c ∈ B, isSpaceB c = false ∧ c ≠ 10)
    (hQne : Q ≠ []) (hPd : ∀ c ∈ P, isDigitB c = true) (hPne : P ≠ [])
    (hQd : ∀ c ∈ Q, isDigitB c = true)
    (hlens : A.length + B.length + P.length + Q.length ≤ 91)
    (hA : parseIP A = some sip) (hB : parseIP B = some dip)
    (hva : validateIP (some sip) af = .ok ())
    (hvb : validateIP (some dip) af = .ok ())
    (hport : parseAndValidatePort P Q = .ok (sp, dp)) :
    ReadHeader (v1Magic ++
        ((t ++ 32 :: (A ++ 32 :: (B ++ 32 :: (P ++ 32 :: (Q ++ [13]))))) ++ [10])) =
      .ok (⟨Version1, CMD_PROXY, af, SOCK_STREAM,
        some (.tcp sip sp), some (.tcp dip dp),
        v1Magic ++ (t ++ 32 :: (A ++ 32 :: (B ++ 32 :: (P ++ 32 ::
          (Q ++ [13]))))) ++ [10], []⟩, []) := by
  have hts : t ≠ [] ∧ (∀ c ∈ t, isSpaceB c = false) ∧ (10 ∉ t) ∧
      t.length = 4 := by
    rcases htag with ⟨h, -⟩ | ⟨h, -⟩ <;> subst h <;>
      exact ⟨by decide, by decide, by decide, by decide⟩
  have h10 : 10 ∉ t ++ 32 :: (A ++ 32 :: (B ++ 32 :: (P ++ 32 ::
      (Q ++ [13])))) := by
    intro hmem
    rcases List.mem_append.mp hmem with h | hmem2
    · exact hts.2.2.1 h
    rcases List.mem_cons.mp hmem2 with h | hmem3
    · omega
    rcases List.mem_append.mp hmem3 with h | hmem4
    · exact (hAc 10 h).2 rfl
    rcases List.mem_cons.mp hmem4 with h | hmem5
    · omega
    rcases List.mem_append.mp hmem5 with h | hmem6
    · exact (hBc 10 h).2 rfl
    rcases List.mem_cons.mp hmem6 with h | hmem7
    · omega
    rcases List.mem_append.mp hmem7 with h | hmem8
    · have hh := hPd 10 h
      simp [isDigitB] at hh
    rcases List.mem_cons.mp hmem8 with h | hmem9
    · omega
    rcases List.mem_append.mp hmem9 with h | hmem10
    · have hh := hQd 10 h
      simp [isDigitB] at hh
    · simp at hmem10
  have hcr : (v1Magic ++ (t ++ 32 :: (A ++ 32 :: (B ++ 32 :: (P ++ 32 ::
      (Q ++ [13])))))).getLastD 0 = 13 := by
    rw [show v1Magic ++ (t ++ 32 :: (A ++ 32 :: (B ++ 32 :: (P ++ 32 ::
        (Q ++ [13]))))) =
      (v1Magic ++ (t ++ 32 :: (A ++ 32 :: (B ++ 32 :: (P ++ 32 :: Q))))) ++ [13]
      from by simp [List.append_assoc]]
    exact List.getLastD_concat _ _ _
  have hmlen : (v1Magic ++ (t ++ 32 :: (A ++ 32 :: (B ++ 32 :: (P ++ 32 ::
      (Q ++ [13])))))).length ≤ 106 := by
    simp only [List.length_append, List.length_cons, List.length_nil,
      List.length_singleton]
    have ht4 := hts.2.2.2
    simp only [v1Magic, List.length_cons, List.length_nil]
    omega
  have hread := readV1_format _ h10 hcr hmlen
  have hpre : (v1Magic ++ ((t ++ 32 :: (A ++ 32 :: (B ++ 32 :: (P ++ 32 ::
      (Q ++ [13]))))) ++ [10])).take 6 = v1Magic := List.take_left' rfl
  have hlen6 : 6 ≤ (v1Magic ++ ((t ++ 32 :: (A ++ 32 :: (B ++ 32 :: (P ++ 32 ::
      (Q ++ [13]))))) ++ [10])).length := by
    simp [v1Magic]
  rw [ReadHeader_v1 _ hpre hlen6]
  unfold readAndParseV1
  rw [hread]
  simp only
  have hbody : v1Magic ++ (t ++ 32 :: (A ++ 32 :: (B ++ 32 :: (P ++ 32 ::
      (Q ++ [13]))))) ++ [10] =
      ([80, 82, 79, 88, 89] ++ 32 :: (t ++ 32 :: (A ++ 32 :: (B ++ 32 ::
        (P ++ 32 :: Q))))) ++ [13, 10] := by
    simp [v1Magic, List.append_assoc]
  have htrim : trimSpace (v1Magic ++ (t ++ 32 :: (A ++ 32 :: (B ++ 32 ::
      (P ++ 32 :: (Q ++ [13]))))) ++ [10]) =
      [80, 82, 79, 88, 89] ++ 32 :: (t ++ 32 :: (A ++ 32 :: (B ++ 32 ::
        (P ++ 32 :: Q)))) := by
    rw [hbody]
    apply trimSpace_body
    · simp
    · intro c hc
      have : 80 = c := by simpa using hc
      rw [← this]
      decide
    · rw [show [80, 82, 79, 88, 89] ++ 32 :: (t ++ 32 :: (A ++ 32 :: (B ++ 32 ::
          (P ++ 32 :: Q)))) =
        ([80, 82, 79, 88, 89] ++ 32 :: (t ++ 32 :: (A ++ 32 :: (B ++ 32 ::
          (P ++ [32]))))) ++ Q from by simp [List.append_assoc]]
      rw [List.getLast?_append_of_ne_nil _ hQne]
      exact getLast?_nonspace Q hQd
  have hfs : fieldsOf (trimSpace (v1Magic ++ (t ++ 32 :: (A ++ 32 ::
      (B ++ 32 :: (P ++ 32 :: (Q ++ [13]))))) ++ [10])) =
      [[80, 82, 79, 88, 89], t, A, B, P, Q] := by
    rw [htrim]
    exact v1LineBody_fields t A B P Q ⟨hts.1, hts.2.1⟩
      ⟨hAne, fun c hc => (hAc c hc).1⟩ ⟨hBne, fun c hc => (hBc c hc).1⟩
      ⟨hPne, fun c hc => (addrChar_safe c (Or.inl (hPd c hc))).1⟩
      ⟨hQne, fun c hc => (addrChar_safe c (Or.inl (hQd c hc))).1⟩
  rcases htag with ⟨ht, haf⟩ | ⟨ht, haf⟩ <;> subst ht <;> subst haf
  · rw [parseV1_run_tcp4 A B P Q sip dip sp dp hA hB hva hvb hport _ hfs]
  · rw [parseV1_run_tcp6 A B P Q sip dip sp dp hA hB hva hvb hport _ hfs]
theorem ipTo16_length (ip b : List Nat) (h : ipTo16 ip = some b) :
    b.length = 16 := by
  unfold ipTo16 at h
  split_ifs at h with h4 h16
  · have he : v4Mapped ip = b := by simpa using h
    rw [← he]
    simp [v4Mapped, h4]
  · have he : ip = b := by simpa using h
    rw [← he]
    exact h16

theorem ipTo16_mem_lt (ip b : List Nat) (h : ipTo16 ip = some b)
    (hlt : ∀ x ∈ ip, x < 256) : ∀ x ∈ b, x < 256 := by
  unfold ipTo16 at h
  split_ifs at h with h4 h16
  · have he : v4Mapped ip = b := by simpa using h
    intro x hx
    rw [← he] at hx
    unfold v4Mapped at hx
    rcases List.mem_append.mp hx with hx | hx
    · simp at hx
      omega
    · exact hlt x hx
  · have he : ip = b := by simpa using h
    intro x hx
    rw [← he] at hx
    exact hlt x hx

theorem formatV1_tcp4 (h : Header) (sip dip : List Nat) (sp dp : Int)
    (hcmd : h.command = CMD_PROXY)
    (hsrc : h.srcAddr = some (.tcp sip sp)) (hdst : h.dstAddr = some (.tcp dip dp))
    (s4 d4 : List Nat) (hs4 : ipTo4 sip = some s4) (hd4 : ipTo4 dip = some d4) :
    formatV1 h = .ok (v1Magic ++ tagTCP4 ++ [32] ++ ipv4String s4 ++ [32] ++
      ipv4String d4 ++ [32] ++ itoa sp ++ [32] ++ itoa dp ++ [13, 10]) := by
  unfold formatV1
  rw [if_neg (by rw [hcmd]; decide)]
  rw [hsrc, hdst]
  simp only
  rw [hs4, hd4]

theorem formatV1_tcp6 (h : Header) (sip dip : List Nat) (sp dp : Int)
    (hcmd : h.command = CMD_PROXY)
    (hsrc : h.srcAddr = some (.tcp sip sp)) (hdst : h.dstAddr = some (.tcp dip dp))
    (s16 d16 : List Nat) (hnot4 : ipTo4 sip = none ∨ ipTo4 dip = none)
    (hs16 : ipTo16 sip = some s16) (hd16 : ipTo16 dip = some d16) :
    formatV1 h = .ok (v1Magic ++ tagTCP6 ++ [32] ++ ipString s16 ++ [32] ++
      ipString d16 ++ [32] ++ itoa sp ++ [32] ++ itoa dp ++ [13, 10]) := by
  unfold formatV1
  rw [if_neg (by rw [hcmd]; decide)]
  rw [hsrc, hdst]
  simp only
  cases h4s : ipTo4 sip with
  | none =>
    cases h4d : ipTo4 dip <;> simp only <;> rw [hs16, hd16]
  | some q =>
    cases h4d : ipTo4 dip with
    | none =>
      simp only
      rw [hs16, hd16]
    | some q2 =>
      rcases hnot4 with hc | hc
      · rw [h4s] at hc
        exact Option.noConfusion hc
      · rw [h4d] at hc
        exact Option.noConfusion hc
theorem c1_v1_case (h : Header) (hv : validV1 h = true) :
    ∃ out h', formatHeader h false = .ok out ∧ ReadHeader out = .ok (h', []) ∧
      h'.version = h.version ∧ h'.command = h.command ∧
      h'.addressFamily = h.addressFamily ∧
      h'.transportProtocol = h.transportProtocol ∧
      optAddrSemEq h'.srcAddr h.srcAddr = true ∧
      optAddrSemEq h'.dstAddr h.dstAddr = true ∧
      h'.tlvs = h.tlvs ++ (if h.tlvs = [] then [] else [newNoOpTLV 8]) := by
  unfold validV1 at hv
  simp only [Bool.and_eq_true, decide_eq_true_eq] at hv
  obtain ⟨hver, hcmd, htp, htlv, hao⟩ := hv
  unfold v1AddrOk at hao
  split at hao
  case h_2 => simp at hao
  case h_1 sa da sip sp dip dp heq1 heq2 =>
  simp only [decide_eq_true_eq] at hao
  obtain ⟨hsp1, hsp2, hdp1, hdp2, hsall, hdall, hfam⟩ := hao
  have hsiplt : ∀ x ∈ sip, x < 256 := by
    intro x hx
    simpa using List.all_eq_true.mp hsall x hx
  have hdiplt : ∀ x ∈ dip, x < 256 := by
    intro x hx
    simpa using List.all_eq_true.mp hdall x hx
  have hfmt : formatHeader h false = formatV1 h := by
    unfold formatHeader
    rw [if_neg (by rw [heq1, heq2]; simp), if_pos hver]
  have hPne := itoa_ne_nil sp hsp1
  have hQne := itoa_ne_nil dp hdp1
  have hPd := itoa_pos_digits sp hsp1
  have hQd := itoa_pos_digits dp hdp1
  have hPlen := itoa_port_len sp hsp1 hsp2
  have hQlen := itoa_port_len dp hdp1 hdp2
  have hport : parseAndValidatePort (itoa sp) (itoa dp) = .ok (sp, dp) :=
    parseAndValidatePort_round sp dp hsp1 hsp2 hdp1 hdp2
  unfold famOk at hfam
  simp only [Bool.or_eq_true, Bool.and_eq_true, decide_eq_true_eq] at hfam
  rcases hfam with ⟨haf, hs4s, hd4s⟩ | ⟨haf, hn4, hs16s, hd16s⟩
  · -- both IPs 4-byte representable: TCP4 line
    obtain ⟨s4, hs4⟩ := Option.isSome_iff_exists.mp hs4s
    obtain ⟨d4, hd4⟩ := Option.isSome_iff_exists.mp hd4s
    have hs4len : s4.length = 4 := ipTo4_length sip s4 hs4
    have hd4len : d4.length = 4 := ipTo4_length dip d4 hd4
    have hs4lt : ∀ x ∈ s4, x < 256 := fun x hx => hsiplt x (ipTo4_mem sip s4 hs4 x hx)
    have hd4lt : ∀ x ∈ d4, x < 256 := fun x hx => hdiplt x (ipTo4_mem dip d4 hd4 x hx)
    have hout := formatV1_tcp4 h sip dip sp dp hcmd heq1 heq2 s4 d4 hs4 hd4
    have hAc : ∀ c ∈ ipv4String s4, isSpaceB c = false ∧ c ≠ 10 := by
      intro c hc
      rcases mem_ipv4String s4 c hc with hd | hd
      · exact addrChar_safe c (Or.inl hd)
      · exact addrChar_safe c (Or.inr (Or.inl hd))
    have hBc : ∀ c ∈ ipv4String d4, isSpaceB c = false ∧ c ≠ 10 := by
      intro c hc
      rcases mem_ipv4String d4 c hc with hd | hd
      · exact addrChar_safe c (Or.inl hd)
      · exact addrChar_safe c (Or.inr (Or.inl hd))
    have hline : v1Magic ++ tagTCP4 ++ [32] ++ ipv4String s4 ++ [32] ++
        ipv4String d4 ++ [32] ++ itoa sp ++ [32] ++ itoa dp ++ [13, 10] =
        v1Magic ++ ((tagTCP4 ++ 32 :: (ipv4String s4 ++ 32 :: (ipv4String d4 ++
          32 :: (itoa sp ++ 32 :: (itoa dp ++ [13]))))) ++ [10]) := by
      simp [List.append_assoc]
    have hRH := ReadHeader_v1_line tagTCP4 AF_INET (ipv4String s4)
      (ipv4String d4) (itoa sp) (itoa dp) (v4Mapped s4) (v4Mapped d4) sp dp
      (Or.inl ⟨rfl, rfl⟩) (ipv4String_ne_nil s4) hAc (ipv4String_ne_nil d4) hBc
      hQne hPd hPne hQd
      (by
        have l1 := ipv4String_len s4 hs4lt hs4len
        have l2 := ipv4String_len d4 hd4lt hd4len
        omega)
      (parseIP_ipv4String s4 hs4len hs4lt) (parseIP_ipv4String d4 hd4len hd4lt)
      (validateIP_inet s4 hs4len) (validateIP_inet d4 hd4len) hport
    have e1 : ipTo16 (v4Mapped s4) = some (v4Mapped s4) :=
      ipTo16_id _ (by simp [v4Mapped, hs4len])
    have e2 : ipTo16 sip = some (v4Mapped s4) := ipTo16_of_ipTo4 sip s4 hs4
    have e3 : ipTo16 (v4Mapped d4) = some (v4Mapped d4) :=
      ipTo16_id _ (by simp [v4Mapped, hd4len])
    have e4 : ipTo16 dip = some (v4Mapped d4) := ipTo16_of_ipTo4 dip d4 hd4
    refine ⟨_, _, by rw [hfmt]; exact hout, by rw [hline]; exact hRH,
      by rw [hver], by rw [hcmd], by rw [haf], by rw [htp], ?_, ?_, ?_⟩
    · rw [heq1]
      simp [optAddrSemEq, addrSemEq, e1, e2]
    · rw [heq2]
      simp [optAddrSemEq, addrSemEq, e3, e4]
    · rw [htlv]
      simp
  · -- at least one 16-byte IP: TCP6 line
    obtain ⟨s16, hs16⟩ := Option.isSome_iff_exists.mp hs16s
    obtain ⟨d16, hd16⟩ := Option.isSome_iff_exists.mp hd16s
    have hs16len : s16.length = 16 := ipTo16_length sip s16 hs16
    have hd16len : d16.length = 16 := ipTo16_length dip d16 hd16
    have hs16lt : ∀ x ∈ s16, x < 256 := ipTo16_mem_lt sip s16 hs16 hsiplt
    have hd16lt : ∀ x ∈ d16, x < 256 := ipTo16_mem_lt dip d16 hd16 hdiplt
    have hnot4 : ipTo4 sip = none ∨ ipTo4 dip = none := by
      by_cases hx : ipTo4 sip = none
      · exact Or.inl hx
      · right
        cases hy : ipTo4 dip with
        | none => rfl
        | some _ =>
          exact absurd ⟨by simp [Option.isSome_iff_exists,
            Option.ne_none_iff_exists'.mp hx], by simp [hy]⟩ hn4
    have hout := formatV1_tcp6 h sip dip sp dp hcmd heq1 heq2 s16 d16 hnot4
      hs16 hd16
    have hAc : ∀ c ∈ ipString s16, isSpaceB c = false ∧ c ≠ 10 :=
      fun c hc => addrChar_safe c (mem_ipString16 s16 c hs16len hc)
    have hBc : ∀ c ∈ ipString d16, isSpaceB c = false ∧ c ≠ 10 :=
      fun c hc => addrChar_safe c (mem_ipString16 d16 c hd16len hc)
    have hline : v1Magic ++ tagTCP6 ++ [32] ++ ipString s16 ++ [32] ++
        ipString d16 ++ [32] ++ itoa sp ++ [32] ++ itoa dp ++ [13, 10] =
        v1Magic ++ ((tagTCP6 ++ 32 :: (ipString s16 ++ 32 :: (ipString d16 ++
          32 :: (itoa sp ++ 32 :: (itoa dp ++ [13]))))) ++ [10]) := by
      simp [List.append_assoc]
    have hRH := ReadHeader_v1_line tagTCP6 AF_INET6 (ipString s16)
      (ipString d16) (itoa sp) (itoa dp) s16 d16 sp dp
      (Or.inr ⟨rfl, rfl⟩) (ipString_ne_nil s16 hs16len) hAc
      (ipString_ne_nil d16 hd16len) hBc hQne hPd hPne hQd
      (by
        have l1 := ipString16_len s16 hs16len hs16lt
        have l2 := ipString16_len d16 hd16len hd16lt
        omega)
      (parseIP_ipString_16 s16 hs16len hs16lt)
      (parseIP_ipString_16 d16 hd16len hd16lt)
      (validateIP_inet6 s16 hs16len) (validateIP_inet6 d16 hd16len) hport
    have e1 : ipTo16 s16 = some s16 := ipTo16_id _ hs16len
    have e3 : ipTo16 d16 = some d16 := ipTo16_id _ hd16len
    refine ⟨_, _, by rw [hfmt]; exact hout, by rw [hline]; exact hRH,
      by rw [hver], by rw [hcmd], by rw [haf], by rw [htp], ?_, ?_, ?_⟩
    · rw [heq1]
      simp [optAddrSemEq, addrSemEq, e1, hs16]
    · rw [heq2]
      simp [optAddrSemEq, addrSemEq, e3, hd16]
    · rw [htlv]
      simp
theorem tlvFormat_pos (t : TLV) (ht : tlvValid t = true) :
    tlvFormat t = t.typ :: ((t.value.length / 256) % 256) ::
      (t.value.length % 256) :: t.value := by
  unfold tlvValid at ht
  simp only [Bool.and_eq_true, decide_eq_true_eq] at ht
  unfold tlvFormat
  dsimp only
  rw [if_neg (by simp [ht.1])]

theorem tlvFormat_len (t : TLV) (ht : tlvValid t = true) :
    (tlvFormat t).length = t.value.length + 3 := by
  rw [tlvFormat_pos t ht]
  simp

theorem parseTLVsAux_cons (fuel : Nat) (t l0 l1 : Nat) (rest2 : List Nat) :
    parseTLVsAux (fuel + 1) (t :: l0 :: l1 :: rest2) =
      (if rest2.length < l0 * 256 + l1 then .error .tlvValTooShort
       else match parseTLVsAux fuel (rest2.drop (l0 * 256 + l1)) with
         | .error e => .error e
         | .ok tlvs =>
           .ok (⟨t, l0 * 256 + l1, rest2.take (l0 * 256 + l1)⟩ :: tlvs)) := rfl

theorem parseTLVs_cons_format (t : TLV) (ht : tlvValid t = true)
    (rest : List Nat) :
    parseTLVs (tlvFormat t ++ rest) =
      match parseTLVs rest with
      | .error e => .error e
      | .ok ts => .ok (t :: ts) := by
  unfold tlvValid at ht
  simp only [Bool.and_eq_true, decide_eq_true_eq] at ht
  obtain ⟨hne, hlen, hcap⟩ := ht
  rw [tlvFormat_pos t (by
    unfold tlvValid
    simp only [Bool.and_eq_true, decide_eq_true_eq]
    exact ⟨hne, hlen, hcap⟩)]
  simp only [List.cons_append]
  show parseTLVsAux (t.typ :: _ :: _ :: (t.value ++ rest)).length _ = _
  rw [show (t.typ :: ((t.value.length / 256) % 256) :: (t.value.length % 256) ::
      (t.value ++ rest)).length = (t.value ++ rest).length + 3 from by simp]
  rw [show (t.value ++ rest).length + 3 = ((t.value ++ rest).length + 2) + 1
    from rfl]
  rw [parseTLVsAux_cons]
  have hval : (t.value.length / 256) % 256 * 256 + t.value.length % 256 =
      t.value.length := by omega
  rw [hval]
  rw [if_neg (by simp)]
  rw [List.take_left' rfl, List.drop_left' rfl]
  rw [parseTLVsAux_fuel ((t.value ++ rest).length + 2) rest.length rest
    (by simp; omega) (le_refl _)]
  show (match parseTLVs rest with
    | Except.error e => Except.error e
    | Except.ok tlvs =>
      Except.ok ((⟨t.typ, t.value.length, t.value⟩ : TLV) :: tlvs)) = _
  rw [show (⟨t.typ, t.value.length, t.value⟩ : TLV) = t from by
    cases t with
    | mk typ length value =>
      simp at hlen ⊢
      rw [hlen]]

theorem parseTLVs_flatten (tlvs : List TLV) (tail : List Nat) (ts' : List TLV)
    (hv : ∀ t ∈ tlvs, tlvValid t = true) (htail : parseTLVs tail = .ok ts') :
    parseTLVs ((tlvs.map tlvFormat).flatten ++ tail) = .ok (tlvs ++ ts') := by
  induction tlvs with
  | nil => simpa using htail
  | cons t rest ih =>
    simp only [List.map_cons, List.flatten_cons, List.append_assoc]
    rw [parseTLVs_cons_format t (hv t (by simp)) _]
    rw [ih (fun x hx => hv x (by simp [hx]))]
    rfl

theorem noop8_valid : tlvValid (newNoOpTLV 8) = true := by decide

theorem parseTLVs_noop : parseTLVs (tlvFormat (newNoOpTLV 8)) = .ok [newNoOpTLV 8] := by
  rw [← List.append_nil (tlvFormat (newNoOpTLV 8)),
    parseTLVs_cons_format _ noop8_valid]
  rfl

theorem tlvsEncLen_cons (t : TLV) (rest : List TLV) :
    tlvsEncLen (t :: rest) = (tlvFormat t).length + tlvsEncLen rest := by
  simp [tlvsEncLen]

theorem tlvLoop_run (tlvs : List TLV) : ∀ (buf : List Nat) (len : Nat),
    (∀ t ∈ tlvs, tlvValid t = true) → len = buf.length →
    buf.length + tlvsEncLen tlvs ≤ 65535 →
    tlvLoop tlvs buf len = .ok (buf ++ (tlvs.map tlvFormat).flatten,
      len + tlvsEncLen tlvs) := by
  induction tlvs with
  | nil =>
    intro buf len _ _ _
    simp [tlvLoop, tlvsEncLen]
  | cons t rest ih =>
    intro buf len hv hlen hbound
    have htv := hv t (by simp)
    have hfl := tlvFormat_len t htv
    have hvpos : t.value ≠ [] ∧ t.value.length < 65532 := by
      unfold tlvValid at htv
      simp only [Bool.and_eq_true, decide_eq_true_eq] at htv
      exact ⟨htv.1, htv.2.2⟩
    have hvlen : 0 < t.value.length := List.length_pos.mpr hvpos.1
    rw [tlvsEncLen_cons] at hbound
    unfold tlvLoop
    rw [if_pos (by constructor <;> omega)]
    rw [if_neg (by omega)]
    rw [show (len + (tlvFormat t).length % 65536) % 65536 =
        len + (tlvFormat t).length from by omega]
    rw [ih (buf ++ tlvFormat t) (len + (tlvFormat t).length)
      (fun x hx => hv x (by simp [hx]))
      (by simp [hlen])
      (by simp; omega)]
    rw [tlvsEncLen_cons]
    simp only [List.map_cons, List.flatten_cons, List.append_assoc]
    rw [show len + (tlvFormat t).length + tlvsEncLen rest =
      len + ((tlvFormat t).length + tlvsEncLen rest) from by omega]
theorem validatePort_ok (p : Int) (h1 : 0 < p) (h2 : p < 65535) :
    validatePort p = .ok () := by
  unfold validatePort
  rw [if_neg (by omega)]

theorem guessIP_run4 (sip dip : List Nat) (sp dp : Int) (tp : Nat)
    (s4 d4 : List Nat) (hs4 : ipTo4 sip = some s4) (hd4 : ipTo4 dip = some d4)
    (hsne : sip ≠ []) (hdne : dip ≠ [])
    (hsp1 : 0 < sp) (hsp2 : sp < 65535) (hdp1 : 0 < dp) (hdp2 : dp < 65535) :
    guessIP sip dip sp dp tp =
      some (s4 ++ d4 ++ portBytes sp ++ portBytes dp,
        addressLengthIPv4, AF_INET, tp) := by
  unfold guessIP
  rw [if_neg (by
    simp only [isErrE, validatePort_ok sp hsp1 hsp2, validatePort_ok dp hdp1 hdp2]
    simp [List.length_eq_zero, hsne, hdne])]
  rw [hs4, hd4]

theorem guessIP_run16 (sip dip : List Nat) (sp dp : Int) (tp : Nat)
    (s16 d16 : List Nat) (hnot4 : ipTo4 sip = none ∨ ipTo4 dip = none)
    (hs16 : ipTo16 sip = some s16) (hd16 : ipTo16 dip = some d16)
    (hsne : sip ≠ []) (hdne : dip ≠ [])
    (hsp1 : 0 < sp) (hsp2 : sp < 65535) (hdp1 : 0 < dp) (hdp2 : dp < 65535) :
    guessIP sip dip sp dp tp =
      some (s16 ++ d16 ++ portBytes sp ++ portBytes dp,
        addressLengthIPv6, AF_INET6, tp) := by
  unfold guessIP
  rw [if_neg (by
    simp only [isErrE, validatePort_ok sp hsp1 hsp2, validatePort_ok dp hdp1 hdp2]
    simp [List.length_eq_zero, hsne, hdne])]
  cases h4s : ipTo4 sip with
  | none =>
    cases h4d : ipTo4 dip <;> simp only <;> rw [hs16, hd16]
  | some q =>
    cases h4d : ipTo4 dip with
    | none =>
      simp only
      rw [hs16, hd16]
    | some q2 =>
      rcases hnot4 with hc | hc
      · rw [h4s] at hc
        exact Option.noConfusion hc
      · rw [h4d] at hc
        exact Option.noConfusion hc

theorem readV2_format (af tp : Nat) (payload : List Nat)
    (haf : af = 1 ∨ af = 2 ∨ af = 3) (htp : tp = 1 ∨ tp = 2)
    (hpl : payload.length ≤ 65535) (hpl0 : payload ≠ [])
    (hvpl : validatePayloadLength payload.length af = .ok ()) :
    readV2 (v2Signature ++ ([33, af * 16 + tp, (payload.length / 256) % 256,
        payload.length % 256] ++ payload)) =
      .ok (⟨Version2, CMD_PROXY, af, tp, none, none,
        v2Signature ++ [33, af * 16 + tp, (payload.length / 256) % 256,
          payload.length % 256] ++ payload, []⟩, []) := by
  unfold readV2
  dsimp only
  rw [rdRead_append v2Signature.length v2Signature _ rfl (by decide)]
  rw [if_neg (by simp)]
  rw [show rdByte ([33, af * 16 + tp, (payload.length / 256) % 256,
      payload.length % 256] ++ payload) = .ok (33, [af * 16 + tp,
      (payload.length / 256) % 256, payload.length % 256] ++ payload) from rfl]
  simp only
  rw [if_neg (by decide)]
  rw [show rdByte ([af * 16 + tp, (payload.length / 256) % 256,
      payload.length % 256] ++ payload) = .ok (af * 16 + tp,
      [(payload.length / 256) % 256, payload.length % 256] ++ payload) from rfl]
  simp only
  have hdiv : (af * 16 + tp) / 16 = af := by omega
  have hmod : (af * 16 + tp) % 16 = tp := by omega
  rw [hdiv, hmod]
  rw [if_neg (by
    rcases haf with h | h | h <;> rcases htp with h2 | h2 <;>
      rw [h, h2] <;> decide)]
  rw [show rdUint16BE ([(payload.length / 256) % 256,
      payload.length % 256] ++ payload) = .ok ((payload.length / 256) % 256 * 256 +
      payload.length % 256, payload) from rfl]
  simp only
  have hlv : (payload.length / 256) % 256 * 256 + payload.length % 256 =
      payload.length := by omega
  rw [hlv]
  rw [if_neg (by
    rintro (hc | hc)
    · exact hpl0 (List.length_eq_zero.mp hc)
    · exact absurd hc (by decide))]
  rw [hvpl]
  simp only
  rw [show rdRead payload.length payload = (payload, none, []) from by
    unfold rdRead
    rw [if_neg (by simpa [List.length_eq_zero] using hpl0), if_neg hpl0,
      List.take_length, List.drop_length]]
  simp only
  rw [if_neg (by simp)]
  rfl
theorem parseV2IPv4_run (a0 a1 a2 a3 b0 b1 b2 b3 : Nat) (sp dp : Int) (tp : Nat)
    (hsp1 : 0 < sp) (hsp2 : sp < 65535) (hdp1 : 0 < dp) (hdp2 : dp < 65535)
    (rest : List Nat) :
    parseV2IPv4 (a0 :: a1 :: a2 :: a3 :: b0 :: b1 :: b2 :: b3 ::
      (sp.toNat / 256 % 256) :: (sp.toNat % 256) :: (dp.toNat / 256 % 256) ::
      (dp.toNat % 256) :: rest) tp =
      .ok (if tp = SOCK_DGRAM then
        (.udp (v4Mapped [a0, a1, a2, a3]) sp, .udp (v4Mapped [b0, b1, b2, b3]) dp)
      else
        (.tcp (v4Mapped [a0, a1, a2, a3]) sp,
         .tcp (v4Mapped [b0, b1, b2, b3]) dp)) := by
  unfold parseV2IPv4
  rw [if_neg (by simp [addressLengthIPv4])]
  dsimp only
  rw [show (a0 :: a1 :: a2 :: a3 :: b0 :: b1 :: b2 :: b3 ::
      (sp.toNat / 256 % 256) :: (sp.toNat % 256) :: (dp.toNat / 256 % 256) ::
      (dp.toNat % 256) :: rest).take 4 = [a0, a1, a2, a3] from rfl]
  rw [validateIP_inet [a0, a1, a2, a3] rfl]
  simp only
  rw [show ((a0 :: a1 :: a2 :: a3 :: b0 :: b1 :: b2 :: b3 ::
      (sp.toNat / 256 % 256) :: (sp.toNat % 256) :: (dp.toNat / 256 % 256) ::
      (dp.toNat % 256) :: rest).drop 4).take 4 = [b0, b1, b2, b3] from rfl]
  rw [validateIP_inet [b0, b1, b2, b3] rfl]
  simp only [List.getD_cons_succ, List.getD_cons_zero]
  rw [show ((sp.toNat / 256 % 256 : Nat) : Int) * 256 + ((sp.toNat % 256 : Nat) : Int)
    = sp from by omega]
  rw [validatePort_ok sp hsp1 hsp2]
  simp only
  rw [show ((dp.toNat / 256 % 256 : Nat) : Int) * 256 + ((dp.toNat % 256 : Nat) : Int)
    = dp from by omega]
  rw [validatePort_ok dp hdp1 hdp2]
  simp only
  split_ifs <;> rfl

theorem parseV2IPv6_run (s16 d16 : List Nat) (sp dp : Int) (tp : Nat)
    (hs16 : s16.length = 16) (hd16 : d16.length = 16)
    (hsp1 : 0 < sp) (hsp2 : sp < 65535) (hdp1 : 0 < dp) (hdp2 : dp < 65535)
    (rest : List Nat) :
    parseV2IPv6 (s16 ++ (d16 ++ ((sp.toNat / 256 % 256) :: (sp.toNat % 256) ::
      (dp.toNat / 256 % 256) :: (dp.toNat % 256) :: rest))) tp =
      .ok (if tp = SOCK_DGRAM then (.udp s16 sp, .udp d16 dp)
        else (.tcp s16 sp, .tcp d16 dp)) := by
  have hlen : (s16 ++ (d16 ++ ((sp.toNat / 256 % 256) :: (sp.toNat % 256) ::
      (dp.toNat / 256 % 256) :: (dp.toNat % 256) :: rest))).length =
      36 + rest.length := by
    simp [hs16, hd16]
    omega
  unfold parseV2IPv6
  rw [if_neg (by rw [hlen]; simp [addressLengthIPv6])]
  dsimp only
  rw [show (s16 ++ (d16 ++ ((sp.toNat / 256 % 256) :: (sp.toNat % 256) ::
      (dp.toNat / 256 % 256) :: (dp.toNat % 256) :: rest))).take 16 = s16 from
    List.take_left' hs16]
  rw [validateIP_inet6 s16 hs16]
  simp only
  rw [List.drop_left' hs16]
  rw [show (d16 ++ ((sp.toNat / 256 % 256) :: (sp.toNat % 256) ::
      (dp.toNat / 256 % 256) :: (dp.toNat % 256) :: rest)).take 16 = d16 from
    List.take_left' hd16]
  rw [validateIP_inet6 d16 hd16]
  simp only
  have hg : ∀ (k : Nat) (dflt : Nat), (s16 ++ (d16 ++ ((sp.toNat / 256 % 256) ::
      (sp.toNat % 256) :: (dp.toNat / 256 % 256) :: (dp.toNat % 256) ::
      rest))).getD (32 + k) dflt = (((sp.toNat / 256 % 256) ::
      (sp.toNat % 256) :: (dp.toNat / 256 % 256) :: (dp.toNat % 256) ::
      rest)).getD k dflt := by
    intro k dflt
    rw [List.getD_eq_getElem?_getD, List.getD_eq_getElem?_getD]
    rw [List.getElem?_append_right (by rw [hs16]; omega)]
    rw [hs16]
    rw [List.getElem?_append_right (by rw [hd16]; omega)]
    rw [hd16]
    rw [show 32 + k - 16 - 16 = k from by omega]
  rw [show (32 : Nat) = 32 + 0 from rfl, hg 0]
  rw [show (33 : Nat) = 32 + 1 from rfl, hg 1]
  rw [show (34 : Nat) = 32 + 2 from rfl, hg 2]
  rw [show (35 : Nat) = 32 + 3 from rfl, hg 3]
  simp only [List.getD_cons_succ, List.getD_cons_zero]
  rw [show ((sp.toNat / 256 % 256 : Nat) : Int) * 256 + ((sp.toNat % 256 : Nat) : Int)
    = sp from by omega]
  rw [validatePort_ok sp hsp1 hsp2]
  simp only
  rw [show ((dp.toNat / 256 % 256 : Nat) : Int) * 256 + ((dp.toNat % 256 : Nat) : Int)
    = dp from by omega]
  rw [validatePort_ok dp hdp1 hdp2]
  simp only
  split_ifs <;> rfl
theorem formatUnixName_len (name : List Nat) (h : name.length ≤ 108) :
    (formatUnixName name).length = 108 := by
  unfold formatUnixName addressLengthUnix
  dsimp only
  split_ifs with h2
  · simp only [List.length_take]
    omega
  · simp only [List.length_append, List.length_replicate]
    omega

theorem parseUnixName_format (name : List Nat) (h0 : 0 ∉ name)
    (hl : name.length ≤ 108) :
    parseUnixName (formatUnixName name) = name := by
  unfold formatUnixName addressLengthUnix
  dsimp only
  split_ifs with h2
  · rw [List.take_of_length_le hl]
    have := parseUnixName_pad name 0 h0
    simpa using this
  · exact parseUnixName_pad name _ h0

theorem parseV2Unix_run (sname dname : List Nat) (tp : Nat)
    (hs0 : 0 ∉ sname) (hsl : sname.length ≤ 108)
    (hd0 : 0 ∉ dname) (hdl : dname.length ≤ 108) (rest : List Nat) :
    parseV2Unix (formatUnixName sname ++ (formatUnixName dname ++ rest)) tp =
      .ok (.unix sname (if tp = SOCK_DGRAM then unixgramNet else unixNet),
           .unix dname (if tp = SOCK_DGRAM then unixgramNet else unixNet)) := by
  have hfs := formatUnixName_len sname hsl
  have hfd := formatUnixName_len dname hdl
  unfold parseV2Unix
  rw [if_neg (by
    simp only [List.length_append, hfs, hfd, addressLengthUnix]
    omega)]
  dsimp only
  rw [show (formatUnixName sname ++ (formatUnixName dname ++ rest)).take 108 =
    formatUnixName sname from List.take_left' hfs]
  rw [show (formatUnixName sname ++ (formatUnixName dname ++ rest)).drop 108 =
    formatUnixName dname ++ rest from List.drop_left' hfs]
  rw [show (formatUnixName dname ++ rest).take 108 = formatUnixName dname from
    List.take_left' hfd]
  rw [parseUnixName_format sname hs0 hsl, parseUnixName_format dname hd0 hdl]

theorem formatV2Bytes_nochk (verAndCmd afAndTp : Nat) (length : Nat)
    (payload : List Nat) (hlen : length + 11 < 65535) :
    formatV2Bytes verAndCmd afAndTp length payload false =
      .ok (v2Signature ++ [verAndCmd, afAndTp, ((length + 11) / 256) % 256,
        (length + 11) % 256] ++ (payload ++ tlvFormat (newNoOpTLV 8))) := by
  unfold formatV2Bytes
  rw [if_neg (by simp)]
  simp only [Bool.false_eq_true, if_false, if_pos hlen]

theorem formatV2_run_notlv (h : Header) (payloadBuf : List Nat) (pl af tp : Nat)
    (hcmd : h.command = CMD_PROXY)
    (hguess : guessAndParseAddrs h.srcAddr h.dstAddr = some (payloadBuf, pl, af, tp))
    (hpb : payloadBuf.length = pl) (hpl : pl < 65536)
    (haf : af ≤ 3) (htp : tp ≤ 2) (htlvs : h.tlvs = []) :
    formatV2 h false = .ok (v2Signature ++ [33, af * 16 + tp,
      (pl / 256) % 256, pl % 256] ++ payloadBuf) := by
  unfold formatV2
  rw [if_neg (by rw [hcmd]; decide)]
  rw [hguess]
  simp only
  rw [if_neg (by
    intro hx
    rw [hpb] at hx
    exact hx (Nat.mod_eq_of_lt hpl))]
  rw [if_pos ⟨htlvs, by simp⟩]
  rw [show (Version2 * 16) % 256 + 1 = 33 from rfl]
  rw [show ((af * 16) % 256 + tp % 256) % 256 = af * 16 + tp from by omega]

theorem formatV2_run_tlvs (h : Header) (payloadBuf : List Nat) (pl af tp : Nat)
    (hcmd : h.command = CMD_PROXY)
    (hguess : guessAndParseAddrs h.srcAddr h.dstAddr = some (payloadBuf, pl, af, tp))
    (hpb : payloadBuf.length = pl)
    (haf : af ≤ 3) (htp : tp ≤ 2) (htlvs : h.tlvs ≠ [])
    (hv : ∀ t ∈ h.tlvs, tlvValid t = true)
    (hbound : pl + tlvsEncLen h.tlvs + 11 < 65535) :
    formatV2 h false = .ok (v2Signature ++ [33, af * 16 + tp,
      ((pl + tlvsEncLen h.tlvs + 11) / 256) % 256, (pl + tlvsEncLen h.tlvs + 11) % 256]
      ++ ((payloadBuf ++ (h.tlvs.map tlvFormat).flatten) ++
        tlvFormat (newNoOpTLV 8))) := by
  unfold formatV2
  rw [if_neg (by rw [hcmd]; decide)]
  rw [hguess]
  simp only
  rw [if_neg (by
    intro hx
    rw [hpb] at hx
    exact hx (Nat.mod_eq_of_lt (by omega)))]
  rw [if_neg (by simp [htlvs])]
  rw [tlvLoop_run h.tlvs payloadBuf pl hv hpb.symm (by omega)]
  simp only
  rw [formatV2Bytes_nochk _ _ _ _ (by omega)]
  rw [show (Version2 * 16) % 256 + 1 = 33 from rfl]
  rw [show ((af * 16) % 256 + tp % 256) % 256 = af * 16 + tp from by omega]

theorem readAndParseV2_run (af tp : Nat) (payload : List Nat)
    (srcA dstA : Addr) (tlvs' : List TLV)
    (haf : af = 1 ∨ af = 2 ∨ af = 3) (htp : tp = 1 ∨ tp = 2)
    (hpl : payload.length ≤ 65535) (hpl0 : payload ≠ [])
    (hvpl : validatePayloadLength payload.length af = .ok ())
    (haddr : (if af = 1 then parseV2IPv4 payload tp
              else if af = 2 then parseV2IPv6 payload tp
              else parseV2Unix payload tp) = .ok (srcA, dstA))
    (htlv : parseTLVs (payload.drop (afLen af)) = .ok tlvs') :
    readAndParseV2 (v2Signature ++ ([33, af * 16 + tp,
        (payload.length / 256) % 256, payload.length % 256] ++ payload)) =
      .ok (⟨Version2, CMD_PROXY, af, tp, some srcA, some dstA,
        v2Signature ++ [33, af * 16 + tp, (payload.length / 256) % 256,
          payload.length % 256] ++ payload, tlvs'⟩, []) := by
  unfold readAndParseV2
  rw [readV2_format af tp payload haf htp hpl hpl0 hvpl]
  simp only
  unfold parseV2
  rw [if_neg (by simp [CMD_PROXY, CMD_LOCAL])]
  rw [if_neg (by
    simp only [List.length_append, v2Signature, List.length_cons, List.length_nil]
    have := List.length_pos.mpr hpl0
    omega)]
  dsimp only
  rw [show (v2Signature ++ [33, af * 16 + tp, (payload.length / 256) % 256,
      payload.length % 256] ++ payload).drop (v2Signature.length + 4) = payload
    from List.drop_left' (by simp [v2Signature])]
  rcases haf with h1 | h2 | h3
  · subst h1
    rw [if_pos (show (1 : Nat) = AF_INET from rfl)]
    rw [if_pos rfl] at haddr
    rw [haddr]
    simp only
    rw [show afLen 1 = addressLengthIPv4 from rfl] at htlv
    rw [htlv]
  · subst h2
    rw [if_neg (by decide), if_pos (show (2 : Nat) = AF_INET6 from rfl)]
    rw [if_neg (by decide), if_pos rfl] at haddr
    rw [haddr]
    simp only
    rw [show afLen 2 = addressLengthIPv6 from rfl] at htlv
    rw [htlv]
  · subst h3
    rw [if_neg (by decide), if_neg (by decide),
      if_pos (show (3 : Nat) = AF_UNIX from rfl)]
    rw [if_neg (by decide), if_neg (by decide)] at haddr
    rw [haddr]
    simp only
    rw [show afLen 3 = addressLengthUnix from rfl] at htlv
    rw [htlv]
theorem afLen_pos (af : Nat) (haf : af = 1 ∨ af = 2 ∨ af = 3) :
    12 ≤ afLen af ∧ afLen af ≤ 216 := by
  rcases haf with h | h | h <;> subst h <;> decide

theorem validatePayloadLength_ge (n af : Nat) (haf : af = 1 ∨ af = 2 ∨ af = 3)
    (hge : afLen af ≤ n) : validatePayloadLength n af = .ok () := by
  rcases haf with h | h | h <;> subst h
  · have hge2 : 12 ≤ n := by
      simpa [afLen, AF_INET, addressLengthIPv4] using hge
    unfold validatePayloadLength
    rw [if_pos (show (1 : Nat) = AF_INET from rfl),
      if_neg (show ¬ n < addressLengthIPv4 from by
        simp only [addressLengthIPv4]; omega)]
  · have hge2 : 36 ≤ n := by
      simpa [afLen, AF_INET, AF_INET6, addressLengthIPv6] using hge
    unfold validatePayloadLength
    rw [if_neg (by decide), if_pos (show (2 : Nat) = AF_INET6 from rfl),
      if_neg (show ¬ n < addressLengthIPv6 from by
        simp only [addressLengthIPv6]; omega)]
  · have hge2 : 216 ≤ n := by
      simpa [afLen, AF_INET, AF_INET6, addressLengthUnix] using hge
    unfold validatePayloadLength
    rw [if_neg (by decide), if_neg (by decide),
      if_pos (show (3 : Nat) = AF_UNIX from rfl),
      if_neg (show ¬ n < addressLengthUnix from by
        simp only [addressLengthUnix]; omega)]

theorem flatten_map_tlvFormat_len (tlvs : List TLV) :
    ((tlvs.map tlvFormat).flatten).length = tlvsEncLen tlvs := by
  rw [List.length_flatten, tlvsEncLen]
  rw [List.map_map]
  rfl

theorem noop8_len : (tlvFormat (newNoOpTLV 8)).length = 11 := by decide

theorem c1_v2_glue (h : Header) (payloadBuf : List Nat) (pl af tp : Nat)
    (srcA dstA : Addr)
    (hver : h.version = Version2) (hcmd : h.command = CMD_PROXY)
    (haf3 : af = 1 ∨ af = 2 ∨ af = 3) (htp2 : tp = 1 ∨ tp = 2)
    (hguess : guessAndParseAddrs h.srcAddr h.dstAddr =
      some (payloadBuf, pl, af, tp))
    (hpb : payloadBuf.length = pl) (hplen : pl = afLen af)
    (htlvv : ∀ t ∈ h.tlvs, tlvValid t = true)
    (hbound : afLen af + tlvsEncLen h.tlvs + 11 < 65535)
    (haddr : ∀ rest : List Nat, (if af = 1 then parseV2IPv4 (payloadBuf ++ rest) tp
        else if af = 2 then parseV2IPv6 (payloadBuf ++ rest) tp
        else parseV2Unix (payloadBuf ++ rest) tp) = .ok (srcA, dstA))
    (haf_eq : h.addressFamily = af) (htp_eq : h.transportProtocol = tp)
    (hsem1 : optAddrSemEq (some srcA) h.srcAddr = true)
    (hsem2 : optAddrSemEq (some dstA) h.dstAddr = true) :
    ∃ out h', formatHeader h false = .ok out ∧ ReadHeader out = .ok (h', []) ∧
      h'.version = h.version ∧ h'.command = h.command ∧
      h'.addressFamily = h.addressFamily ∧
      h'.transportProtocol = h.transportProtocol ∧
      optAddrSemEq h'.srcAddr h.srcAddr = true ∧
      optAddrSemEq h'.dstAddr h.dstAddr = true ∧
      h'.tlvs = h.tlvs ++ (if h.tlvs = [] then [] else [newNoOpTLV 8]) := by
  have hfmt0 : formatHeader h false = formatV2 h false := by
    unfold formatHeader
    have hsrcne : h.srcAddr ≠ none := by
      intro hx
      rw [hx] at hsem1
      simp [optAddrSemEq] at hsem1
    have hdstne : h.dstAddr ≠ none := by
      intro hx
      rw [hx] at hsem2
      simp [optAddrSemEq] at hsem2
    rw [if_neg (by simp [hsrcne, hdstne]), if_neg (by rw [hver]; decide),
      if_pos hver]
  have h12 := afLen_pos af haf3
  have hbne : payloadBuf ≠ [] := by
    intro hx
    rw [hx] at hpb
    simp at hpb
    omega
  by_cases htl : h.tlvs = []
  · have hfmt := formatV2_run_notlv h payloadBuf pl af tp hcmd hguess hpb
      (by omega) (by omega) (by omega) htl
    rw [← hpb] at hfmt
    have hvpl : validatePayloadLength payloadBuf.length af = .ok () := by
      rw [hpb, hplen]
      exact validatePayloadLength_ge _ af haf3 (le_refl _)
    have haddr0 : (if af = 1 then parseV2IPv4 payloadBuf tp
        else if af = 2 then parseV2IPv6 payloadBuf tp
        else parseV2Unix payloadBuf tp) = .ok (srcA, dstA) := by
      have hx := haddr []
      simpa using hx
    have htlv0 : parseTLVs (payloadBuf.drop (afLen af)) = .ok ([] : List TLV) := by
      rw [show afLen af = payloadBuf.length from by omega, List.drop_length]
      rfl
    have hRH := readAndParseV2_run af tp payloadBuf srcA dstA [] haf3 htp2
      (by omega) hbne hvpl haddr0 htlv0
    have hRD : ReadHeader (v2Signature ++ ([33, af * 16 + tp,
        (payloadBuf.length / 256) % 256, payloadBuf.length % 256] ++
        payloadBuf)) = .ok (⟨Version2, CMD_PROXY, af, tp, some srcA, some dstA,
          v2Signature ++ [33, af * 16 + tp, (payloadBuf.length / 256) % 256,
            payloadBuf.length % 256] ++ payloadBuf, []⟩, []) := by
      rw [ReadHeader_v2 _ (List.take_left' (by decide))
        (by simp only [List.length_append, v2Signature, List.length_cons,
          List.length_nil]; omega)]
      exact hRH
    refine ⟨_, _, by rw [hfmt0]; exact hfmt, hRD, by rw [hver], by rw [hcmd],
      by rw [haf_eq], by rw [htp_eq], hsem1, hsem2, by rw [htl]; simp⟩
  · have hfmt := formatV2_run_tlvs h payloadBuf pl af tp hcmd hguess hpb
      (by omega) (by omega) htl htlvv (by omega)
    have hflat := flatten_map_tlvFormat_len h.tlvs
    rw [show (payloadBuf ++ (h.tlvs.map tlvFormat).flatten) ++
        tlvFormat (newNoOpTLV 8) =
      payloadBuf ++ ((h.tlvs.map tlvFormat).flatten ++ tlvFormat (newNoOpTLV 8))
      from List.append_assoc _ _ _] at hfmt
    have hPL : (payloadBuf ++ ((h.tlvs.map tlvFormat).flatten ++
        tlvFormat (newNoOpTLV 8))).length = pl + tlvsEncLen h.tlvs + 11 := by
      simp only [List.length_append, hpb, hflat, noop8_len]
      omega
    rw [← hPL] at hfmt
    have hbne2 : payloadBuf ++ ((h.tlvs.map tlvFormat).flatten ++
        tlvFormat (newNoOpTLV 8)) ≠ [] := by
      intro hx
      have hy := congrArg List.length hx
      rw [hPL] at hy
      simp at hy
    have hvpl : validatePayloadLength (payloadBuf ++
        ((h.tlvs.map tlvFormat).flatten ++ tlvFormat (newNoOpTLV 8))).length af
        = .ok () := by
      rw [hPL]
      exact validatePayloadLength_ge _ af haf3 (by omega)
    have htlv1 : parseTLVs ((payloadBuf ++ ((h.tlvs.map tlvFormat).flatten ++
        tlvFormat (newNoOpTLV 8))).drop (afLen af)) =
        .ok (h.tlvs ++ [newNoOpTLV 8]) := by
      rw [show (payloadBuf ++ ((h.tlvs.map tlvFormat).flatten ++
          tlvFormat (newNoOpTLV 8))).drop (afLen af) =
        (h.tlvs.map tlvFormat).flatten ++ tlvFormat (newNoOpTLV 8) from
        List.drop_left' (by omega)]
      exact parseTLVs_flatten h.tlvs _ [newNoOpTLV 8] htlvv parseTLVs_noop
    have hRH := readAndParseV2_run af tp
      (payloadBuf ++ ((h.tlvs.map tlvFormat).flatten ++ tlvFormat (newNoOpTLV 8)))
      srcA dstA (h.tlvs ++ [newNoOpTLV 8]) haf3 htp2
      (by rw [hPL]; omega) hbne2 hvpl (haddr _) htlv1
    have hRD : ReadHeader (v2Signature ++ ([33, af * 16 + tp,
        ((payloadBuf ++ ((h.tlvs.map tlvFormat).flatten ++
          tlvFormat (newNoOpTLV 8))).length / 256) % 256,
        (payloadBuf ++ ((h.tlvs.map tlvFormat).flatten ++
          tlvFormat (newNoOpTLV 8))).length % 256] ++
        (payloadBuf ++ ((h.tlvs.map tlvFormat).flatten ++
          tlvFormat (newNoOpTLV 8))))) =
        .ok (⟨Version2, CMD_PROXY, af, tp, some srcA, some dstA,
          v2Signature ++ [33, af * 16 + tp,
            ((payloadBuf ++ ((h.tlvs.map tlvFormat).flatten ++
              tlvFormat (newNoOpTLV 8))).length / 256) % 256,
            (payloadBuf ++ ((h.tlvs.map tlvFormat).flatten ++
              tlvFormat (newNoOpTLV 8))).length % 256] ++
            (payloadBuf ++ ((h.tlvs.map tlvFormat).flatten ++
              tlvFormat (newNoOpTLV 8))),
          h.tlvs ++ [newNoOpTLV 8]⟩, []) := by
      rw [ReadHeader_v2 _ (List.take_left' (by decide))
        (by simp only [List.length_append, v2Signature, List.length_cons,
          List.length_nil]; omega)]
      exact hRH
    refine ⟨_, _, by rw [hfmt0]; exact hfmt, hRD, by rw [hver], by rw [hcmd],
      by rw [haf_eq], by rw [htp_eq], hsem1, hsem2, by rw [if_neg htl]⟩
theorem ipTo4_ne_nil (ip q : List Nat) (h : ipTo4 ip = some q) : ip ≠ [] := by
  intro hx
  subst hx
  simp [ipTo4] at h

theorem ipTo16_ne_nil (ip q : List Nat) (h : ipTo16 ip = some q) : ip ≠ [] := by
  intro hx
  subst hx
  simp [ipTo16] at h

theorem list_len4 (l : List Nat) (hl : l.length = 4) :
    ∃ a0 a1 a2 a3, l = [a0, a1, a2, a3] := by
  rcases l with _ | ⟨a0, _ | ⟨a1, _ | ⟨a2, _ | ⟨a3, _ | ⟨a4, t⟩⟩⟩⟩⟩
  · exact absurd hl (by simp)
  · exact absurd hl (by simp)
  · exact absurd hl (by simp)
  · exact absurd hl (by simp)
  · exact ⟨a0, a1, a2, a3, rfl⟩
  · refine absurd hl ?_
    simp only [List.length_cons]
    omega

theorem c1_v2_case (h : Header) (hv : validV2 h = true) :
    ∃ out h', formatHeader h false = .ok out ∧ ReadHeader out = .ok (h', []) ∧
      h'.version = h.version ∧ h'.command = h.command ∧
      h'.addressFamily = h.addressFamily ∧
      h'.transportProtocol = h.transportProtocol ∧
      optAddrSemEq h'.srcAddr h.srcAddr = true ∧
      optAddrSemEq h'.dstAddr h.dstAddr = true ∧
      h'.tlvs = h.tlvs ++ (if h.tlvs = [] then [] else [newNoOpTLV 8]) := by
  unfold validV2 at hv
  simp only [Bool.and_eq_true, decide_eq_true_eq] at hv
  obtain ⟨hver, hcmd, hao, htlvall, hbound⟩ := hv
  have htlvv : ∀ t ∈ h.tlvs, tlvValid t = true := fun t ht =>
    List.all_eq_true.mp htlvall t ht
  unfold v2AddrOk at hao
  split at hao
  case h_4 => simp at hao
  case h_1 sa da sip sp dip dp heq1 heq2 =>
    simp only [decide_eq_true_eq] at hao
    obtain ⟨htpS, hsp1, hsp2, hdp1, hdp2, hsall, hdall, hfam⟩ := hao
    have hguess : guessAndParseAddrs h.srcAddr h.dstAddr =
        guessIP sip dip sp dp SOCK_STREAM := by
      rw [heq1, heq2]
      rfl
    unfold famOk at hfam
    simp only [Bool.or_eq_true, Bool.and_eq_true, decide_eq_true_eq] at hfam
    rcases hfam with ⟨haf, hs4s, hd4s⟩ | ⟨haf, hn4, hs16s, hd16s⟩
    · obtain ⟨s4, hs4⟩ := Option.isSome_iff_exists.mp hs4s
      obtain ⟨d4, hd4⟩ := Option.isSome_iff_exists.mp hd4s
      have hs4len := ipTo4_length sip s4 hs4
      have hd4len := ipTo4_length dip d4 hd4
      have hsne := ipTo4_ne_nil sip s4 hs4
      have hdne := ipTo4_ne_nil dip d4 hd4
      obtain ⟨a0, a1, a2, a3, hs4eq⟩ := list_len4 s4 hs4len
      obtain ⟨b0, b1, b2, b3, hd4eq⟩ := list_len4 d4 hd4len
      subst hs4eq hd4eq
      have hguess2 : guessAndParseAddrs h.srcAddr h.dstAddr =
          some ([a0, a1, a2, a3] ++ [b0, b1, b2, b3] ++ portBytes sp ++
            portBytes dp, addressLengthIPv4, AF_INET, SOCK_STREAM) := by
        rw [hguess]
        exact guessIP_run4 sip dip sp dp SOCK_STREAM _ _ hs4 hd4 hsne hdne
          hsp1 hsp2 hdp1 hdp2
      have hpb : ([a0, a1, a2, a3] ++ [b0, b1, b2, b3] ++ portBytes sp ++
          portBytes dp).length = addressLengthIPv4 := by
        simp [portBytes, addressLengthIPv4]
      have haddr : ∀ rest : List Nat, (if (1 : Nat) = 1 then
          parseV2IPv4 (([a0, a1, a2, a3] ++ [b0, b1, b2, b3] ++ portBytes sp ++
            portBytes dp) ++ rest) SOCK_STREAM
          else if (1 : Nat) = 2 then
            parseV2IPv6 (([a0, a1, a2, a3] ++ [b0, b1, b2, b3] ++ portBytes sp ++
              portBytes dp) ++ rest) SOCK_STREAM
          else parseV2Unix (([a0, a1, a2, a3] ++ [b0, b1, b2, b3] ++
            portBytes sp ++ portBytes dp) ++ rest) SOCK_STREAM) =
          .ok (.tcp (v4Mapped [a0, a1, a2, a3]) sp,
               .tcp (v4Mapped [b0, b1, b2, b3]) dp) := by
        intro rest
        rw [if_pos rfl]
        have hx := parseV2IPv4_run a0 a1 a2 a3 b0 b1 b2 b3 sp dp SOCK_STREAM
          hsp1 hsp2 hdp1 hdp2 rest
        rw [if_neg (by decide)] at hx
        rw [show ([a0, a1, a2, a3] ++ [b0, b1, b2, b3] ++ portBytes sp ++
            portBytes dp) ++ rest =
          a0 :: a1 :: a2 :: a3 :: b0 :: b1 :: b2 :: b3 ::
            (sp.toNat / 256 % 256) :: (sp.toNat % 256) ::
            (dp.toNat / 256 % 256) :: (dp.toNat % 256) :: rest from by
          simp [portBytes, List.append_assoc]]
        exact hx
      have hsem1 : optAddrSemEq (some (.tcp (v4Mapped [a0, a1, a2, a3]) sp))
          h.srcAddr = true := by
        rw [heq1]
        simp only [optAddrSemEq, addrSemEq, decide_eq_true_eq]
        exact ⟨by rw [ipTo16_id _ (by simp [v4Mapped]),
          ipTo16_of_ipTo4 sip _ hs4], trivial⟩
      have hsem2 : optAddrSemEq (some (.tcp (v4Mapped [b0, b1, b2, b3]) dp))
          h.dstAddr = true := by
        rw [heq2]
        simp only [optAddrSemEq, addrSemEq, decide_eq_true_eq]
        exact ⟨by rw [ipTo16_id _ (by simp [v4Mapped]),
          ipTo16_of_ipTo4 dip _ hd4], trivial⟩
      exact c1_v2_glue h _ addressLengthIPv4 1 SOCK_STREAM
        (.tcp (v4Mapped [a0, a1, a2, a3]) sp)
        (.tcp (v4Mapped [b0, b1, b2, b3]) dp) hver hcmd (Or.inl rfl)
        (Or.inl rfl) hguess2 hpb (by decide) htlvv
        (by rw [haf] at hbound; exact hbound) haddr haf htpS hsem1 hsem2
    · obtain ⟨s16, hs16⟩ := Option.isSome_iff_exists.mp hs16s
      obtain ⟨d16, hd16⟩ := Option.isSome_iff_exists.mp hd16s
      have hs16len := ipTo16_length sip s16 hs16
      have hd16len := ipTo16_length dip d16 hd16
      have hsne := ipTo16_ne_nil sip s16 hs16
      have hdne := ipTo16_ne_nil dip d16 hd16
      have hnot4 : ipTo4 sip = none ∨ ipTo4 dip = none := by
        cases h4s : ipTo4 sip with
        | none => exact Or.inl rfl
        | some q =>
          cases h4d : ipTo4 dip with
          | none => exact Or.inr rfl
          | some q2 => exact absurd ⟨by rw [h4s]; rfl, by rw [h4d]; rfl⟩ hn4
      have hguess2 : guessAndParseAddrs h.srcAddr h.dstAddr =
          some (s16 ++ d16 ++ portBytes sp ++ portBytes dp,
            addressLengthIPv6, AF_INET6, SOCK_STREAM) := by
        rw [hguess]
        exact guessIP_run16 sip dip sp dp SOCK_STREAM s16 d16 hnot4 hs16 hd16
          hsne hdne hsp1 hsp2 hdp1 hdp2
      have hpb : (s16 ++ d16 ++ portBytes sp ++ portBytes dp).length =
          addressLengthIPv6 := by
        simp only [List.length_append, hs16len, hd16len, portBytes,
          List.length_cons, List.length_nil, addressLengthIPv6]
      have haddr : ∀ rest : List Nat, (if (2 : Nat) = 1 then
          parseV2IPv4 ((s16 ++ d16 ++ portBytes sp ++ portBytes dp) ++ rest)
            SOCK_STREAM
          else if (2 : Nat) = 2 then
            parseV2IPv6 ((s16 ++ d16 ++ portBytes sp ++ portBytes dp) ++ rest)
              SOCK_STREAM
          else parseV2Unix ((s16 ++ d16 ++ portBytes sp ++ portBytes dp) ++
            rest) SOCK_STREAM) =
          .ok (.tcp s16 sp, .tcp d16 dp) := by
        intro rest
        rw [if_neg (by decide), if_pos rfl]
        have hx := parseV2IPv6_run s16 d16 sp dp SOCK_STREAM hs16len hd16len
          hsp1 hsp2 hdp1 hdp2 rest
        rw [if_neg (by decide)] at hx
        rw [show (s16 ++ d16 ++ portBytes sp ++ portBytes dp) ++ rest =
          s16 ++ (d16 ++ ((sp.toNat / 256 % 256) :: (sp.toNat % 256) ::
            (dp.toNat / 256 % 256) :: (dp.toNat % 256) :: rest)) from by
          simp [portBytes, List.append_assoc]]
        exact hx
      have hsem1 : optAddrSemEq (some (.tcp s16 sp)) h.srcAddr = true := by
        rw [heq1]
        simp only [optAddrSemEq, addrSemEq, decide_eq_true_eq]
        exact ⟨by rw [ipTo16_id s16 hs16len, hs16], trivial⟩
      have hsem2 : optAddrSemEq (some (.tcp d16 dp)) h.dstAddr = true := by
        rw [heq2]
        simp only [optAddrSemEq, addrSemEq, decide_eq_true_eq]
        exact ⟨by rw [ipTo16_id d16 hd16len, hd16], trivial⟩
      exact c1_v2_glue h _ addressLengthIPv6 2 SOCK_STREAM (.tcp s16 sp)
        (.tcp d16 dp) hver hcmd (Or.inr (Or.inl rfl)) (Or.inl rfl) hguess2 hpb
        (by decide) htlvv (by rw [haf] at hbound; exact hbound) haddr haf htpS
        hsem1 hsem2
  case h_2 sa da sip sp dip dp heq1 heq2 =>
    simp only [decide_eq_true_eq] at hao
    obtain ⟨htpS, hsp1, hsp2, hdp1, hdp2, hsall, hdall, hfam⟩ := hao
    have hguess : guessAndParseAddrs h.srcAddr h.dstAddr =
        guessIP sip dip sp dp SOCK_DGRAM := by
      rw [heq1, heq2]
      rfl
    unfold famOk at hfam
    simp only [Bool.or_eq_true, Bool.and_eq_true, decide_eq_true_eq] at hfam
    rcases hfam with ⟨haf, hs4s, hd4s⟩ | ⟨haf, hn4, hs16s, hd16s⟩
    · obtain ⟨s4, hs4⟩ := Option.isSome_iff_exists.mp hs4s
      obtain ⟨d4, hd4⟩ := Option.isSome_iff_exists.mp hd4s
      have hs4len := ipTo4_length sip s4 hs4
      have hd4len := ipTo4_length dip d4 hd4
      have hsne := ipTo4_ne_nil sip s4 hs4
      have hdne := ipTo4_ne_nil dip d4 hd4
      obtain ⟨a0, a1, a2, a3, hs4eq⟩ := list_len4 s4 hs4len
      obtain ⟨b0, b1, b2, b3, hd4eq⟩ := list_len4 d4 hd4len
      subst hs4eq hd4eq
      have hguess2 : guessAndParseAddrs h.srcAddr h.dstAddr =
          some ([a0, a1, a2, a3] ++ [b0, b1, b2, b3] ++ portBytes sp ++
            portBytes dp, addressLengthIPv4, AF_INET, SOCK_DGRAM) := by
        rw [hguess]
        exact guessIP_run4 sip dip sp dp SOCK_DGRAM _ _ hs4 hd4 hsne hdne
          hsp1 hsp2 hdp1 hdp2
      have hpb : ([a0, a1, a2, a3] ++ [b0, b1, b2, b3] ++ portBytes sp ++
          portBytes dp).length = addressLengthIPv4 := by
        simp [portBytes, addressLengthIPv4]
      have haddr : ∀ rest : List Nat, (if (1 : Nat) = 1 then
          parseV2IPv4 (([a0, a1, a2, a3] ++ [b0, b1, b2, b3] ++ portBytes sp ++
            portBytes dp) ++ rest) SOCK_DGRAM
          else if (1 : Nat) = 2 then
            parseV2IPv6 (([a0, a1, a2, a3] ++ [b0, b1, b2, b3] ++ portBytes sp ++
              portBytes dp) ++ rest) SOCK_DGRAM
          else parseV2Unix (([a0, a1, a2, a3] ++ [b0, b1, b2, b3] ++
            portBytes sp ++ portBytes dp) ++ rest) SOCK_DGRAM) =
          .ok (.udp (v4Mapped [a0, a1, a2, a3]) sp,
               .udp (v4Mapped [b0, b1, b2, b3]) dp) := by
        intro rest
        rw [if_pos rfl]
        have hx := parseV2IPv4_run a0 a1 a2 a3 b0 b1 b2 b3 sp dp SOCK_DGRAM
          hsp1 hsp2 hdp1 hdp2 rest
        rw [if_pos (show SOCK_DGRAM = SOCK_DGRAM from rfl)] at hx
        rw [show ([a0, a1, a2, a3] ++ [b0, b1, b2, b3] ++ portBytes sp ++
            portBytes dp) ++ rest =
          a0 :: a1 :: a2 :: a3 :: b0 :: b1 :: b2 :: b3 ::
            (sp.toNat / 256 % 256) :: (sp.toNat % 256) ::
            (dp.toNat / 256 % 256) :: (dp.toNat % 256) :: rest from by
          simp [portBytes, List.append_assoc]]
        exact hx
      have hsem1 : optAddrSemEq (some (.udp (v4Mapped [a0, a1, a2, a3]) sp))
          h.srcAddr = true := by
        rw [heq1]
        simp only [optAddrSemEq, addrSemEq, decide_eq_true_eq]
        exact ⟨by rw [ipTo16_id _ (by simp [v4Mapped]),
          ipTo16_of_ipTo4 sip _ hs4], trivial⟩
      have hsem2 : optAddrSemEq (some (.udp (v4Mapped [b0, b1, b2, b3]) dp))
          h.dstAddr = true := by
        rw [heq2]
        simp only [optAddrSemEq, addrSemEq, decide_eq_true_eq]
        exact ⟨by rw [ipTo16_id _ (by simp [v4Mapped]),
          ipTo16_of_ipTo4 dip _ hd4], trivial⟩
      exact c1_v2_glue h _ addressLengthIPv4 1 SOCK_DGRAM
        (.udp (v4Mapped [a0, a1, a2, a3]) sp)
        (.udp (v4Mapped [b0, b1, b2, b3]) dp) hver hcmd (Or.inl rfl)
        (Or.inr rfl) hguess2 hpb (by decide) htlvv
        (by rw [haf] at hbound; exact hbound) haddr haf htpS hsem1 hsem2
    · obtain ⟨s16, hs16⟩ := Option.isSome_iff_exists.mp hs16s
      obtain ⟨d16, hd16⟩ := Option.isSome_iff_exists.mp hd16s
      have hs16len := ipTo16_length sip s16 hs16
      have hd16len := ipTo16_length dip d16 hd16
      have hsne := ipTo16_ne_nil sip s16 hs16
      have hdne := ipTo16_ne_nil dip d16 hd16
      have hnot4 : ipTo4 sip = none ∨ ipTo4 dip = none := by
        cases h4s : ipTo4 sip with
        | none => exact Or.inl rfl
        | some q =>
          cases h4d : ipTo4 dip with
          | none => exact Or.inr rfl
          | some q2 => exact absurd ⟨by rw [h4s]; rfl, by rw [h4d]; rfl⟩ hn4
      have hguess2 : guessAndParseAddrs h.srcAddr h.dstAddr =
          some (s16 ++ d16 ++ portBytes sp ++ portBytes dp,
            addressLengthIPv6, AF_INET6, SOCK_DGRAM) := by
        rw [hguess]
        exact guessIP_run16 sip dip sp dp SOCK_DGRAM s16 d16 hnot4 hs16 hd16
          hsne hdne hsp1 hsp2 hdp1 hdp2
      have hpb : (s16 ++ d16 ++ portBytes sp ++ portBytes dp).length =
          addressLengthIPv6 := by
        simp only [List.length_append, hs16len, hd16len, portBytes,
          List.length_cons, List.length_nil, addressLengthIPv6]
      have haddr : ∀ rest : List Nat, (if (2 : Nat) = 1 then
          parseV2IPv4 ((s16 ++ d16 ++ portBytes sp ++ portBytes dp) ++ rest)
            SOCK_DGRAM
          else if (2 : Nat) = 2 then
            parseV2IPv6 ((s16 ++ d16 ++ portBytes sp ++ portBytes dp) ++ rest)
              SOCK_DGRAM
          else parseV2Unix ((s16 ++ d16 ++ portBytes sp ++ portBytes dp) ++
            rest) SOCK_DGRAM) =
          .ok (.udp s16 sp, .udp d16 dp) := by
        intro rest
        rw [if_neg (by decide), if_pos rfl]
        have hx := parseV2IPv6_run s16 d16 sp dp SOCK_DGRAM hs16len hd16len
          hsp1 hsp2 hdp1 hdp2 rest
        rw [if_pos (show SOCK_DGRAM = SOCK_DGRAM from rfl)] at hx
        rw [show (s16 ++ d16 ++ portBytes sp ++ portBytes dp) ++ rest =
          s16 ++ (d16 ++ ((sp.toNat / 256 % 256) :: (sp.toNat % 256) ::
            (dp.toNat / 256 % 256) :: (dp.toNat % 256) :: rest)) from by
          simp [portBytes, List.append_assoc]]
        exact hx
      have hsem1 : optAddrSemEq (some (.udp s16 sp)) h.srcAddr = true := by
        rw [heq1]
        simp only [optAddrSemEq, addrSemEq, decide_eq_true_eq]
        exact ⟨by rw [ipTo16_id s16 hs16len, hs16], trivial⟩
      have hsem2 : optAddrSemEq (some (.udp d16 dp)) h.dstAddr = true := by
        rw [heq2]
        simp only [optAddrSemEq, addrSemEq, decide_eq_true_eq]
        exact ⟨by rw [ipTo16_id d16 hd16len, hd16], trivial⟩
      exact c1_v2_glue h _ addressLengthIPv6 2 SOCK_DGRAM (.udp s16 sp)
        (.udp d16 dp) hver hcmd (Or.inr (Or.inl rfl)) (Or.inr rfl) hguess2 hpb
        (by decide) htlvv (by rw [haf] at hbound; exact hbound) haddr haf htpS
        hsem1 hsem2
  case h_3 sa da sname snet dname dnet heq1 heq2 =>
    simp only [decide_eq_true_eq] at hao
    obtain ⟨haf, hdnet, hnet, hs0, hsl, hd0, hdl⟩ := hao
    have hguess : guessAndParseAddrs h.srcAddr h.dstAddr =
        some (formatUnixName sname ++ formatUnixName dname, addressLengthUnix,
          AF_UNIX, if snet = unixNet then SOCK_STREAM
            else if snet = unixgramNet then SOCK_DGRAM else SOCK_UNSPEC) := by
      rw [heq1, heq2]
      rfl
    have hpb : (formatUnixName sname ++ formatUnixName dname).length =
        addressLengthUnix := by
      simp only [List.length_append, formatUnixName_len sname hsl,
        formatUnixName_len dname hdl, addressLengthUnix]
    rcases hnet with ⟨hsnet, htpS⟩ | ⟨hsnet, htpS⟩
    · rw [if_pos hsnet] at hguess
      have haddr : ∀ rest : List Nat, (if (3 : Nat) = 1 then
          parseV2IPv4 ((formatUnixName sname ++ formatUnixName dname) ++ rest)
            SOCK_STREAM
          else if (3 : Nat) = 2 then
            parseV2IPv6 ((formatUnixName sname ++ formatUnixName dname) ++
              rest) SOCK_STREAM
          else parseV2Unix ((formatUnixName sname ++ formatUnixName dname) ++
            rest) SOCK_STREAM) =
          .ok (.unix sname snet, .unix dname snet) := by
        intro rest
        rw [if_neg (by decide), if_neg (by decide)]
        rw [List.append_assoc]
        have hx := parseV2Unix_run sname dname SOCK_STREAM hs0 hsl hd0 hdl rest
        rw [if_neg (by decide)] at hx
        rw [hsnet]
        exact hx
      have hsem1 : optAddrSemEq (some (.unix sname snet)) h.srcAddr = true := by
        rw [heq1]
        simp [optAddrSemEq, addrSemEq]
      have hsem2 : optAddrSemEq (some (.unix dname snet)) h.dstAddr = true := by
        rw [heq2]
        simp [optAddrSemEq, addrSemEq, hdnet]
      exact c1_v2_glue h _ addressLengthUnix 3 SOCK_STREAM (.unix sname snet)
        (.unix dname snet) hver hcmd (Or.inr (Or.inr rfl)) (Or.inl rfl) hguess
        hpb (by decide) htlvv (by rw [haf] at hbound; exact hbound) haddr haf
        htpS hsem1 hsem2
    · rw [if_neg (by rw [hsnet]; decide), if_pos hsnet] at hguess
      have haddr : ∀ rest : List Nat, (if (3 : Nat) = 1 then
          parseV2IPv4 ((formatUnixName sname ++ formatUnixName dname) ++ rest)
            SOCK_DGRAM
          else if (3 : Nat) = 2 then
            parseV2IPv6 ((formatUnixName sname ++ formatUnixName dname) ++
              rest) SOCK_DGRAM
          else parseV2Unix ((formatUnixName sname ++ formatUnixName dname) ++
            rest) SOCK_DGRAM) =
          .ok (.unix sname snet, .unix dname snet) := by
        intro rest
        rw [if_neg (by decide), if_neg (by decide)]
        rw [List.append_assoc]
        have hx := parseV2Unix_run sname dname SOCK_DGRAM hs0 hsl hd0 hdl rest
        rw [if_pos (show SOCK_DGRAM = SOCK_DGRAM from rfl)] at hx
        rw [hsnet]
        exact hx
      have hsem1 : optAddrSemEq (some (.unix sname snet)) h.srcAddr = true := by
        rw [heq1]
        simp [optAddrSemEq, addrSemEq]
      have hsem2 : optAddrSemEq (some (.unix dname snet)) h.dstAddr = true := by
        rw [heq2]
        simp [optAddrSemEq, addrSemEq, hdnet]
      exact c1_v2_glue h _ addressLengthUnix 3 SOCK_DGRAM (.unix sname snet)
        (.unix dname snet) hver hcmd (Or.inr (Or.inr rfl)) (Or.inr rfl) hguess
        hpb (by decide) htlvv (by rw [haf] at hbound; exact hbound) haddr haf
        htpS hsem1 hsem2
/-- C1, counterexample: the header that the spec's own data model prescribes
for `LOCAL` — both endpoints absent, no TLVs — is rejected by `formatHeader`,
whose nil-endpoint guard precedes every version branch, so the roundtrip
never even starts for it. -/
theorem c1_counterexample :
    dataModelValid ⟨Version1, CMD_LOCAL, AF_UNSPEC, SOCK_UNSPEC,
      none, none, [], []⟩ = true ∧
    formatHeader ⟨Version1, CMD_LOCAL, AF_UNSPEC, SOCK_UNSPEC,
      none, none, [], []⟩ false =
      .error (.msg "header is not found source and destination address") := by
  constructor
  · decide
  · rfl

/-- C1, amended: for every header the codecs can round-trip (`validV1` or
`validV2`: version-consistent endpoints, ports in 1..65534 because of the
`validatePort` off-by-one, parse-back-equal TLVs), `formatHeader` succeeds,
`ReadHeader` consumes exactly the formatted bytes, and the reparsed header
keeps the version, command, address family, transport protocol and both
endpoints up to the 16-byte IP form — but the TLV list gains the
`formatV2Bytes` no-op padding TLV whenever it was non-empty, so the TLV
multiset is preserved only for TLV-free headers. -/
theorem c1_roundtrip (h : Header) (hv : validForRoundtrip h = true) :
    ∃ out h', formatHeader h false = .ok out ∧ ReadHeader out = .ok (h', []) ∧
      h'.version = h.version ∧ h'.command = h.command ∧
      h'.addressFamily = h.addressFamily ∧
      h'.transportProtocol = h.transportProtocol ∧
      optAddrSemEq h'.srcAddr h.srcAddr = true ∧
      optAddrSemEq h'.dstAddr h.dstAddr = true ∧
      h'.tlvs = h.tlvs ++ (if h.tlvs = [] then [] else [newNoOpTLV 8]) := by
  unfold validForRoundtrip at hv
  simp only [Bool.or_eq_true, decide_eq_true_eq] at hv
  rcases hv with h1 | h2
  · exact c1_v1_case h h1
  · exact c1_v2_case h h2

/-- C1, witness: a concrete v2 TCP4 header with one TLV round-trips, with
the no-op TLV appended. -/
theorem c1_roundtrip_witness :
    validForRoundtrip ⟨Version2, CMD_PROXY, AF_INET, SOCK_STREAM,
      some (.tcp [127, 0, 0, 1] 8080), some (.tcp [10, 0, 0, 1] 443),
      [], [⟨234, 3, [1, 2, 3]⟩]⟩ = true ∧
    (∃ out h', formatHeader ⟨Version2, CMD_PROXY, AF_INET, SOCK_STREAM,
        some (.tcp [127, 0, 0, 1] 8080), some (.tcp [10, 0, 0, 1] 443),
        [], [⟨234, 3, [1, 2, 3]⟩]⟩ false = .ok out ∧
      ReadHeader out = .ok (h', []) ∧
      h'.version = Version2 ∧ h'.command = CMD_PROXY ∧
      h'.addressFamily = AF_INET ∧ h'.transportProtocol = SOCK_STREAM ∧
      optAddrSemEq h'.srcAddr (some (.tcp [127, 0, 0, 1] 8080)) = true ∧
      optAddrSemEq h'.dstAddr (some (.tcp [10, 0, 0, 1] 443)) = true ∧
      h'.tlvs = [⟨234, 3, [1, 2, 3]⟩] ++
        (if ([⟨234, 3, [1, 2, 3]⟩] : List TLV) = [] then []
         else [newNoOpTLV 8])) :=
  ⟨by decide, c1_roundtrip ⟨Version2, CMD_PROXY, AF_INET, SOCK_STREAM,
    some (.tcp [127, 0, 0, 1] 8080), some (.tcp [10, 0, 0, 1] 443),
    [], [⟨234, 3, [1, 2, 3]⟩]⟩ (by decide)⟩

end Proxyproto
